import Mathlib

/-!
# Museum walkthrough: simulation loop, first-person controls, editor drag

A shallow embedding of `src/main.backup.js` (`MuseumApp.animate`),
`src/systems/controls.js` (`FirstPersonControls`) and `src/systems/Editor.js`
(`Editor`), with the display registry of `src/world/Museum.js` that the editor
picks from.

JavaScript numbers are read as elements of a linearly ordered field `α`
(exact arithmetic; `ℚ` to run the definitions, `ℝ` to state the theorems that
involve `Math.exp`, `Math.sin`, `Math.cos`, `Math.sqrt` and `Math.PI`).
The few places where the source itself handles `NaN` or `±Infinity`
(`Number(e.movementX) || 0` and the spike clamp) are modelled on the raw event
value type `JSNum`.
How many steps the fixed time-step loop runs depends on how the accumulator is
rounded, so `MuseumApp.animate` is embedded a second time on IEEE-754 binary64
values (`roundDouble`, `fixedStepLoop64`, `MuseumApp.animate64`): a double is
the rational it denotes, and every arithmetic operation rounds its exact
result to the nearest double, ties to even.
-/

set_option autoImplicit false
set_option linter.dupNamespace false

namespace Museum

/-! ## `main.backup.js`: the fixed time-step loop -/

section Loop

variable {α : Type} [LinearOrderedField α]

/-- The constant `fixedTimeStep = 0.01666` of `MuseumApp.animate`. -/
def fixedTimeStep : α := 1666 / 100000

/-- The cap `0.1` in `Math.min(this.clock.getDelta(), 0.1)`. -/
def maxDelta : α := 1 / 10

/-- The `while (this.accumulator >= fixedTimeStep)` loop of `MuseumApp.animate`:
each iteration calls `updatePhysics(fixedTimeStep)` (recorded in `calls`, the
list of arguments passed so far) and subtracts `fixedTimeStep` from the
accumulator.  Returns the final accumulator and the recorded calls. -/
def fixedStepLoop [FloorRing α] (acc : α) (calls : List α) : α × List α :=
  if h : acc ≥ fixedTimeStep then
    fixedStepLoop (acc - fixedTimeStep) (calls ++ [fixedTimeStep])
  else
    (acc, calls)
termination_by ⌊acc / fixedTimeStep⌋.toNat
decreasing_by
  have hpos : (0 : α) < fixedTimeStep := by unfold fixedTimeStep; positivity
  have e : (acc - fixedTimeStep) / fixedTimeStep = acc / fixedTimeStep - 1 := by
    field_simp
  have h1 : (1 : α) ≤ acc / fixedTimeStep := by
    rw [le_div_iff₀ hpos]; simpa using h
  have h2 : (1 : ℤ) ≤ ⌊acc / fixedTimeStep⌋ := by
    rw [Int.le_floor]; simpa using h1
  rw [e, Int.floor_sub_one]
  omega

/-- The fields of `MuseumApp` that `animate` reads and writes. -/
structure MuseumApp (α : Type) where
  isReady : Bool
  accumulator : α

/-- What one call of `animate` does besides updating the accumulator: the
arguments of the `updatePhysics` calls, in order, and the argument of the
`render` call (`none` when `animate` returned before rendering). -/
structure Frame (α : Type) where
  app : MuseumApp α
  physicsCalls : List α
  renderAlpha : Option α

/-- One call of `MuseumApp.animate`, where `delta` is the value returned by
`this.clock.getDelta()`. -/
def MuseumApp.animate [FloorRing α] (app : MuseumApp α) (delta : α) : Frame α :=
  if !app.isReady then
    { app := app, physicsCalls := [], renderAlpha := none }
  else
    let deltaTime := min delta maxDelta
    let accumulator := app.accumulator + deltaTime
    let r := fixedStepLoop accumulator []
    let alpha := r.1 / fixedTimeStep
    { app := { app with accumulator := r.1 }, physicsCalls := r.2, renderAlpha := some alpha }

/-- The state after the constructor (`accumulator = 0`) once `init` has set
`isReady` and starts calling `animate`. -/
def MuseumApp.start : MuseumApp α := { isReady := true, accumulator := 0 }

/-- A sequence of frames: `animate` is called once per element of `deltas`;
the result lists the frames produced, in order. -/
def MuseumApp.frames [FloorRing α] (app : MuseumApp α) : List α → List (Frame α)
  | [] => []
  | delta :: rest =>
    let f := app.animate delta
    f :: MuseumApp.frames f.app rest

/-- The total number of `updatePhysics` calls over a sequence of frames. -/
def totalSteps (fs : List (Frame α)) : Nat :=
  (fs.map fun f => f.physicsCalls.length).sum

end Loop

/-! ## `main.backup.js`: the same loop on IEEE-754 doubles -/

section Loop64

/-- Rounding of a rational to the nearest integer, a tie going to the even
neighbour (the IEEE-754 default rounding direction). -/
def roundHalfEven (y : ℚ) : ℤ :=
  if y - ⌊y⌋ < 1 / 2 then ⌊y⌋
  else if 1 / 2 < y - ⌊y⌋ then ⌊y⌋ + 1
  else if ⌊y⌋ % 2 = 0 then ⌊y⌋ else ⌊y⌋ + 1

/-- The spacing of the binary64 numbers around `x`: 52 fraction bits below the
binary exponent of `x`, the exponent not going below `-1022` (subnormals). -/
def ulpDouble (x : ℚ) : ℚ := (2 : ℚ) ^ (max (Int.log 2 |x|) (-1022) - 52)

/-- The binary64 number nearest to `x`, ties to even: the value a JavaScript
arithmetic operation stores when its exact result is `x` (magnitudes that
overflow to `Infinity` do not occur in the loop and are not modelled). -/
def roundDouble (x : ℚ) : ℚ := roundHalfEven (x / ulpDouble x) * ulpDouble x

/-- The constant `fixedTimeStep = 0.01666` as the double the literal denotes. -/
def fixedTimeStep64 : ℚ := roundDouble (1666 / 100000)

/-- The cap `0.1` of `Math.min(this.clock.getDelta(), 0.1)` as the double the
literal denotes. -/
def maxDelta64 : ℚ := roundDouble (1 / 10)

/-- The `while (this.accumulator >= fixedTimeStep)` loop on doubles: each
iteration calls `updatePhysics(fixedTimeStep)` (recorded in `calls`) and
stores the rounded difference `this.accumulator -= fixedTimeStep`.  `fuel`
bounds the number of times the loop condition is evaluated; `none` when it is
used up. -/
def fixedStepLoop64 : ℕ → ℚ → List ℚ → Option (ℚ × List ℚ)
  | 0, _, _ => none
  | fuel + 1, acc, calls =>
    if acc ≥ fixedTimeStep64 then
      fixedStepLoop64 fuel (roundDouble (acc - fixedTimeStep64)) (calls ++ [fixedTimeStep64])
    else
      some (acc, calls)

/-- One call of `MuseumApp.animate` on doubles, where `delta` is the value
returned by `this.clock.getDelta()`: `Math.min` is exact, the sum
`this.accumulator += deltaTime` and the quotient `alpha` are rounded. -/
def MuseumApp.animate64 (fuel : ℕ) (app : MuseumApp ℚ) (delta : ℚ) : Option (Frame ℚ) :=
  if !app.isReady then
    some { app := app, physicsCalls := [], renderAlpha := none }
  else
    let deltaTime := min delta maxDelta64
    let accumulator := roundDouble (app.accumulator + deltaTime)
    (fixedStepLoop64 fuel accumulator []).map fun r =>
      let alpha := roundDouble (r.1 / fixedTimeStep64)
      { app := { app with accumulator := r.1 }, physicsCalls := r.2, renderAlpha := some alpha }

/-- A sequence of frames on doubles: `animate` is called once per element of
`deltas`, each call with its own `fuel`. -/
def MuseumApp.frames64 (fuel : ℕ) (app : MuseumApp ℚ) : List ℚ → Option (List (Frame ℚ))
  | [] => some []
  | delta :: rest =>
    (app.animate64 fuel delta).bind fun f =>
      (MuseumApp.frames64 fuel f.app rest).map fun fs => f :: fs

end Loop64

/-! ## three.js and `Math`: the library functions the sources call -/

section Three

variable {α : Type} [LinearOrderedField α]

/-- The members of the JavaScript `Math` object that the sources and three.js
use.  They are parameters of the model; the theorems instantiate them with the
real functions. -/
structure JSMath (α : Type) where
  PI : α
  exp : α → α
  sin : α → α
  cos : α → α
  sqrt : α → α
  asin : α → α
  atan2 : α → α → α

/-- A raw numeric value as delivered by an event field after `Number(...)`:
`NaN`, `+Infinity`, `-Infinity` or a finite number. -/
inductive JSNum (α : Type) where
  | nan : JSNum α
  | posInf : JSNum α
  | negInf : JSNum α
  | num (x : α) : JSNum α

/-- `THREE.Vector3`. -/
@[ext]
structure Vector3 (α : Type) where
  x : α
  y : α
  z : α

/-- `THREE.Quaternion`. -/
structure Quaternion (α : Type) where
  x : α
  y : α
  z : α
  w : α

/-- `THREE.Euler`; the sources only use the order `'YXZ'`. -/
structure Euler (α : Type) where
  x : α
  y : α
  z : α

/-- `Vector3.lengthSq`. -/
def Vector3.lengthSq (v : Vector3 α) : α := v.x * v.x + v.y * v.y + v.z * v.z

/-- `Vector3.length`. -/
def Vector3.length (M : JSMath α) (v : Vector3 α) : α := M.sqrt v.lengthSq

/-- `Vector3.multiplyScalar`. -/
def Vector3.multiplyScalar (v : Vector3 α) (k : α) : Vector3 α :=
  { x := v.x * k, y := v.y * k, z := v.z * k }

/-- `Vector3.normalize`: `this.divideScalar(this.length() || 1)`, where
`divideScalar(s)` is `multiplyScalar(1 / s)`. -/
def Vector3.normalize (M : JSMath α) (v : Vector3 α) : Vector3 α :=
  let l := v.length M
  v.multiplyScalar (1 / (if l = 0 then 1 else l))

/-- `Vector3.sub`. -/
def Vector3.sub (a b : Vector3 α) : Vector3 α :=
  { x := a.x - b.x, y := a.y - b.y, z := a.z - b.z }

/-- `Vector3.dot`. -/
def Vector3.dot (a b : Vector3 α) : α := a.x * b.x + a.y * b.y + a.z * b.z

/-- `Vector3.crossVectors(a, b)`. -/
def Vector3.crossVectors (a b : Vector3 α) : Vector3 α :=
  { x := a.y * b.z - a.z * b.y, y := a.z * b.x - a.x * b.z, z := a.x * b.y - a.y * b.x }

/-- `Vector3.addScaledVector(v, s)`. -/
def Vector3.addScaledVector (a v : Vector3 α) (k : α) : Vector3 α :=
  { x := a.x + v.x * k, y := a.y + v.y * k, z := a.z + v.z * k }

/-- `Vector3.distanceTo`: `Math.sqrt(this.distanceToSquared(v))`. -/
def Vector3.distanceTo (M : JSMath α) (a b : Vector3 α) : α := M.sqrt (a.sub b).lengthSq

/-- `Quaternion.setFromEuler` for the order `'YXZ'`. -/
def Quaternion.setFromEuler (M : JSMath α) (e : Euler α) : Quaternion α :=
  let c1 := M.cos (e.x / 2)
  let c2 := M.cos (e.y / 2)
  let c3 := M.cos (e.z / 2)
  let s1 := M.sin (e.x / 2)
  let s2 := M.sin (e.y / 2)
  let s3 := M.sin (e.z / 2)
  { x := s1 * c2 * c3 + c1 * s2 * s3,
    y := c1 * s2 * c3 - s1 * c2 * s3,
    z := c1 * c2 * s3 - s1 * s2 * c3,
    w := c1 * c2 * c3 + s1 * s2 * s3 }

/-- `Vector3.applyQuaternion`. -/
def Vector3.applyQuaternion (v : Vector3 α) (q : Quaternion α) : Vector3 α :=
  let tx := 2 * (q.y * v.z - q.z * v.y)
  let ty := 2 * (q.z * v.x - q.x * v.z)
  let tz := 2 * (q.x * v.y - q.y * v.x)
  { x := v.x + q.w * tx + q.y * tz - q.z * ty,
    y := v.y + q.w * ty + q.z * tx - q.x * tz,
    z := v.z + q.w * tz + q.x * ty - q.y * tx }

/-- `Vector3.applyEuler`: `applyQuaternion(new Quaternion().setFromEuler(e))`. -/
def Vector3.applyEuler (M : JSMath α) (v : Vector3 α) (e : Euler α) : Vector3 α :=
  v.applyQuaternion (Quaternion.setFromEuler M e)

/-- The rotation block of `Matrix4.makeRotationFromQuaternion` (that is
`compose` with unit scale), entries named by their index in `elements`. -/
structure Rotation (α : Type) where
  te0 : α
  te1 : α
  te2 : α
  te4 : α
  te5 : α
  te6 : α
  te8 : α
  te9 : α
  te10 : α

/-- `Matrix4.makeRotationFromQuaternion`. -/
def Quaternion.toRotation (q : Quaternion α) : Rotation α :=
  let x2 := q.x + q.x
  let y2 := q.y + q.y
  let z2 := q.z + q.z
  let xx := q.x * x2
  let xy := q.x * y2
  let xz := q.x * z2
  let yy := q.y * y2
  let yz := q.y * z2
  let zz := q.z * z2
  let wx := q.w * x2
  let wy := q.w * y2
  let wz := q.w * z2
  { te0 := 1 - (yy + zz), te1 := xy + wz, te2 := xz - wy,
    te4 := xy - wz, te5 := 1 - (xx + zz), te6 := yz + wx,
    te8 := xz + wy, te9 := yz - wx, te10 := 1 - (xx + yy) }

/-- `Euler.setFromQuaternion(q, 'YXZ')`: `setFromRotationMatrix` of the
rotation matrix of `q`. -/
def Euler.setFromQuaternion (M : JSMath α) (q : Quaternion α) : Euler α :=
  let m := q.toRotation
  let m11 := m.te0
  let m13 := m.te8
  let m21 := m.te1
  let m22 := m.te5
  let m23 := m.te9
  let m31 := m.te2
  let m33 := m.te10
  let x := M.asin (-(max (-1) (min 1 m23)))
  if |m23| < 9999999 / 10000000 then
    { x := x, y := M.atan2 m13 m33, z := M.atan2 m21 m22 }
  else
    { x := x, y := M.atan2 (-m31) m11, z := 0 }

/-- The camera object: the fields of `THREE.PerspectiveCamera` the sources
read and write.  The camera has no parent and unit scale, so its world matrix
is the composition of `position` and `quaternion`. -/
structure Camera (α : Type) where
  position : Vector3 α
  quaternion : Quaternion α

/-- `Camera.getWorldDirection`: minus the third column of the world matrix,
normalized. -/
def Camera.getWorldDirection (M : JSMath α) (c : Camera α) : Vector3 α :=
  let m := c.quaternion.toRotation
  Vector3.normalize M { x := -m.te8, y := -m.te9, z := -m.te10 }

end Three

/-! ## `systems/controls.js`: `FirstPersonControls` -/

section Controls

variable {α : Type} [LinearOrderedField α]

/-- The record `this.keys`. -/
structure Keys where
  w : Bool
  a : Bool
  s : Bool
  d : Bool
  space : Bool
  shift : Bool
  deriving DecidableEq

/-- The state of a `FirstPersonControls` object, with the camera it drives.
`_ignoreMouseUntil` is `none` while the property is `undefined`. -/
structure FirstPersonControls (α : Type) where
  camera : Camera α
  moveSpeed : α
  sprintMultiplier : α
  mouseSensitivity : α
  eyeHeight : α
  rotationSmoothing : α
  maxMouseDelta : α
  keys : Keys
  isLocked : Bool
  yaw : α
  pitch : α
  targetYaw : α
  targetPitch : α
  _ignoreMouseUntil : Option α

/-- The pitch limit `Math.PI / 2 - 0.0001`. -/
def pitchLimit (M : JSMath α) : α := M.PI / 2 - 1 / 10000

/-- The expression `Math.max(-limit, Math.min(limit, p))`. -/
def clampPitch (M : JSMath α) (p : α) : α := max (-pitchLimit M) (min (pitchLimit M) p)

/-- `FirstPersonControls._initOrientationFromCamera`. -/
def FirstPersonControls._initOrientationFromCamera (M : JSMath α)
    (c : FirstPersonControls α) : FirstPersonControls α :=
  let e := Euler.setFromQuaternion M c.camera.quaternion
  { c with
    yaw := e.y, targetYaw := e.y,
    targetPitch := clampPitch M e.x,
    pitch := clampPitch M e.x }

/-- The constructor `new FirstPersonControls(camera)` with the values of
`config/settings.js` (`SETTINGS.camera.eyeHeight` is absent, so the fallback
1.6 applies).  `this.camera.position.y = this.eyeHeight` is its last step. -/
def FirstPersonControls.new (M : JSMath α) (camera : Camera α) : FirstPersonControls α :=
  let c : FirstPersonControls α :=
    { camera := camera,
      moveSpeed := 8, sprintMultiplier := 2, mouseSensitivity := 2 / 1000,
      eyeHeight := 16 / 10, rotationSmoothing := 12, maxMouseDelta := 100,
      keys := { w := false, a := false, s := false, d := false, space := false, shift := false },
      isLocked := false,
      yaw := 0, pitch := 0, targetYaw := 0, targetPitch := 0,
      _ignoreMouseUntil := none }
  let c := c._initOrientationFromCamera M
  { c with camera := { c.camera with position := { c.camera.position with y := c.eyeHeight } } }

/-- `FirstPersonControls._onPointerLockChange`: `now` is `performance.now()`
and `locked` the value of `document.pointerLockElement === this.domElement`. -/
def FirstPersonControls._onPointerLockChange (M : JSMath α) (c : FirstPersonControls α)
    (now : α) (locked : Bool) : FirstPersonControls α :=
  let c := { c with isLocked := locked }
  if c.isLocked then
    let c := c._initOrientationFromCamera M
    { c with _ignoreMouseUntil := some (now + 60) }
  else
    { c with _ignoreMouseUntil := some 0 }

/-- The two spike tests `if (d > max) d = max; if (d < -max) d = -max;` on a
finite number. -/
def clampSpike (maxMouseDelta d : α) : α :=
  let d := if d > maxMouseDelta then maxMouseDelta else d
  if d < -maxMouseDelta then -maxMouseDelta else d

/-- The value of `dx` after `let dx = Number(e.movementX) || 0` and the two
spike tests: `NaN` (and 0) become 0 before the tests, `+Infinity` exceeds the
limit and is replaced by it, `-Infinity` fails the first test and is
replaced by the second. -/
def mouseDelta (maxMouseDelta : α) : JSNum α → α
  | JSNum.nan => clampSpike maxMouseDelta 0
  | JSNum.posInf => clampSpike maxMouseDelta maxMouseDelta
  | JSNum.negInf => -maxMouseDelta
  | JSNum.num x => clampSpike maxMouseDelta (if x = 0 then 0 else x)

/-- `FirstPersonControls._onMouseMove`: `now` is `performance.now()`. -/
def FirstPersonControls._onMouseMove (M : JSMath α) (c : FirstPersonControls α)
    (now : α) (movementX movementY : JSNum α) : FirstPersonControls α :=
  if !c.isLocked then c
  else if now < c._ignoreMouseUntil.getD 0 then c
  else
    let dx := mouseDelta c.maxMouseDelta movementX
    let dy := mouseDelta c.maxMouseDelta movementY
    let targetYaw := c.targetYaw - dx * c.mouseSensitivity
    let targetPitch := c.targetPitch - dy * c.mouseSensitivity
    { c with targetYaw := targetYaw, targetPitch := clampPitch M targetPitch }

/-- The assignments of `_onKeyDown` (`value = true`) and `_onKeyUp`
(`value = false`) for the lower-cased key name `k`. -/
def Keys.assign (keys : Keys) (k : String) (value : Bool) : Keys :=
  let keys :=
    if k = "w" then { keys with w := value }
    else if k = "a" then { keys with a := value }
    else if k = "s" then { keys with s := value }
    else if k = "d" then { keys with d := value }
    else if k = "space" then { keys with space := value }
    else if k = "shift" then { keys with shift := value }
    else keys
  let keys := if k = " " then { keys with space := value } else keys
  if k = "shift" then { keys with shift := value } else keys

/-- `String.prototype.toLowerCase`, character by character. -/
def toLowerCase (s : String) : String := String.mk (s.data.map Char.toLower)

/-- `FirstPersonControls._onKeyDown`. -/
def FirstPersonControls._onKeyDown (c : FirstPersonControls α) (key : String) :
    FirstPersonControls α :=
  { c with keys := c.keys.assign (toLowerCase key) true }

/-- `FirstPersonControls._onKeyUp`. -/
def FirstPersonControls._onKeyUp (c : FirstPersonControls α) (key : String) :
    FirstPersonControls α :=
  { c with keys := c.keys.assign (toLowerCase key) false }

/-- Line 143 of `update`: `speed`, the sprint speed while shift is held. -/
def FirstPersonControls.speed (c : FirstPersonControls α) : α :=
  if c.keys.shift then c.moveSpeed * c.sprintMultiplier else c.moveSpeed

/-- Lines 144-154 of `update`: the local movement vector `move` built from the
keys, before normalization. -/
def FirstPersonControls.intent (keys : Keys) : Vector3 α :=
  let move : Vector3 α := { x := 0, y := 0, z := 0 }
  let move := if keys.w then { move with z := move.z + 1 } else move
  let move := if keys.s then { move with z := move.z - 1 } else move
  let move := if keys.a then { move with x := move.x - 1 } else move
  let move := if keys.d then { move with x := move.x + 1 } else move
  let move := if keys.space then { move with y := move.y + 1 } else move
  if keys.shift then { move with y := move.y - 1 } else move

/-- Lines 135-140 of `update`: smoothing of yaw and pitch toward their targets
and the write of the camera quaternion; `deltaTime` is already capped. -/
def FirstPersonControls.orient (M : JSMath α) (c : FirstPersonControls α) (deltaTime : α) :
    FirstPersonControls α :=
  let t := 1 - M.exp (-c.rotationSmoothing * deltaTime)
  let yaw := c.yaw + (c.targetYaw - c.yaw) * t
  let pitch := c.pitch + (c.targetPitch - c.pitch) * t
  { c with
    yaw := yaw, pitch := pitch,
    camera := { c.camera with
      quaternion := Quaternion.setFromEuler M { x := pitch, y := yaw, z := 0 } } }

/-- The yaw-derived fallback of line 168:
`forward.set(0, 0, -1).applyEuler(new THREE.Euler(0, this.yaw, 0, 'YXZ')).normalize()`. -/
def FirstPersonControls.fallbackForward (M : JSMath α) (c : FirstPersonControls α) :
    Vector3 α :=
  (Vector3.applyEuler M { x := 0, y := 0, z := -1 } { x := 0, y := c.yaw, z := 0 }).normalize M

/-- Lines 161-169 of `update`: the vector `forward`, computed from the camera
after the quaternion has been written. -/
def FirstPersonControls.forward (M : JSMath α) (c : FirstPersonControls α) : Vector3 α :=
  let forward := c.camera.getWorldDirection M
  let forward := { forward with y := 0 }
  let forward := forward.normalize M
  if forward.lengthSq < 1 / 1000000 then c.fallbackForward M else forward

/-- Line 171 of `update`: the vector `right`. -/
def FirstPersonControls.right (M : JSMath α) (c : FirstPersonControls α) : Vector3 α :=
  (Vector3.crossVectors (c.forward M) { x := 0, y := 1, z := 0 }).normalize M

/-- Lines 173-176 of `update`: `worldMove` for the normalized local vector
`move`. -/
def FirstPersonControls.worldMove (M : JSMath α) (c : FirstPersonControls α)
    (move : Vector3 α) : Vector3 α :=
  let worldMove : Vector3 α := { x := 0, y := 0, z := 0 }
  let worldMove := worldMove.addScaledVector (c.forward M) move.z
  let worldMove := worldMove.addScaledVector (c.right M) move.x
  { worldMove with y := worldMove.y + move.y }

/-- `FirstPersonControls.update(deltaTime)`. -/
def FirstPersonControls.update (M : JSMath α) (c : FirstPersonControls α) (deltaTime : α) :
    FirstPersonControls α :=
  let deltaTime := min deltaTime (5 / 100)
  let c := c.orient M deltaTime
  let speed := c.speed
  let move : Vector3 α := FirstPersonControls.intent c.keys
  if move.lengthSq = 0 then c
  else
    let move := move.normalize M
    let worldMove := c.worldMove M move
    let maxFrameDist : α := 10
    let frameDist := min (speed * deltaTime) maxFrameDist
    { c with camera := { c.camera with
        position := c.camera.position.addScaledVector worldMove frameDist } }

/-- The events that reach a `FirstPersonControls` object: the DOM events it
listens to (with the values of `performance.now()` and of the pointer-lock
test read by the handler) and the `update` calls of the loop.  A click only
requests pointer lock; the lock itself arrives as a `pointerLockChange`. -/
inductive ControlEvent (α : Type) where
  | mouseMove (now : α) (movementX movementY : JSNum α) : ControlEvent α
  | pointerLockChange (now : α) (locked : Bool) : ControlEvent α
  | keyDown (key : String) : ControlEvent α
  | keyUp (key : String) : ControlEvent α
  | click : ControlEvent α
  | update (deltaTime : α) : ControlEvent α

/-- Dispatch of one event to its handler. -/
def FirstPersonControls.handle (M : JSMath α) (c : FirstPersonControls α) :
    ControlEvent α → FirstPersonControls α
  | ControlEvent.mouseMove now dx dy => c._onMouseMove M now dx dy
  | ControlEvent.pointerLockChange now locked => c._onPointerLockChange M now locked
  | ControlEvent.keyDown key => c._onKeyDown key
  | ControlEvent.keyUp key => c._onKeyUp key
  | ControlEvent.click => c
  | ControlEvent.update deltaTime => c.update M deltaTime

/-- The state after a sequence of events. -/
def FirstPersonControls.run (M : JSMath α) (c : FirstPersonControls α)
    (events : List (ControlEvent α)) : FirstPersonControls α :=
  events.foldl (FirstPersonControls.handle M) c

/-- The `update` calls of an event sequence all have `deltaTime ≥ 0`. -/
def ControlEvent.deltaNonneg : ControlEvent α → Prop
  | ControlEvent.update deltaTime => 0 ≤ deltaTime
  | _ => True

/-- The interpretation of `Math` over the real numbers: `PI`, `exp`, `sin`,
`cos` and `sqrt` are the real ones (`asin` and `atan2` are left free: no
result below depends on their values). -/
def JSMath.IsReal (M : JSMath ℝ) : Prop :=
  M.PI = Real.pi ∧ M.exp = Real.exp ∧ M.sin = Real.sin ∧ M.cos = Real.cos ∧
    M.sqrt = Real.sqrt

/-- The orientation invariant: both pitches within the limit, and the
smoothing rate still the constructor's 12. -/
def FirstPersonControls.PitchInv (M : JSMath α) (c : FirstPersonControls α) : Prop :=
  |c.targetPitch| ≤ pitchLimit M ∧ |c.pitch| ≤ pitchLimit M ∧ c.rotationSmoothing = 12

/-- `n` successive calls of `update(deltaTime)` with nothing in between. -/
def FirstPersonControls.updateN (M : JSMath α) (c : FirstPersonControls α) (deltaTime : α) :
    ℕ → FirstPersonControls α
  | 0 => c
  | n + 1 => (FirstPersonControls.updateN M c deltaTime n).update M deltaTime

/-- `createCamera()` of `systems/camera.js`: a camera at
`SETTINGS.camera.startPosition` with the identity orientation. -/
def createCamera : Camera α :=
  { position := { x := 0, y := 16 / 10, z := 5 }, quaternion := { x := 0, y := 0, z := 0, w := 1 } }

/-- A sample event sequence: lock, a spike with an infinite component, a
step, a `NaN` delta, an over-long step, unlock. -/
def sampleEvents : List (ControlEvent α) :=
  [ControlEvent.pointerLockChange 0 true,
   ControlEvent.mouseMove 100 (JSNum.num 5) JSNum.posInf,
   ControlEvent.update (1 / 60),
   ControlEvent.keyDown "W",
   ControlEvent.mouseMove 120 JSNum.nan JSNum.negInf,
   ControlEvent.update 3,
   ControlEvent.pointerLockChange 200 false]

/-- The controls right after the constructor and a pointer-lock acquisition at
time 0. -/
def lockedControls (M : JSMath α) : FirstPersonControls α :=
  (FirstPersonControls.new M createCamera)._onPointerLockChange M 0 true

/-- The controls after the constructor with both targets moved away from the
applied orientation, as mouse moves would leave them. -/
def turnedControls (M : JSMath α) : FirstPersonControls α :=
  { FirstPersonControls.new M createCamera with targetYaw := 1, targetPitch := -1 / 2 }

/-- Only the forward key W held. -/
def keysW : Keys :=
  { w := true, a := false, s := false, d := false, space := false, shift := false }

/-- Forward and strafe-right, W and D, held. -/
def keysWD : Keys :=
  { w := true, a := false, s := false, d := true, space := false, shift := false }

/-- The sprint key (shift) and the forward key W held, no other key. -/
def keysShiftW : Keys :=
  { w := true, a := false, s := false, d := false, space := false, shift := true }

/-- A controls state given field by field, with the constructor's settings,
the given keys held and the orientation part-way to its targets. -/
def walkingControls (keys : Keys) : FirstPersonControls α :=
  { camera := createCamera,
    moveSpeed := 8, sprintMultiplier := 2, mouseSensitivity := 2 / 1000,
    eyeHeight := 16 / 10, rotationSmoothing := 12, maxMouseDelta := 100,
    keys := keys, isLocked := true,
    yaw := 1 / 3, pitch := 1 / 4, targetYaw := 1, targetPitch := -1 / 2,
    _ignoreMouseUntil := some 60 }

/-- The scenario of sprinting forward: the constructor state for the camera of
`createCamera`, then shift and W pressed. -/
def sprintScenario (M : JSMath α) : FirstPersonControls α :=
  (FirstPersonControls.new M createCamera).run M
    [ControlEvent.keyDown "Shift", ControlEvent.keyDown "w"]

/-- The sprint scenario followed by one `update(1/60)`. -/
def sprintStep (M : JSMath α) : FirstPersonControls α :=
  (sprintScenario M).update M (1 / 60)

/-- A sample `Math` over `ℚ` to run the definitions that do not depend on the
values of the transcendental functions. -/
def sampleMath : JSMath ℚ :=
  { PI := 355 / 113, exp := fun _ => 1, sin := fun _ => 0, cos := fun _ => 1,
    sqrt := fun x => x, asin := fun _ => 0, atan2 := fun _ _ => 0 }

end Controls

/-! ## `systems/Editor.js`: selection and dragging along a gizmo axis -/

section Editor

variable {α : Type} [LinearOrderedField α]

/-- `THREE.Vector2`. -/
structure Vector2 (α : Type) where
  x : α
  y : α

/-- `THREE.Plane`: the points `p` with `normal · p + constant = 0`. -/
structure Plane (α : Type) where
  normal : Vector3 α
  constant : α

/-- `THREE.Ray`. -/
structure Ray (α : Type) where
  origin : Vector3 α
  direction : Vector3 α

/-- `Plane.setFromNormalAndCoplanarPoint`. -/
def Plane.setFromNormalAndCoplanarPoint (normal point : Vector3 α) : Plane α :=
  { normal := normal, constant := -(point.dot normal) }

/-- `Plane.distanceToPoint`. -/
def Plane.distanceToPoint (pl : Plane α) (point : Vector3 α) : α :=
  pl.normal.dot point + pl.constant

/-- `Ray.distanceToPlane`; `none` is the `null` result. -/
def Ray.distanceToPlane (r : Ray α) (pl : Plane α) : Option α :=
  let denominator := pl.normal.dot r.direction
  if denominator = 0 then
    if pl.distanceToPoint r.origin = 0 then some 0 else none
  else
    let t := -(r.origin.dot pl.normal + pl.constant) / denominator
    if t ≥ 0 then some t else none

/-- `Ray.at`. -/
def Ray.at (r : Ray α) (t : α) : Vector3 α := r.origin.addScaledVector r.direction t

/-- `Ray.intersectPlane`; `none` is the `null` result. -/
def Ray.intersectPlane (r : Ray α) (pl : Plane α) : Option (Vector3 α) :=
  match r.distanceToPlane pl with
  | none => none
  | some t => some (r.at t)

/-- The values of `userData.axis` on the three gizmo arrows, which are the
values `dragAxis` takes besides `null`. -/
inductive Axis where
  | x : Axis
  | y : Axis
  | z : Axis
  deriving DecidableEq

/-- The coordinate of a vector along an axis. -/
def Vector3.coord (v : Vector3 α) : Axis → α
  | Axis.x => v.x
  | Axis.y => v.y
  | Axis.z => v.z

/-- The state of the `Editor`.  Mesh objects are referred to by number;
`selectedObject` holds such a reference (`none` for `null`) and
`meshPosition` gives the `position` of every mesh object, so that
`this.selectedObject.position` is `meshPosition` at the selected reference.
`gizmoVisible` and `gizmoPosition` are `this.gizmo.visible` and
`this.gizmo.position`. -/
structure Editor (α : Type) where
  enabled : Bool
  mouse : Vector2 α
  selectedObject : Option ℕ
  isDragging : Bool
  dragAxis : Option Axis
  dragPlane : Plane α
  dragOffset : Vector3 α
  dragIntersection : Vector3 α
  gizmoVisible : Bool
  gizmoPosition : Vector3 α
  meshPosition : ℕ → Vector3 α

/-- `Editor.onPointerMove`; `ray` is `this.raycaster.ray` after
`this.raycaster.setFromCamera(this.mouse, this.camera)`. -/
def Editor.onPointerMove (ed : Editor α) (ray : Ray α) : Editor α :=
  match ed.isDragging, ed.selectedObject with
  | true, some obj =>
    match ray.intersectPlane ed.dragPlane with
    | none => ed
    | some point =>
      let ed := { ed with dragIntersection := point }
      let position := ed.meshPosition obj
      let delta := ed.dragIntersection.sub position
      match ed.dragAxis with
      | some Axis.x =>
        { ed with meshPosition :=
            Function.update ed.meshPosition obj { position with x := position.x + delta.x } }
      | some Axis.y =>
        { ed with meshPosition :=
            Function.update ed.meshPosition obj { position with y := position.y + delta.y } }
      | some Axis.z =>
        { ed with meshPosition :=
            Function.update ed.meshPosition obj { position with z := position.z + delta.z } }
      | none => ed
  | _, _ => ed

/-- A dragging state: mesh 0 selected at the origin, the X arm engaged, and
the drag plane through the origin facing a camera that looks along `-z`. -/
def sampleDrag : Editor α :=
  { enabled := true,
    mouse := { x := 0, y := 0 },
    selectedObject := some 0,
    isDragging := true,
    dragAxis := some Axis.x,
    dragPlane := Plane.setFromNormalAndCoplanarPoint { x := 0, y := 0, z := -1 }
      { x := 0, y := 0, z := 0 },
    dragOffset := { x := 0, y := 0, z := 0 },
    dragIntersection := { x := 0, y := 0, z := 0 },
    gizmoVisible := true,
    gizmoPosition := { x := 0, y := 0, z := 0 },
    meshPosition := fun _ => { x := 0, y := 0, z := 0 } }

/-- A pointer ray from `(2, 1, 5)` along `-z`; it meets the plane `z = 0` at
`(2, 1, 0)`. -/
def sampleRay : Ray α :=
  { origin := { x := 2, y := 1, z := 5 }, direction := { x := 0, y := 0, z := -1 } }

/-- A pointer ray parallel to the plane `z = 0` and off it. -/
def parallelRay : Ray α :=
  { origin := { x := 2, y := 1, z := 5 }, direction := { x := 1, y := 0, z := 0 } }

/-- The registry `Museum.displays`, a `Map` from display id to display record,
in insertion order; of each record only `mesh` is kept (`none` when it is
missing), a reference into the mesh objects. -/
structure Museum where
  displays : List (String × Option ℕ)

/-- Lines 151-154 of `onPointerDown`: the array `displayMeshes`. -/
def Museum.displayMeshes (museum : Museum) : List ℕ :=
  museum.displays.filterMap fun display => display.2

/-- `Map.prototype.delete` on the registry: the removal of a display by an
external collaborator (no code of the repository removes a display). -/
def Museum.displaysDelete (museum : Museum) (id : String) : Museum :=
  { displays := museum.displays.filter fun display => decide (display.1 ≠ id) }

/-- `Raycaster.intersectObjects(objects, false)`: of the mesh objects whose
geometry the pointer ray meets (`hits`, nearest first, as the raycaster
computes them from the scene), those that are among `objects`, nearest first. -/
def Raycaster.intersectObjects (hits objects : List ℕ) : List ℕ :=
  hits.filter fun hit => decide (hit ∈ objects)

/-- The `Editor` constructor (with `setupCustomGizmo`) in a scene whose mesh
objects have the positions `meshPosition`. -/
def Editor.new (meshPosition : ℕ → Vector3 α) : Editor α :=
  { enabled := false,
    mouse := { x := 0, y := 0 },
    selectedObject := none,
    isDragging := false,
    dragAxis := none,
    dragPlane := { normal := { x := 1, y := 0, z := 0 }, constant := 0 },
    dragOffset := { x := 0, y := 0, z := 0 },
    dragIntersection := { x := 0, y := 0, z := 0 },
    gizmoVisible := false,
    gizmoPosition := { x := 0, y := 0, z := 0 },
    meshPosition := meshPosition }

/-- `Editor.selectObject`. -/
def Editor.selectObject (ed : Editor α) (object : ℕ) : Editor α :=
  { ed with
    selectedObject := some object,
    gizmoPosition := ed.meshPosition object,
    gizmoVisible := true }

/-- `Editor.deselectObject`. -/
def Editor.deselectObject (ed : Editor α) : Editor α :=
  { ed with selectedObject := none, gizmoVisible := false, isDragging := false }

/-- `Editor.startDrag`; `camera` is `this.camera`.  With no selection the read
of `this.selectedObject.position` throws after the first two assignments. -/
def Editor.startDrag (M : JSMath α) (ed : Editor α) (camera : Camera α) (axis : Axis) :
    Editor α :=
  let ed := { ed with isDragging := true, dragAxis := some axis }
  let cameraDirection := camera.getWorldDirection M
  match ed.selectedObject with
  | some object =>
    { ed with dragPlane :=
        Plane.setFromNormalAndCoplanarPoint cameraDirection (ed.meshPosition object) }
  | none => ed

/-- `Editor.onPointerDown`.  `arrowIntersects` is the result of
`intersectObjects(arrowObjects, false)`, nearest first, each intersected gizmo
part given by the `userData.axis` that the climb through its parents reaches
(`none` if it reaches none); `hits` are the mesh objects the pointer ray meets,
nearest first. -/
def Editor.onPointerDown (M : JSMath α) (ed : Editor α) (camera : Camera α) (museum : Museum)
    (arrowIntersects : List (Option Axis)) (hits : List ℕ) : Editor α :=
  if !ed.enabled then ed
  else
    let clickedAxis : Option Axis :=
      if ed.selectedObject.isSome && ed.gizmoVisible then
        match arrowIntersects with
        | some axis :: _ => some axis
        | _ => none
      else none
    match clickedAxis with
    | some axis => ed.startDrag M camera axis
    | none =>
      match Raycaster.intersectObjects hits museum.displayMeshes with
      | object :: _ => ed.selectObject object
      | [] => ed.deselectObject

/-- `Editor.onPointerUp`.  While dragging with no selection the `console.log`
of `this.selectedObject.position` throws before the two assignments. -/
def Editor.onPointerUp (ed : Editor α) : Editor α :=
  match ed.isDragging, ed.selectedObject with
  | true, none => ed
  | _, _ => { ed with isDragging := false, dragAxis := none }

/-- `Editor.toggle`, as far as the editor's own fields go (the pointer-lock
calls and the write of `playerControls.enabled` are in `System.toggle`). -/
def Editor.toggle (ed : Editor α) : Editor α :=
  let ed := { ed with enabled := !ed.enabled }
  if ed.enabled then ed else ed.deselectObject

/-- `Editor.onKeyDown`; `exportConfig` only writes to the console. -/
def Editor.onKeyDown (ed : Editor α) (code : String) : Editor α :=
  if code = "Backquote" then ed.toggle else ed

/-- `Editor.onMouseMove`. -/
def Editor.onMouseMove (ed : Editor α) (clientX clientY innerWidth innerHeight : α) :
    Editor α :=
  { ed with mouse :=
      { x := clientX / innerWidth * 2 - 1, y := -(clientY / innerHeight) * 2 + 1 } }

/-- `Editor.update`. -/
def Editor.update (ed : Editor α) : Editor α :=
  match ed.selectedObject with
  | some object =>
    if ed.gizmoVisible && !ed.isDragging then
      { ed with gizmoPosition := ed.meshPosition object }
    else ed
  | none => ed

/-- The operations on an `Editor`: its event handlers with the values they
read from the event and the scene, `toggle` and `update`. -/
inductive EditorEvent (α : Type) where
  | keyDown (code : String) : EditorEvent α
  | pointerDown (camera : Camera α) (museum : Museum) (arrowIntersects : List (Option Axis))
      (hits : List ℕ) : EditorEvent α
  | pointerMove (ray : Ray α) : EditorEvent α
  | pointerUp : EditorEvent α
  | mouseMove (clientX clientY innerWidth innerHeight : α) : EditorEvent α
  | toggle : EditorEvent α
  | update : EditorEvent α

/-- Dispatch of one operation. -/
def Editor.handle (M : JSMath α) (ed : Editor α) : EditorEvent α → Editor α
  | EditorEvent.keyDown code => ed.onKeyDown code
  | EditorEvent.pointerDown camera museum arrowIntersects hits =>
    ed.onPointerDown M camera museum arrowIntersects hits
  | EditorEvent.pointerMove ray => ed.onPointerMove ray
  | EditorEvent.pointerUp => ed.onPointerUp
  | EditorEvent.mouseMove clientX clientY innerWidth innerHeight =>
    ed.onMouseMove clientX clientY innerWidth innerHeight
  | EditorEvent.toggle => ed.toggle
  | EditorEvent.update => ed.update

/-- The state after a sequence of operations. -/
def Editor.run (M : JSMath α) (ed : Editor α) (events : List (EditorEvent α)) : Editor α :=
  events.foldl (Editor.handle M) ed

/-- The operation is a pointer-down. -/
def EditorEvent.isPointerDown : EditorEvent α → Bool
  | EditorEvent.pointerDown _ _ _ _ => true
  | _ => false

/-- The operation is a pointer-down, pointer-move or pointer-up. -/
def EditorEvent.isPointer : EditorEvent α → Bool
  | EditorEvent.pointerDown _ _ _ _ => true
  | EditorEvent.pointerMove _ => true
  | EditorEvent.pointerUp => true
  | _ => false

/-- Invariant of `SelectionState`: the gizmo is visible exactly when there is
a selection. -/
def Editor.GizmoInv (ed : Editor α) : Prop :=
  ed.gizmoVisible = true ↔ ed.selectedObject ≠ none

/-- Invariant of `DragState`: an active drag has an axis and a selection. -/
def Editor.DragInv (ed : Editor α) : Prop :=
  ed.isDragging = true → (∃ axis : Axis, ed.dragAxis = some axis) ∧ ed.selectedObject ≠ none

/-- The state `Idle`: no selection, gizmo hidden, not dragging. -/
def Editor.Idle (ed : Editor α) : Prop :=
  ed.selectedObject = none ∧ ed.gizmoVisible = false ∧ ed.isDragging = false

/-- The three state invariants together. -/
def Editor.Inv (ed : Editor α) : Prop :=
  ed.GizmoInv ∧ ed.DragInv ∧ (ed.enabled = false → ed.Idle)

/-- The positions of the display stands created from `config/displays.js`
(`stand.position.set(x, 0.5, z)`): meshes 0, 1, 2 are the center, left and
right stand. -/
def standPosition : ℕ → Vector3 α
  | 0 => { x := 0, y := 1 / 2, z := 0 }
  | 1 => { x := -5, y := 1 / 2, z := 0 }
  | 2 => { x := 5, y := 1 / 2, z := 0 }
  | _ => { x := 0, y := 0, z := 0 }

/-- The registry after `createDisplays` for `config/displays.js`. -/
def museumDisplays : Museum :=
  { displays := [("center-stand", some 0), ("left-stand", some 1), ("right-stand", some 2)] }

/-- Edit mode switched on with the backquote key, then a pointer-down whose ray
passes through a mesh that is no display (7), then the center stand (0) and
the left stand (1): the center stand gets selected. -/
def selectEvents : List (EditorEvent α) :=
  [EditorEvent.keyDown "Backquote",
   EditorEvent.pointerDown createCamera museumDisplays [] [7, 0, 1]]

/-- After `selectEvents`, a pointer-down on the X arm of the gizmo. -/
def dragEvents : List (EditorEvent α) :=
  selectEvents ++ [EditorEvent.pointerDown createCamera museumDisplays [some Axis.x] [0]]

/-- After `dragEvents`, a pointer-move along `sampleRay`. -/
def dragMoveEvents : List (EditorEvent α) :=
  dragEvents ++ [EditorEvent.pointerMove sampleRay]

/-- The editor after `selectEvents`: the Selected state. -/
def selectedEditor (M : JSMath α) : Editor α := (Editor.new standPosition).run M selectEvents

/-- The editor after `dragEvents`: a Dragging state. -/
def draggingEditor (M : JSMath α) : Editor α := (Editor.new standPosition).run M dragEvents

/-- The editor after `dragMoveEvents`: a Dragging state in which the object
has been moved. -/
def draggedEditor (M : JSMath α) : Editor α := (Editor.new standPosition).run M dragMoveEvents

/-- The editor after the backquote key alone: edit mode on, nothing selected. -/
def editModeEditor (M : JSMath α) : Editor α :=
  (Editor.new standPosition).run M [EditorEvent.keyDown "Backquote"]

/-- After `selectEvents`, the backquote key again: edit mode off. -/
def leaveEvents : List (EditorEvent α) :=
  selectEvents ++ [EditorEvent.keyDown "Backquote"]

/-- The registry after the center stand, selected in `selectedEditor`, has
been removed from it. -/
def museumWithoutCenter : Museum := museumDisplays.displaysDelete "center-stand"

end Editor

/-! ## The editor and the controls together, with the pointer-lock calls -/

section System

variable {α : Type} [LinearOrderedField α]

/-- The calls to the Pointer Lock API made by the sources:
`document.exitPointerLock()` and `document.body.requestPointerLock()` in
`Editor.toggle`, `this.domElement.requestPointerLock()` in
`FirstPersonControls._onClick`. -/
inductive LockCall where
  | exitPointerLock : LockCall
  | requestBody : LockCall
  | requestDomElement : LockCall
  deriving DecidableEq

/-- The editor and the controls of `MuseumApp`, which share the camera held in
`controls`.  `playerControlsEnabled` is the property `enabled` that
`Editor.toggle` writes on the controls object (`none` while it is undefined;
`controls.js` never reads it); `lockCalls` records the Pointer Lock calls made
so far, in order. -/
structure System (α : Type) where
  editor : Editor α
  controls : FirstPersonControls α
  playerControlsEnabled : Option Bool
  lockCalls : List LockCall

/-- The state after `MuseumApp.init` has constructed the controls and the
editor. -/
def System.new (M : JSMath α) (camera : Camera α) (meshPosition : ℕ → Vector3 α) : System α :=
  { editor := Editor.new meshPosition,
    controls := FirstPersonControls.new M camera,
    playerControlsEnabled := none,
    lockCalls := [] }

/-- `Editor.toggle` with all its effects. -/
def System.toggle (s : System α) : System α :=
  let editor := { s.editor with enabled := !s.editor.enabled }
  if editor.enabled then
    { s with
      editor := editor,
      lockCalls := s.lockCalls ++ [LockCall.exitPointerLock],
      playerControlsEnabled := some false }
  else
    { s with
      editor := editor.deselectObject,
      lockCalls := s.lockCalls ++ [LockCall.requestBody],
      playerControlsEnabled := some true }

/-- `FirstPersonControls._onClick` with its effect. -/
def System._onClick (s : System α) : System α :=
  if !s.controls.isLocked then
    { s with lockCalls := s.lockCalls ++ [LockCall.requestDomElement] }
  else s

/-- The DOM events and loop calls that reach the two objects.  A `keydown`
reaches both `_onKeyDown` and `Editor.onKeyDown`, a `mousemove` both
`_onMouseMove` and `Editor.onMouseMove`; `update` is one `updatePhysics`. -/
inductive SystemEvent (α : Type) where
  | keyDown (code key : String) : SystemEvent α
  | keyUp (key : String) : SystemEvent α
  | click : SystemEvent α
  | pointerLockChange (now : α) (locked : Bool) : SystemEvent α
  | mouseMove (now : α) (movementX movementY : JSNum α)
      (clientX clientY innerWidth innerHeight : α) : SystemEvent α
  | pointerDown (museum : Museum) (arrowIntersects : List (Option Axis)) (hits : List ℕ) :
      SystemEvent α
  | pointerMove (ray : Ray α) : SystemEvent α
  | pointerUp : SystemEvent α
  | update (deltaTime : α) : SystemEvent α

/-- Dispatch of one event to the handlers registered for it. -/
def System.handle (M : JSMath α) (s : System α) : SystemEvent α → System α
  | SystemEvent.keyDown code key =>
    let s := { s with controls := s.controls._onKeyDown key }
    if code = "Backquote" then s.toggle else s
  | SystemEvent.keyUp key => { s with controls := s.controls._onKeyUp key }
  | SystemEvent.click => s._onClick
  | SystemEvent.pointerLockChange now locked =>
    { s with controls := s.controls._onPointerLockChange M now locked }
  | SystemEvent.mouseMove now movementX movementY clientX clientY innerWidth innerHeight =>
    { s with
      controls := s.controls._onMouseMove M now movementX movementY,
      editor := s.editor.onMouseMove clientX clientY innerWidth innerHeight }
  | SystemEvent.pointerDown museum arrowIntersects hits =>
    { s with editor := s.editor.onPointerDown M s.controls.camera museum arrowIntersects hits }
  | SystemEvent.pointerMove ray => { s with editor := s.editor.onPointerMove ray }
  | SystemEvent.pointerUp => { s with editor := s.editor.onPointerUp }
  | SystemEvent.update deltaTime =>
    { s with controls := s.controls.update M deltaTime, editor := s.editor.update }

/-- The state after a sequence of events. -/
def System.run (M : JSMath α) (s : System α) (events : List (SystemEvent α)) : System α :=
  events.foldl (System.handle M) s

/-- Entering edit mode and clicking the canvas: the backquote key switches
edit mode on (and exits pointer lock), a click on the canvas requests the lock
again, and the browser grants it at time 1000. -/
def editClickEvents : List (SystemEvent α) :=
  [SystemEvent.keyDown "Backquote" "`",
   SystemEvent.click,
   SystemEvent.pointerLockChange 1000 true]

/-- The system after `editClickEvents`, from the initial state. -/
def editClickScenario (M : JSMath α) : System α :=
  (System.new M createCamera standPosition).run M editClickEvents

/-- A mouse move by 10 pixels to the right at time 2000. -/
def lookRight : SystemEvent α :=
  SystemEvent.mouseMove 2000 (JSNum.num 10) (JSNum.num 0) 400 300 800 600

end System

/-! ## Theorems: the fixed time-step loop -/

section LoopTheorems

variable {α : Type} [LinearOrderedField α]

theorem fixedTimeStep_pos : (0 : α) < fixedTimeStep := by
  unfold fixedTimeStep; positivity

/-- The number of whole steps contained in an accumulator value. -/
theorem floor_step_succ [FloorRing α] (acc : α) (h : acc ≥ fixedTimeStep) :
    ⌊acc / fixedTimeStep⌋.toNat = ⌊(acc - fixedTimeStep) / fixedTimeStep⌋.toNat + 1 := by
  have hpos : (0 : α) < fixedTimeStep := fixedTimeStep_pos
  have e : (acc - fixedTimeStep) / fixedTimeStep = acc / fixedTimeStep - 1 := by
    field_simp
  have h1 : (1 : α) ≤ acc / fixedTimeStep := by
    rw [le_div_iff₀ hpos]; simpa using h
  have h2 : (1 : ℤ) ≤ ⌊acc / fixedTimeStep⌋ := by
    rw [Int.le_floor]; simpa using h1
  rw [e, Int.floor_sub_one]
  omega

theorem floor_step_zero [FloorRing α] (acc : α) (h0 : 0 ≤ acc) (h : ¬ acc ≥ fixedTimeStep) :
    ⌊acc / fixedTimeStep⌋.toNat = 0 := by
  have hpos : (0 : α) < fixedTimeStep := fixedTimeStep_pos
  have : ⌊acc / fixedTimeStep⌋ = 0 := by
    rw [Int.floor_eq_iff]
    constructor
    · simpa using div_nonneg h0 hpos.le
    · rw [div_lt_iff₀ hpos]; simpa using h
  simp [this]

/-- Closed form of the loop: from a non-negative accumulator it runs
`⌊acc / fixedTimeStep⌋` iterations, each recording `fixedTimeStep`. -/
theorem fixedStepLoop_eq [FloorRing α] (acc : α) (calls : List α) (h0 : 0 ≤ acc) :
    fixedStepLoop acc calls =
      (acc - (⌊acc / fixedTimeStep⌋.toNat : α) * fixedTimeStep,
        calls ++ List.replicate ⌊acc / fixedTimeStep⌋.toNat fixedTimeStep) := by
  induction acc, calls using fixedStepLoop.induct with
  | case1 acc calls h ih =>
    rw [fixedStepLoop, dif_pos h, ih (by linarith [h]), floor_step_succ acc h]
    simp only [List.replicate_succ, List.append_assoc, List.singleton_append, Nat.cast_add,
      Nat.cast_one, Prod.mk.injEq, and_true]
    ring
  | case2 acc calls h =>
    rw [fixedStepLoop, dif_neg h, floor_step_zero acc h0 h]
    simp

/-- What is left of a non-negative amount of time after removing the whole
steps it contains lies in `[0, fixedTimeStep)`. -/
theorem remainder_bounds [FloorRing α] (x : α) (h0 : 0 ≤ x) :
    0 ≤ x - (⌊x / fixedTimeStep⌋.toNat : α) * fixedTimeStep ∧
      x - (⌊x / fixedTimeStep⌋.toNat : α) * fixedTimeStep < fixedTimeStep := by
  have hpos : (0 : α) < fixedTimeStep := fixedTimeStep_pos
  have hq : 0 ≤ x / fixedTimeStep := div_nonneg h0 hpos.le
  have hfl : (0 : ℤ) ≤ ⌊x / fixedTimeStep⌋ := Int.floor_nonneg.mpr hq
  have hcast : ((⌊x / fixedTimeStep⌋.toNat : ℕ) : α) = ((⌊x / fixedTimeStep⌋ : ℤ) : α) := by
    have : ((⌊x / fixedTimeStep⌋.toNat : ℕ) : ℤ) = ⌊x / fixedTimeStep⌋ :=
      Int.toNat_of_nonneg hfl
    rw [← Int.cast_natCast, this]
  rw [hcast]
  have h1 : ((⌊x / fixedTimeStep⌋ : ℤ) : α) ≤ x / fixedTimeStep := Int.floor_le _
  have h2 : x / fixedTimeStep < ((⌊x / fixedTimeStep⌋ : ℤ) : α) + 1 := Int.lt_floor_add_one _
  rw [le_div_iff₀ hpos] at h1
  rw [div_lt_iff₀ hpos] at h2
  constructor <;> nlinarith

/-- One ready frame, unfolded with the closed form of the loop. -/
theorem animate_ready [FloorRing α] (app : MuseumApp α) (delta : α) (hr : app.isReady = true)
    (h0 : 0 ≤ app.accumulator) (hd : 0 ≤ delta) :
    app.animate delta =
      { app := { app with accumulator := app.accumulator + min delta maxDelta -
            (⌊(app.accumulator + min delta maxDelta) / fixedTimeStep⌋.toNat : α) * fixedTimeStep },
        physicsCalls :=
          List.replicate ⌊(app.accumulator + min delta maxDelta) / fixedTimeStep⌋.toNat
            fixedTimeStep,
        renderAlpha := some ((app.accumulator + min delta maxDelta -
            (⌊(app.accumulator + min delta maxDelta) / fixedTimeStep⌋.toNat : α) * fixedTimeStep)
              / fixedTimeStep) } := by
  have hm : (0 : α) ≤ min delta maxDelta := le_min hd (by unfold maxDelta; positivity)
  have hx : 0 ≤ app.accumulator + min delta maxDelta := add_nonneg h0 hm
  simp [MuseumApp.animate, hr, fixedStepLoop_eq _ _ hx]

/-- Invariant of a run of frames from a ready state whose accumulator is
non-negative: every frame leaves the accumulator in `[0, fixedTimeStep)` and
renders with `alpha = accumulator / fixedTimeStep`. -/
theorem frames_invariant [FloorRing α] (deltas : List α) :
    ∀ (app : MuseumApp α), app.isReady = true → 0 ≤ app.accumulator →
      (∀ d ∈ deltas, 0 ≤ d) →
      ∀ f ∈ app.frames deltas,
        0 ≤ f.app.accumulator ∧ f.app.accumulator < fixedTimeStep ∧
          f.renderAlpha = some (f.app.accumulator / fixedTimeStep) := by
  induction deltas with
  | nil => intro app _ _ _ f hf; simp [MuseumApp.frames] at hf
  | cons d rest ih =>
    intro app hr h0 hd f hf
    have hd0 : 0 ≤ d := hd d (List.mem_cons_self _ _)
    have hm : (0 : α) ≤ min d maxDelta := le_min hd0 (by unfold maxDelta; positivity)
    have hb := remainder_bounds (app.accumulator + min d maxDelta) (add_nonneg h0 hm)
    have ha := animate_ready app d hr h0 hd0
    simp only [MuseumApp.frames, List.mem_cons] at hf
    rcases hf with hf | hf
    · subst hf
      rw [ha]
      exact ⟨hb.1, hb.2, rfl⟩
    · refine ih (app.animate d).app ?_ ?_ (fun x hx => hd x (List.mem_cons_of_mem _ hx)) f hf
      · rw [ha]; exact hr
      · rw [ha]; exact hb.1

theorem frames_length [FloorRing α] (deltas : List α) :
    ∀ (app : MuseumApp α), (app.frames deltas).length = deltas.length := by
  induction deltas with
  | nil => intro app; rfl
  | cons d rest ih => intro app; simp [MuseumApp.frames, ih]

/-- C1: for every sequence of frames with deltas `dt ≥ 0`, starting from
accumulator 0, every call of `animate` returns (one frame per delta), leaves the
accumulator `a` with `0 ≤ a < fixedTimeStep`, and calls `render` with
`alpha = a / fixedTimeStep`, which lies in `[0, 1)`. -/
theorem C1_accumulator_in_range [FloorRing α] (deltas : List α) (hd : ∀ d ∈ deltas, 0 ≤ d) :
    ((MuseumApp.start : MuseumApp α).frames deltas).length = deltas.length ∧
    ∀ f ∈ (MuseumApp.start : MuseumApp α).frames deltas,
      0 ≤ f.app.accumulator ∧ f.app.accumulator < fixedTimeStep ∧
      ∃ alpha : α, f.renderAlpha = some alpha ∧ alpha = f.app.accumulator / fixedTimeStep ∧
        0 ≤ alpha ∧ alpha < 1 := by
  refine ⟨frames_length deltas _, fun f hf => ?_⟩
  have hpos : (0 : α) < fixedTimeStep := fixedTimeStep_pos
  obtain ⟨h0, h1, h2⟩ :=
    frames_invariant deltas (MuseumApp.start : MuseumApp α) rfl (le_refl _) hd f hf
  refine ⟨h0, h1, _, h2, rfl, div_nonneg h0 hpos.le, ?_⟩
  rw [div_lt_iff₀ hpos]; simpa using h1

theorem C1_accumulator_in_range_witness :
    (∀ d ∈ ([1 / 100, 1 / 2, 0] : List ℚ), 0 ≤ d) ∧
    ((MuseumApp.start : MuseumApp ℚ).frames [1 / 100, 1 / 2, 0]).length =
      ([1 / 100, 1 / 2, 0] : List ℚ).length ∧
    ∀ f ∈ (MuseumApp.start : MuseumApp ℚ).frames [1 / 100, 1 / 2, 0],
      0 ≤ f.app.accumulator ∧ f.app.accumulator < fixedTimeStep ∧
      ∃ alpha : ℚ, f.renderAlpha = some alpha ∧ alpha = f.app.accumulator / fixedTimeStep ∧
        0 ≤ alpha ∧ alpha < 1 :=
  have h : ∀ d ∈ ([1 / 100, 1 / 2, 0] : List ℚ), 0 ≤ d := by
    intro d hd'
    simp only [List.mem_cons, List.mem_singleton, List.not_mem_nil, or_false] at hd'
    rcases hd' with rfl | rfl | rfl <;> norm_num
  ⟨h, C1_accumulator_in_range _ h⟩

end LoopTheorems

/-! ## Theorems: the fixed time-step loop on doubles -/

section Loop64Theorems

theorem roundHalfEven_sub_le (y : ℚ) : |(roundHalfEven y : ℚ) - y| ≤ 1 / 2 := by
  have h1 : (⌊y⌋ : ℚ) ≤ y := Int.floor_le y
  have h2 : y < ⌊y⌋ + 1 := Int.lt_floor_add_one y
  unfold roundHalfEven
  rw [abs_le]
  split_ifs with a b c
  · constructor <;> linarith
  · push_cast; constructor <;> linarith
  · constructor <;> linarith
  · push_cast; constructor <;> linarith

theorem roundHalfEven_nonneg (y : ℚ) (h : 0 ≤ y) : 0 ≤ roundHalfEven y := by
  have h0 : 0 ≤ ⌊y⌋ := Int.floor_nonneg.mpr h
  unfold roundHalfEven
  split_ifs <;> omega

/-- A value less than half a unit away from an integer rounds to it. -/
theorem roundHalfEven_of_near (y : ℚ) (n : ℤ) (h : |y - n| < 1 / 2) : roundHalfEven y = n := by
  rw [abs_lt] at h
  have h1 : (⌊y⌋ : ℚ) ≤ y := Int.floor_le y
  have h2 : y < ⌊y⌋ + 1 := Int.lt_floor_add_one y
  have hn1 : ((n - 1 : ℤ) : ℚ) < ((⌊y⌋ + 1 : ℤ) : ℚ) := by push_cast; linarith
  have hn2 : ((⌊y⌋ : ℤ) : ℚ) < ((n + 1 : ℤ) : ℚ) := by push_cast; linarith
  have k1 : n - 1 < ⌊y⌋ + 1 := by exact_mod_cast hn1
  have k2 : ⌊y⌋ < n + 1 := by exact_mod_cast hn2
  have hcases : ⌊y⌋ = n ∨ ⌊y⌋ = n - 1 := by omega
  unfold roundHalfEven
  rcases hcases with hc | hc
  · rw [hc]
    rw [if_pos (by linarith)]
  · rw [hc]
    have hlt : ¬ (y - ((n - 1 : ℤ) : ℚ) < 1 / 2) := by push_cast; linarith
    have hgt : 1 / 2 < y - ((n - 1 : ℤ) : ℚ) := by push_cast; linarith
    rw [if_neg hlt, if_pos hgt]
    ring

/-- A tie above an even integer rounds down to it. -/
theorem roundHalfEven_tie_even (y : ℚ) (f : ℤ) (hy : y = f + 1 / 2) (hev : f % 2 = 0) :
    roundHalfEven y = f := by
  have hf : ⌊y⌋ = f := by
    rw [Int.floor_eq_iff, hy]; constructor <;> norm_num
  have e : y - f = 1 / 2 := by rw [hy]; ring
  unfold roundHalfEven
  rw [hf, e]
  simp [hev]

/-- A tie above an odd integer rounds up to the next one. -/
theorem roundHalfEven_tie_odd (y : ℚ) (f : ℤ) (hy : y = f + 1 / 2) (hodd : f % 2 = 1) :
    roundHalfEven y = f + 1 := by
  have hf : ⌊y⌋ = f := by
    rw [Int.floor_eq_iff, hy]; constructor <;> norm_num
  have e : y - f = 1 / 2 := by rw [hy]; ring
  unfold roundHalfEven
  rw [hf, e]
  simp [hodd]

theorem ulpDouble_pos (x : ℚ) : 0 < ulpDouble x := by
  unfold ulpDouble; positivity

/-- The spacing inside one binade. -/
theorem ulpDouble_of_binade (x : ℚ) (e : ℤ) (h1 : (2 : ℚ) ^ e ≤ |x|)
    (h2 : |x| < (2 : ℚ) ^ (e + 1)) (hmin : -1022 ≤ e) : ulpDouble x = (2 : ℚ) ^ (e - 52) := by
  have hpos : 0 < |x| := lt_of_lt_of_le (by positivity) h1
  have hl1 : e ≤ Int.log 2 |x| := by
    rw [← Int.zpow_le_iff_le_log (by norm_num) hpos]; exact_mod_cast h1
  have hl2 : Int.log 2 |x| < e + 1 := by
    rw [← Int.lt_zpow_iff_log_lt (by norm_num) hpos]; exact_mod_cast h2
  have : Int.log 2 |x| = e := by omega
  unfold ulpDouble
  rw [this, max_eq_left hmin]

theorem ulpDouble_le (x : ℚ) (hx : |x| < 1 / 8) (h0 : x ≠ 0) : ulpDouble x ≤ 1 / 2 ^ 56 := by
  have hpos : 0 < |x| := abs_pos.mpr h0
  have hl : Int.log 2 |x| < -3 := by
    rw [← Int.lt_zpow_iff_log_lt (by norm_num) hpos]
    norm_num
    linarith
  unfold ulpDouble
  have he : max (Int.log 2 |x|) (-1022) - 52 ≤ -56 := by
    have := max_le (show Int.log 2 |x| ≤ -4 by omega) (show (-1022 : ℤ) ≤ -4 by norm_num)
    omega
  calc (2 : ℚ) ^ (max (Int.log 2 |x|) (-1022) - 52) ≤ (2 : ℚ) ^ (-56 : ℤ) :=
        zpow_le_zpow_right₀ (by norm_num) he
    _ = 1 / 2 ^ 56 := by norm_num

theorem roundDouble_zero : roundDouble 0 = 0 := by
  unfold roundDouble
  simp [roundHalfEven]

/-- Below `1/8` a rounded result is within `2^-57` of the exact one. -/
theorem roundDouble_error (x : ℚ) (hx : |x| < 1 / 8) : |roundDouble x - x| ≤ 1 / 2 ^ 57 := by
  by_cases h0 : x = 0
  · rw [h0, roundDouble_zero]; norm_num
  · have hq := ulpDouble_pos x
    have hle := ulpDouble_le x hx h0
    have hr := roundHalfEven_sub_le (x / ulpDouble x)
    have e : roundDouble x - x = ((roundHalfEven (x / ulpDouble x) : ℚ) - x / ulpDouble x) *
        ulpDouble x := by
      unfold roundDouble
      field_simp
    rw [e, abs_mul, abs_of_pos hq]
    calc |(roundHalfEven (x / ulpDouble x) : ℚ) - x / ulpDouble x| * ulpDouble x
        ≤ 1 / 2 * ulpDouble x := by
          exact mul_le_mul_of_nonneg_right hr hq.le
      _ ≤ 1 / 2 * (1 / 2 ^ 56) := by linarith
      _ = 1 / 2 ^ 57 := by norm_num

theorem roundDouble_nonneg (x : ℚ) (hx : 0 ≤ x) : 0 ≤ roundDouble x := by
  unfold roundDouble
  have hq := ulpDouble_pos x
  have := roundHalfEven_nonneg (x / ulpDouble x) (div_nonneg hx hq.le)
  have h2 : (0 : ℚ) ≤ (roundHalfEven (x / ulpDouble x) : ℚ) := by exact_mod_cast this
  positivity

/-- Evaluation of a rounding: the binade of `x` fixes the spacing, and the
rounded significand is computed on `x` divided by the spacing. -/
theorem roundDouble_eq (x : ℚ) (e n : ℤ) (h1 : (2 : ℚ) ^ e ≤ |x|)
    (h2 : |x| < (2 : ℚ) ^ (e + 1)) (hmin : -1022 ≤ e)
    (hn : roundHalfEven (x / (2 : ℚ) ^ (e - 52)) = n) :
    roundDouble x = n * (2 : ℚ) ^ (e - 52) := by
  unfold roundDouble
  rw [ulpDouble_of_binade x e h1 h2 hmin, hn]

/-- The double denoted by the literal `0.01666`. -/
theorem fixedTimeStep64_eq : fixedTimeStep64 = 2400959033343759 / 2 ^ 57 := by
  unfold fixedTimeStep64
  rw [roundDouble_eq (1666 / 100000) (-6) 4801918066687518 (by norm_num [abs_of_pos])
    (by norm_num [abs_of_pos]) (by norm_num)
    (roundHalfEven_of_near _ _ (by norm_num [abs_lt]))]
  norm_num

/-- The double denoted by the literal `0.1`. -/
theorem maxDelta64_eq : maxDelta64 = 3602879701896397 / 2 ^ 55 := by
  unfold maxDelta64
  rw [roundDouble_eq (1 / 10) (-4) 7205759403792794 (by norm_num [abs_of_pos])
    (by norm_num [abs_of_pos]) (by norm_num)
    (roundHalfEven_of_near _ _ (by norm_num [abs_lt]))]
  norm_num

theorem fixedStepLoop64_step (fuel : ℕ) (acc acc2 : ℚ) (calls : List ℚ)
    (h : fixedTimeStep64 ≤ acc) (hr : roundDouble (acc - fixedTimeStep64) = acc2) :
    fixedStepLoop64 (fuel + 1) acc calls =
      fixedStepLoop64 fuel acc2 (calls ++ [fixedTimeStep64]) := by
  rw [fixedStepLoop64, if_pos h, hr]

theorem fixedStepLoop64_stop (fuel : ℕ) (acc : ℚ) (calls : List ℚ)
    (h : acc < fixedTimeStep64) :
    fixedStepLoop64 (fuel + 1) acc calls = some (acc, calls) := by
  rw [fixedStepLoop64, if_neg (not_le.mpr h)]

/-- The loop on doubles terminates from every accumulator in `[0, 1/8)` once
the fuel exceeds `acc / (fixedTimeStep - 2^-57)`; it records only
`fixedTimeStep`, leaves a residual in `[0, fixedTimeStep)`, and loses at most
`2^-57` per iteration. -/
theorem fixedStepLoop64_spec (fuel : ℕ) :
    ∀ (acc : ℚ) (calls : List ℚ), 0 ≤ acc → acc < 1 / 8 →
      acc < (fuel : ℚ) * (fixedTimeStep64 - 1 / 2 ^ 57) →
      ∃ (n : ℕ) (r : ℚ),
        (∀ fuel2, fuel ≤ fuel2 →
          fixedStepLoop64 fuel2 acc calls =
            some (r, calls ++ List.replicate n fixedTimeStep64)) ∧
        0 ≤ r ∧ r < fixedTimeStep64 ∧
        |acc - (n : ℚ) * fixedTimeStep64 - r| ≤ (n : ℚ) * (1 / 2 ^ 57) := by
  induction fuel with
  | zero =>
    intro acc calls h0 _ h2
    simp at h2
    linarith
  | succ k ih =>
    intro acc calls h0 h8 hf
    by_cases hge : fixedTimeStep64 ≤ acc
    · have hH : fixedTimeStep64 = 2400959033343759 / 2 ^ 57 := fixedTimeStep64_eq
      have hx0 : 0 ≤ acc - fixedTimeStep64 := by linarith
      have hx8 : |acc - fixedTimeStep64| < 1 / 8 := by
        rw [abs_of_nonneg hx0]; rw [hH]; rw [hH] at hge; linarith
      have herr := roundDouble_error _ hx8
      rw [abs_le] at herr
      have hnn := roundDouble_nonneg _ hx0
      obtain ⟨n, r, hrun, hr0, hr1, hbk⟩ := ih (roundDouble (acc - fixedTimeStep64))
        (calls ++ [fixedTimeStep64]) hnn
        (by rw [hH] at herr hge ⊢; norm_num at herr hge ⊢; linarith)
        (by push_cast at hf; linarith)
      refine ⟨n + 1, r, ?_, hr0, hr1, ?_⟩
      · intro fuel2 hle
        obtain ⟨j, rfl⟩ : ∃ j, fuel2 = j + 1 := ⟨fuel2 - 1, by omega⟩
        rw [fixedStepLoop64_step j acc _ calls hge rfl, hrun j (by omega)]
        simp [List.replicate_succ]
      · rw [abs_le] at hbk ⊢
        push_cast
        constructor <;> linarith
    · refine ⟨0, acc, ?_, h0, not_le.mp hge, by simp⟩
      intro fuel2 hle
      obtain ⟨j, rfl⟩ : ∃ j, fuel2 = j + 1 := ⟨fuel2 - 1, by omega⟩
      rw [fixedStepLoop64_stop j acc calls (not_le.mp hge)]
      simp


/-- One ready frame on doubles from an accumulator in `[0, fixedTimeStep)`:
with fuel 8 or more it returns; it runs `n ≤ 7` steps, each recorded as
`fixedTimeStep`, leaves a residual `r` in `[0, fixedTimeStep)`, and the time
accounted for differs from the time received by at most `2^-54`. -/
theorem animate64_spec (app : MuseumApp ℚ) (dt : ℚ) (hr : app.isReady = true)
    (h0 : 0 ≤ app.accumulator) (h1 : app.accumulator < fixedTimeStep64) (hdt : 0 ≤ dt) :
    ∃ (n : ℕ) (r : ℚ),
      (∀ fuel, 8 ≤ fuel → app.animate64 fuel dt =
        some { app := { app with accumulator := r },
               physicsCalls := List.replicate n fixedTimeStep64,
               renderAlpha := some (roundDouble (r / fixedTimeStep64)) }) ∧
      0 ≤ r ∧ r < fixedTimeStep64 ∧ n ≤ 7 ∧
      |app.accumulator + min dt maxDelta64 - (n : ℚ) * fixedTimeStep64 - r| ≤ 1 / 2 ^ 54 := by
  have hH : fixedTimeStep64 = 2400959033343759 / 2 ^ 57 := fixedTimeStep64_eq
  have hC : maxDelta64 = 3602879701896397 / 2 ^ 55 := maxDelta64_eq
  have hm0 : 0 ≤ min dt maxDelta64 := le_min hdt (by rw [hC]; positivity)
  have hmc : min dt maxDelta64 ≤ 3602879701896397 / 2 ^ 55 := hC ▸ min_le_right _ _
  have hx0 : 0 ≤ app.accumulator + min dt maxDelta64 := add_nonneg h0 hm0
  have h1n : app.accumulator < 2400959033343759 / 2 ^ 57 := hH ▸ h1
  have hx8 : |app.accumulator + min dt maxDelta64| < 1 / 8 := by
    rw [abs_of_nonneg hx0]; linarith
  have herr := roundDouble_error _ hx8
  rw [abs_le] at herr
  have hnn := roundDouble_nonneg _ hx0
  obtain ⟨n, r, hrun, hr0, hr1, hbk⟩ :=
    fixedStepLoop64_spec 8 (roundDouble (app.accumulator + min dt maxDelta64)) [] hnn
      (by linarith) (by rw [hH]; norm_num; linarith)
  rw [abs_le] at hbk
  have hn : n ≤ 7 := by
    by_contra hc
    have h8 : (8 : ℚ) ≤ (n : ℚ) := by exact_mod_cast (by omega : 8 ≤ n)
    rw [hH] at hbk
    linarith
  have hn7 : (n : ℚ) ≤ 7 := by exact_mod_cast hn
  refine ⟨n, r, ?_, hr0, hr1, hn, ?_⟩
  · intro fuel hfuel
    simp [MuseumApp.animate64, hr, hrun fuel hfuel]
  · rw [abs_le]
    constructor <;> linarith

theorem totalSteps_cons (f : Frame ℚ) (fs : List (Frame ℚ)) :
    totalSteps (f :: fs) = f.physicsCalls.length + totalSteps fs := by
  simp [totalSteps]

/-- A run of frames on doubles from a ready state whose accumulator lies in
`[0, fixedTimeStep)`: with fuel 8 or more every frame returns, and the capped
time received equals the final residual plus one `fixedTimeStep` per executed
step up to `2^-54` per frame. -/
theorem frames64_spec (deltas : List ℚ) :
    ∀ (app : MuseumApp ℚ), app.isReady = true → 0 ≤ app.accumulator →
      app.accumulator < fixedTimeStep64 → (∀ d ∈ deltas, 0 ≤ d) →
      ∃ (fs : List (Frame ℚ)) (r : ℚ),
        (∀ fuel, 8 ≤ fuel → app.frames64 fuel deltas = some fs) ∧
        fs.length = deltas.length ∧ 0 ≤ r ∧ r < fixedTimeStep64 ∧
        |app.accumulator + (deltas.map fun d => min d maxDelta64).sum -
            (totalSteps fs : ℚ) * fixedTimeStep64 - r| ≤ (deltas.length : ℚ) * (1 / 2 ^ 54) := by
  induction deltas with
  | nil =>
    intro app _ h0 h1 _
    exact ⟨[], app.accumulator, fun _ _ => rfl, rfl, h0, h1, by simp [totalSteps]⟩
  | cons d rest ih =>
    intro app hr h0 h1 hd
    obtain ⟨n, r1, hrun, hr0, hr1, _, hbk⟩ :=
      animate64_spec app d hr h0 h1 (hd d (List.mem_cons_self _ _))
    obtain ⟨fs, r, hruns, hlen, hr0s, hr1s, hbks⟩ :=
      ih { app with accumulator := r1 } hr hr0 hr1
        (fun x hx => hd x (List.mem_cons_of_mem _ hx))
    refine ⟨Frame.mk (MuseumApp.mk app.isReady r1) (List.replicate n fixedTimeStep64)
      (some (roundDouble (r1 / fixedTimeStep64))) :: fs, r, ?_, ?_, hr0s, hr1s, ?_⟩
    · intro fuel hfuel
      simp [MuseumApp.frames64, hrun fuel hfuel, hruns fuel hfuel]
    · simp [hlen]
    · rw [totalSteps_cons]
      rw [abs_le] at hbk hbks ⊢
      simp only [List.map_cons, List.sum_cons, List.length_cons, List.length_replicate,
        Nat.cast_add, Nat.cast_one] at hbks ⊢
      constructor <;> linarith

/-- A step count is pinned down by the time it accounts for: if `t` equals
`n` steps plus a residual in `[0, fixedTimeStep)` up to `tol`, then `n` lies
between the floors of `(t - tol) / fixedTimeStep` and `(t + tol) / fixedTimeStep`,
and is the floor of `t / fixedTimeStep` when those two agree. -/
theorem count_of_bookkeeping64 (t r tol : ℚ) (n : ℕ) (h0 : 0 ≤ r)
    (h1 : r < fixedTimeStep64) (htol : 0 ≤ tol)
    (hb : |t - (n : ℚ) * fixedTimeStep64 - r| ≤ tol) :
    ⌊(t - tol) / fixedTimeStep64⌋ ≤ (n : ℤ) ∧ (n : ℤ) ≤ ⌊(t + tol) / fixedTimeStep64⌋ ∧
    (⌊(t - tol) / fixedTimeStep64⌋ = ⌊(t + tol) / fixedTimeStep64⌋ →
      (n : ℤ) = ⌊t / fixedTimeStep64⌋) := by
  have hpos : (0 : ℚ) < fixedTimeStep64 := by rw [fixedTimeStep64_eq]; positivity
  rw [abs_le] at hb
  have lo : ⌊(t - tol) / fixedTimeStep64⌋ ≤ (n : ℤ) := by
    rw [← Int.lt_add_one_iff, Int.floor_lt, div_lt_iff₀ hpos]
    push_cast
    linarith
  have hi : (n : ℤ) ≤ ⌊(t + tol) / fixedTimeStep64⌋ := by
    rw [Int.le_floor, le_div_iff₀ hpos]
    push_cast
    linarith
  refine ⟨lo, hi, fun e => ?_⟩
  have m1 : ⌊(t - tol) / fixedTimeStep64⌋ ≤ ⌊t / fixedTimeStep64⌋ :=
    Int.floor_mono (div_le_div_of_nonneg_right (by linarith) hpos.le)
  have m2 : ⌊t / fixedTimeStep64⌋ ≤ ⌊(t + tol) / fixedTimeStep64⌋ :=
    Int.floor_mono (div_le_div_of_nonneg_right (by linarith) hpos.le)
  omega

/-- One frame on doubles from accumulator `0.01663` with delta
`0.09999000000000001`: six steps, and the accumulator ends `2^-55` below
`fixedTimeStep`. -/
theorem animate64_boundary_sample :
    MuseumApp.animate64 8
        ({ isReady := true, accumulator := 2396635577701483 / 2 ^ 57 } : MuseumApp ℚ)
        (7205038827852415 / 2 ^ 56) =
      some { app := { isReady := true, accumulator := 2400959033343755 / 2 ^ 57 },
             physicsCalls := List.replicate 6 fixedTimeStep64,
             renderAlpha := some (roundDouble (2400959033343755 / 2 ^ 57 / fixedTimeStep64)) } := by
  have hH := fixedTimeStep64_eq
  have hm : min (7205038827852415 / 2 ^ 56 : ℚ) maxDelta64 = 7205038827852415 / 2 ^ 56 := by
    rw [maxDelta64_eq]; exact min_eq_left (by norm_num)
  have r0 : roundDouble ((2396635577701483 / 2 ^ 57 : ℚ) + 7205038827852415 / 2 ^ 56) =
      2100839154175789 / 2 ^ 54 := by
    rw [roundDouble_eq ((2396635577701483 / 2 ^ 57 : ℚ) + 7205038827852415 / 2 ^ 56)
      (-4) 8403356616703156
      (by norm_num [abs_of_pos]) (by norm_num [abs_of_pos]) (by norm_num)
      (roundHalfEven_tie_even _ 8403356616703156 (by norm_num) (by norm_num))]
    norm_num
  have r1 : roundDouble ((2100839154175789 / 2 ^ 54 : ℚ) - fixedTimeStep64) =
      1800719275007819 / 2 ^ 54 := by
    rw [hH, roundDouble_eq ((2100839154175789 / 2 ^ 54 : ℚ) - 2400959033343759 / 2 ^ 57)
      (-4) 7202877100031276
      (by norm_num [abs_of_pos]) (by norm_num [abs_of_pos]) (by norm_num)
      (roundHalfEven_tie_even _ 7202877100031276 (by norm_num) (by norm_num))]
    norm_num
  have r2 : roundDouble ((1800719275007819 / 2 ^ 54 : ℚ) - fixedTimeStep64) =
      1500599395839849 / 2 ^ 54 := by
    rw [hH, roundDouble_eq ((1800719275007819 / 2 ^ 54 : ℚ) - 2400959033343759 / 2 ^ 57)
      (-4) 6002397583359396
      (by norm_num [abs_of_pos]) (by norm_num [abs_of_pos]) (by norm_num)
      (roundHalfEven_tie_even _ 6002397583359396 (by norm_num) (by norm_num))]
    norm_num
  have r3 : roundDouble ((1500599395839849 / 2 ^ 54 : ℚ) - fixedTimeStep64) =
      1200479516671879 / 2 ^ 54 := by
    rw [hH, roundDouble_eq ((1500599395839849 / 2 ^ 54 : ℚ) - 2400959033343759 / 2 ^ 57)
      (-4) 4801918066687516
      (by norm_num [abs_of_pos]) (by norm_num [abs_of_pos]) (by norm_num)
      (roundHalfEven_tie_even _ 4801918066687516 (by norm_num) (by norm_num))]
    norm_num
  have r4 : roundDouble ((1200479516671879 / 2 ^ 54 : ℚ) - fixedTimeStep64) =
      7202877100031273 / 2 ^ 57 := by
    rw [hH, roundDouble_eq ((1200479516671879 / 2 ^ 54 : ℚ) - 2400959033343759 / 2 ^ 57)
      (-5) 7202877100031273
      (by norm_num [abs_of_pos]) (by norm_num [abs_of_pos]) (by norm_num)
      (roundHalfEven_of_near _ 7202877100031273 (by norm_num [abs_lt]))]
    norm_num
  have r5 : roundDouble ((7202877100031273 / 2 ^ 57 : ℚ) - fixedTimeStep64) =
      2400959033343757 / 2 ^ 56 := by
    rw [hH, roundDouble_eq ((7202877100031273 / 2 ^ 57 : ℚ) - 2400959033343759 / 2 ^ 57)
      (-5) 4801918066687514
      (by norm_num [abs_of_pos]) (by norm_num [abs_of_pos]) (by norm_num)
      (roundHalfEven_of_near _ 4801918066687514 (by norm_num [abs_lt]))]
    norm_num
  have r6 : roundDouble ((2400959033343757 / 2 ^ 56 : ℚ) - fixedTimeStep64) =
      2400959033343755 / 2 ^ 57 := by
    rw [hH, roundDouble_eq ((2400959033343757 / 2 ^ 56 : ℚ) - 2400959033343759 / 2 ^ 57)
      (-6) 4801918066687510
      (by norm_num [abs_of_pos]) (by norm_num [abs_of_pos]) (by norm_num)
      (roundHalfEven_of_near _ 4801918066687510 (by norm_num [abs_lt]))]
    norm_num
  have l : fixedStepLoop64 8 (2100839154175789 / 2 ^ 54) [] =
      some (2400959033343755 / 2 ^ 57, List.replicate 6 fixedTimeStep64) := by
    exact ((fixedStepLoop64_step 7 (2100839154175789 / 2 ^ 54) (1800719275007819 / 2 ^ 54) _
        (by rw [hH]; norm_num) r1).trans
      ((fixedStepLoop64_step 6 (1800719275007819 / 2 ^ 54) (1500599395839849 / 2 ^ 54) _
        (by rw [hH]; norm_num) r2).trans
      ((fixedStepLoop64_step 5 (1500599395839849 / 2 ^ 54) (1200479516671879 / 2 ^ 54) _
        (by rw [hH]; norm_num) r3).trans
      ((fixedStepLoop64_step 4 (1200479516671879 / 2 ^ 54) (7202877100031273 / 2 ^ 57) _
        (by rw [hH]; norm_num) r4).trans
      ((fixedStepLoop64_step 3 (7202877100031273 / 2 ^ 57) (2400959033343757 / 2 ^ 56) _
        (by rw [hH]; norm_num) r5).trans
      ((fixedStepLoop64_step 2 (2400959033343757 / 2 ^ 56) (2400959033343755 / 2 ^ 57) _
        (by rw [hH]; norm_num) r6).trans
      (fixedStepLoop64_stop 1 (2400959033343755 / 2 ^ 57) _ (by rw [hH]; norm_num))))))))
  simp [MuseumApp.animate64, MuseumApp.start, hm, r0, l]

/-- One frame on doubles from accumulator 0 with delta `1`: the delta is capped
at `0.1` and six steps run. -/
theorem animate64_capped_sample :
    MuseumApp.animate64 8 (MuseumApp.start : MuseumApp ℚ)
        (1) =
      some { app := { isReady := true, accumulator := 720575940379 / 2 ^ 54 },
             physicsCalls := List.replicate 6 fixedTimeStep64,
             renderAlpha := some (roundDouble (720575940379 / 2 ^ 54 / fixedTimeStep64)) } := by
  have hH := fixedTimeStep64_eq
  have hm : min (1 : ℚ) maxDelta64 = 3602879701896397 / 2 ^ 55 := by
    rw [maxDelta64_eq]; exact min_eq_right (by norm_num)
  have r0 : roundDouble (3602879701896397 / 2 ^ 55) =
      3602879701896397 / 2 ^ 55 := by
    rw [roundDouble_eq (3602879701896397 / 2 ^ 55)
      (-4) 7205759403792794
      (by norm_num [abs_of_pos]) (by norm_num [abs_of_pos]) (by norm_num)
      (roundHalfEven_of_near _ 7205759403792794 (by norm_num [abs_lt]))]
    norm_num
  have r1 : roundDouble ((3602879701896397 / 2 ^ 55 : ℚ) - fixedTimeStep64) =
      3002639943560457 / 2 ^ 55 := by
    rw [hH, roundDouble_eq ((3602879701896397 / 2 ^ 55 : ℚ) - 2400959033343759 / 2 ^ 57)
      (-4) 6005279887120914
      (by norm_num [abs_of_pos]) (by norm_num [abs_of_pos]) (by norm_num)
      (roundHalfEven_tie_even _ 6005279887120914 (by norm_num) (by norm_num))]
    norm_num
  have r2 : roundDouble ((3002639943560457 / 2 ^ 55 : ℚ) - fixedTimeStep64) =
      2402400185224517 / 2 ^ 55 := by
    rw [hH, roundDouble_eq ((3002639943560457 / 2 ^ 55 : ℚ) - 2400959033343759 / 2 ^ 57)
      (-4) 4804800370449034
      (by norm_num [abs_of_pos]) (by norm_num [abs_of_pos]) (by norm_num)
      (roundHalfEven_tie_even _ 4804800370449034 (by norm_num) (by norm_num))]
    norm_num
  have r3 : roundDouble ((2402400185224517 / 2 ^ 55 : ℚ) - fixedTimeStep64) =
      7208641707554309 / 2 ^ 57 := by
    rw [hH, roundDouble_eq ((2402400185224517 / 2 ^ 55 : ℚ) - 2400959033343759 / 2 ^ 57)
      (-5) 7208641707554309
      (by norm_num [abs_of_pos]) (by norm_num [abs_of_pos]) (by norm_num)
      (roundHalfEven_of_near _ 7208641707554309 (by norm_num [abs_lt]))]
    norm_num
  have r4 : roundDouble ((7208641707554309 / 2 ^ 57 : ℚ) - fixedTimeStep64) =
      2403841337105275 / 2 ^ 56 := by
    rw [hH, roundDouble_eq ((7208641707554309 / 2 ^ 57 : ℚ) - 2400959033343759 / 2 ^ 57)
      (-5) 4807682674210550
      (by norm_num [abs_of_pos]) (by norm_num [abs_of_pos]) (by norm_num)
      (roundHalfEven_of_near _ 4807682674210550 (by norm_num [abs_lt]))]
    norm_num
  have r5 : roundDouble ((2403841337105275 / 2 ^ 56 : ℚ) - fixedTimeStep64) =
      2406723640866791 / 2 ^ 57 := by
    rw [hH, roundDouble_eq ((2403841337105275 / 2 ^ 56 : ℚ) - 2400959033343759 / 2 ^ 57)
      (-6) 4813447281733582
      (by norm_num [abs_of_pos]) (by norm_num [abs_of_pos]) (by norm_num)
      (roundHalfEven_of_near _ 4813447281733582 (by norm_num [abs_lt]))]
    norm_num
  have r6 : roundDouble ((2406723640866791 / 2 ^ 57 : ℚ) - fixedTimeStep64) =
      720575940379 / 2 ^ 54 := by
    rw [hH, roundDouble_eq ((2406723640866791 / 2 ^ 57 : ℚ) - 2400959033343759 / 2 ^ 57)
      (-15) 5902958103584768
      (by norm_num [abs_of_pos]) (by norm_num [abs_of_pos]) (by norm_num)
      (roundHalfEven_of_near _ 5902958103584768 (by norm_num [abs_lt]))]
    norm_num
  have l : fixedStepLoop64 8 (3602879701896397 / 2 ^ 55) [] =
      some (720575940379 / 2 ^ 54, List.replicate 6 fixedTimeStep64) := by
    exact ((fixedStepLoop64_step 7 (3602879701896397 / 2 ^ 55) (3002639943560457 / 2 ^ 55) _
        (by rw [hH]; norm_num) r1).trans
      ((fixedStepLoop64_step 6 (3002639943560457 / 2 ^ 55) (2402400185224517 / 2 ^ 55) _
        (by rw [hH]; norm_num) r2).trans
      ((fixedStepLoop64_step 5 (2402400185224517 / 2 ^ 55) (7208641707554309 / 2 ^ 57) _
        (by rw [hH]; norm_num) r3).trans
      ((fixedStepLoop64_step 4 (7208641707554309 / 2 ^ 57) (2403841337105275 / 2 ^ 56) _
        (by rw [hH]; norm_num) r4).trans
      ((fixedStepLoop64_step 3 (2403841337105275 / 2 ^ 56) (2406723640866791 / 2 ^ 57) _
        (by rw [hH]; norm_num) r5).trans
      ((fixedStepLoop64_step 2 (2406723640866791 / 2 ^ 57) (720575940379 / 2 ^ 54) _
        (by rw [hH]; norm_num) r6).trans
      (fixedStepLoop64_stop 1 (720575940379 / 2 ^ 54) _ (by rw [hH]; norm_num))))))))
  simp [MuseumApp.animate64, MuseumApp.start, hm, r0, l]

/-- One frame on doubles from accumulator 0 with delta `0.01663`: no step runs. -/
theorem animate64_idle_sample :
    MuseumApp.animate64 8 (MuseumApp.start : MuseumApp ℚ)
        (2396635577701483 / 2 ^ 57) =
      some { app := { isReady := true, accumulator := 2396635577701483 / 2 ^ 57 },
             physicsCalls := List.replicate 0 fixedTimeStep64,
             renderAlpha := some (roundDouble (2396635577701483 / 2 ^ 57 / fixedTimeStep64)) } := by
  have hH := fixedTimeStep64_eq
  have hm : min (2396635577701483 / 2 ^ 57 : ℚ) maxDelta64 = 2396635577701483 / 2 ^ 57 := by
    rw [maxDelta64_eq]; exact min_eq_left (by norm_num)
  have r0 : roundDouble (2396635577701483 / 2 ^ 57) =
      2396635577701483 / 2 ^ 57 := by
    rw [roundDouble_eq (2396635577701483 / 2 ^ 57)
      (-6) 4793271155402966
      (by norm_num [abs_of_pos]) (by norm_num [abs_of_pos]) (by norm_num)
      (roundHalfEven_of_near _ 4793271155402966 (by norm_num [abs_lt]))]
    norm_num
  have l : fixedStepLoop64 8 (2396635577701483 / 2 ^ 57) [] =
      some (2396635577701483 / 2 ^ 57, List.replicate 0 fixedTimeStep64) := by
    exact (fixedStepLoop64_stop 7 (2396635577701483 / 2 ^ 57) _ (by rw [hH]; norm_num))
  simp [MuseumApp.animate64, MuseumApp.start, hm, r0, l]

/-- C2 (as amended): for every sequence of frames with deltas `dt_i ≥ 0`,
starting from accumulator 0, every call of `animate` returns, and the total
number `N` of `updatePhysics` steps is the floor of the capped time
`T = min(dt_1, 0.1) + ... + min(dt_k, 0.1)` over `fixedTimeStep` up to the
rounding of the double arithmetic: with `tol = k * 2^-54`,
`floor((T - tol) / fixedTimeStep) ≤ N ≤ floor((T + tol) / fixedTimeStep)`,
and `N = floor(T / fixedTimeStep)` whenever the two bounds agree. -/
theorem C2_total_steps_rounded (deltas : List ℚ) (hd : ∀ d ∈ deltas, 0 ≤ d) :
    ∃ fs : List (Frame ℚ),
      (∀ fuel, 8 ≤ fuel →
        (MuseumApp.start : MuseumApp ℚ).frames64 fuel deltas = some fs) ∧
      fs.length = deltas.length ∧
      ⌊((deltas.map fun d => min d maxDelta64).sum - (deltas.length : ℚ) * (1 / 2 ^ 54)) /
          fixedTimeStep64⌋ ≤ (totalSteps fs : ℤ) ∧
      (totalSteps fs : ℤ) ≤
        ⌊((deltas.map fun d => min d maxDelta64).sum + (deltas.length : ℚ) * (1 / 2 ^ 54)) /
          fixedTimeStep64⌋ ∧
      (⌊((deltas.map fun d => min d maxDelta64).sum - (deltas.length : ℚ) * (1 / 2 ^ 54)) /
          fixedTimeStep64⌋ =
        ⌊((deltas.map fun d => min d maxDelta64).sum + (deltas.length : ℚ) * (1 / 2 ^ 54)) /
          fixedTimeStep64⌋ →
        (totalSteps fs : ℤ) = ⌊(deltas.map fun d => min d maxDelta64).sum / fixedTimeStep64⌋) := by
  have hpos : (0 : ℚ) < fixedTimeStep64 := by rw [fixedTimeStep64_eq]; positivity
  obtain ⟨fs, r, hrun, hlen, hr0, hr1, hbk⟩ :=
    frames64_spec deltas (MuseumApp.start : MuseumApp ℚ) rfl (le_refl _) hpos hd
  have hbk2 : |(deltas.map fun d => min d maxDelta64).sum -
      (totalSteps fs : ℚ) * fixedTimeStep64 - r| ≤ (deltas.length : ℚ) * (1 / 2 ^ 54) := by
    simpa [MuseumApp.start] using hbk
  exact ⟨fs, hrun, hlen, count_of_bookkeeping64 _ r _ _ hr0 hr1 (by positivity) hbk2⟩

theorem C2_total_steps_rounded_witness :
    (∀ d ∈ ([1, 1 / 100] : List ℚ), 0 ≤ d) ∧
    ∃ fs : List (Frame ℚ),
      (∀ fuel, 8 ≤ fuel →
        (MuseumApp.start : MuseumApp ℚ).frames64 fuel [1, 1 / 100] = some fs) ∧
      fs.length = ([1, 1 / 100] : List ℚ).length ∧
      ⌊((([1, 1 / 100] : List ℚ).map fun d => min d maxDelta64).sum -
          (([1, 1 / 100] : List ℚ).length : ℚ) * (1 / 2 ^ 54)) / fixedTimeStep64⌋ ≤
        (totalSteps fs : ℤ) ∧
      (totalSteps fs : ℤ) ≤
        ⌊((([1, 1 / 100] : List ℚ).map fun d => min d maxDelta64).sum +
          (([1, 1 / 100] : List ℚ).length : ℚ) * (1 / 2 ^ 54)) / fixedTimeStep64⌋ ∧
      (⌊((([1, 1 / 100] : List ℚ).map fun d => min d maxDelta64).sum -
          (([1, 1 / 100] : List ℚ).length : ℚ) * (1 / 2 ^ 54)) / fixedTimeStep64⌋ =
        ⌊((([1, 1 / 100] : List ℚ).map fun d => min d maxDelta64).sum +
          (([1, 1 / 100] : List ℚ).length : ℚ) * (1 / 2 ^ 54)) / fixedTimeStep64⌋ →
        (totalSteps fs : ℤ) =
          ⌊(([1, 1 / 100] : List ℚ).map fun d => min d maxDelta64).sum / fixedTimeStep64⌋) :=
  have h : ∀ d ∈ ([1, 1 / 100] : List ℚ), 0 ≤ d := by
    intro d hd2
    simp only [List.mem_cons, List.mem_singleton, List.not_mem_nil, or_false] at hd2
    rcases hd2 with rfl | rfl <;> norm_num
  ⟨h, C2_total_steps_rounded _ h⟩

/-- C2 as stated fails, in two ways.  A single frame with `dt = 1` executes 6
steps, while `floor(1 / fixedTimeStep) = 60` (the delta is capped at `0.1`).
And two frames with the doubles `0.01663` and `0.09999000000000001`, both
below the cap, execute 6 steps in all, while their sum is exactly seven times
the double `fixedTimeStep`, so the floor is 7 (with the decimal `0.01666` as
well): the sum stored in the accumulator is rounded down below the seventh
step. -/
theorem C2_counterexample :
    (0 : ℚ) ≤ 1 ∧
    ((MuseumApp.start : MuseumApp ℚ).frames64 8 [1]).map totalSteps = some 6 ∧
    ⌊([1] : List ℚ).sum / fixedTimeStep64⌋ = 60 ∧
    ⌊([1] : List ℚ).sum / (fixedTimeStep : ℚ)⌋ = 60 ∧
    (0 : ℚ) ≤ 2396635577701483 / 2 ^ 57 ∧ (0 : ℚ) ≤ 7205038827852415 / 2 ^ 56 ∧
    roundDouble (2396635577701483 / 2 ^ 57) = 2396635577701483 / 2 ^ 57 ∧
    roundDouble (7205038827852415 / 2 ^ 56) = 7205038827852415 / 2 ^ 56 ∧
    ((MuseumApp.start : MuseumApp ℚ).frames64 8
        [2396635577701483 / 2 ^ 57, 7205038827852415 / 2 ^ 56]).map totalSteps = some 6 ∧
    ⌊([2396635577701483 / 2 ^ 57, 7205038827852415 / 2 ^ 56] : List ℚ).sum /
        fixedTimeStep64⌋ = 7 ∧
    ⌊([2396635577701483 / 2 ^ 57, 7205038827852415 / 2 ^ 56] : List ℚ).sum /
        (fixedTimeStep : ℚ)⌋ = 7 := by
  have hH := fixedTimeStep64_eq
  refine ⟨by norm_num, ?_, ?_, ?_, by positivity, by positivity, ?_, ?_, ?_, ?_, ?_⟩
  · simp [MuseumApp.frames64, animate64_capped_sample, totalSteps]
  · rw [Int.floor_eq_iff, hH]; norm_num
  · rw [Int.floor_eq_iff]; unfold fixedTimeStep; norm_num
  · rw [roundDouble_eq (2396635577701483 / 2 ^ 57) (-6) 4793271155402966
      (by norm_num [abs_of_pos]) (by norm_num [abs_of_pos]) (by norm_num)
      (roundHalfEven_of_near _ 4793271155402966 (by norm_num [abs_lt]))]
    norm_num
  · rw [roundDouble_eq (7205038827852415 / 2 ^ 56) (-4) 7205038827852415
      (by norm_num [abs_of_pos]) (by norm_num [abs_of_pos]) (by norm_num)
      (roundHalfEven_of_near _ 7205038827852415 (by norm_num [abs_lt]))]
    norm_num
  · simp [MuseumApp.frames64, animate64_idle_sample, animate64_boundary_sample, totalSteps]
  · rw [Int.floor_eq_iff, hH]; norm_num
  · rw [Int.floor_eq_iff]; unfold fixedTimeStep; norm_num

/-- C3 (as amended): in one call of `animate` with the accumulator `a` in
`[0, fixedTimeStep)` and a delta `dt ≥ 0`, the loop terminates; every
iteration calls `updatePhysics` with exactly `fixedTimeStep`; at most 7 steps
run; and the number `n` of iterations is the floor of
`t = a + min(dt, 0.1)` over `fixedTimeStep` up to the rounding of the double
arithmetic: `floor((t - 2^-54) / fixedTimeStep) ≤ n ≤
floor((t + 2^-54) / fixedTimeStep)`, and `n = floor(t / fixedTimeStep)`
whenever the two bounds agree. -/
theorem C3_steps_per_frame_rounded (app : MuseumApp ℚ) (dt : ℚ)
    (hr : app.isReady = true) (h0 : 0 ≤ app.accumulator)
    (h1 : app.accumulator < fixedTimeStep64) (hdt : 0 ≤ dt) :
    ∃ f : Frame ℚ,
      (∀ fuel, 8 ≤ fuel → app.animate64 fuel dt = some f) ∧
      (∀ step ∈ f.physicsCalls, step = fixedTimeStep64) ∧
      f.physicsCalls.length ≤ 7 ∧
      ⌊(app.accumulator + min dt maxDelta64 - 1 / 2 ^ 54) / fixedTimeStep64⌋ ≤
        (f.physicsCalls.length : ℤ) ∧
      (f.physicsCalls.length : ℤ) ≤
        ⌊(app.accumulator + min dt maxDelta64 + 1 / 2 ^ 54) / fixedTimeStep64⌋ ∧
      (⌊(app.accumulator + min dt maxDelta64 - 1 / 2 ^ 54) / fixedTimeStep64⌋ =
        ⌊(app.accumulator + min dt maxDelta64 + 1 / 2 ^ 54) / fixedTimeStep64⌋ →
        (f.physicsCalls.length : ℤ) =
          ⌊(app.accumulator + min dt maxDelta64) / fixedTimeStep64⌋) := by
  obtain ⟨n, r, hrun, hr0, hr1, hn, hbk⟩ := animate64_spec app dt hr h0 h1 hdt
  refine ⟨_, hrun, ?_, ?_, ?_⟩
  · intro step hs
    exact (List.mem_replicate.mp hs).2
  · simpa using hn
  · simpa using count_of_bookkeeping64 _ r _ n hr0 hr1 (by positivity) hbk

theorem C3_steps_per_frame_rounded_witness :
    ({ isReady := true, accumulator := 1 / 100 } : MuseumApp ℚ).isReady = true ∧
    (0 : ℚ) ≤ ({ isReady := true, accumulator := 1 / 100 } : MuseumApp ℚ).accumulator ∧
    ({ isReady := true, accumulator := 1 / 100 } : MuseumApp ℚ).accumulator < fixedTimeStep64 ∧
    (0 : ℚ) ≤ 5 ∧
    ∃ f : Frame ℚ,
      (∀ fuel, 8 ≤ fuel →
        ({ isReady := true, accumulator := 1 / 100 } : MuseumApp ℚ).animate64 fuel 5 = some f) ∧
      (∀ step ∈ f.physicsCalls, step = fixedTimeStep64) ∧
      f.physicsCalls.length ≤ 7 ∧
      ⌊((1 / 100 : ℚ) + min 5 maxDelta64 - 1 / 2 ^ 54) / fixedTimeStep64⌋ ≤
        (f.physicsCalls.length : ℤ) ∧
      (f.physicsCalls.length : ℤ) ≤
        ⌊((1 / 100 : ℚ) + min 5 maxDelta64 + 1 / 2 ^ 54) / fixedTimeStep64⌋ ∧
      (⌊((1 / 100 : ℚ) + min 5 maxDelta64 - 1 / 2 ^ 54) / fixedTimeStep64⌋ =
        ⌊((1 / 100 : ℚ) + min 5 maxDelta64 + 1 / 2 ^ 54) / fixedTimeStep64⌋ →
        (f.physicsCalls.length : ℤ) =
          ⌊((1 / 100 : ℚ) + min 5 maxDelta64) / fixedTimeStep64⌋) :=
  ⟨rfl, by norm_num, by rw [fixedTimeStep64_eq]; norm_num, by norm_num,
    C3_steps_per_frame_rounded _ 5 rfl (by norm_num) (by rw [fixedTimeStep64_eq]; norm_num)
      (by norm_num)⟩

/-- C3 as stated fails: from the accumulator `0.01663` with the delta
`0.09999000000000001` (both doubles, the delta below the cap) the loop runs 6
iterations, while `a + min(dt, 0.1)` is exactly seven times the double
`fixedTimeStep`, so `floor((a + min(dt, 0.1)) / fixedTimeStep) = 7`; the
floor is 7 with the decimal constants `0.1` and `0.01666` too, and also when
the sum and the quotient are themselves computed on doubles. -/
theorem C3_counterexample :
    (0 : ℚ) ≤ 2396635577701483 / 2 ^ 57 ∧
    (2396635577701483 / 2 ^ 57 : ℚ) < fixedTimeStep64 ∧
    (0 : ℚ) ≤ 7205038827852415 / 2 ^ 56 ∧
    roundDouble (2396635577701483 / 2 ^ 57) = 2396635577701483 / 2 ^ 57 ∧
    roundDouble (7205038827852415 / 2 ^ 56) = 7205038827852415 / 2 ^ 56 ∧
    (MuseumApp.animate64 8
        ({ isReady := true, accumulator := 2396635577701483 / 2 ^ 57 } : MuseumApp ℚ)
        (7205038827852415 / 2 ^ 56)).map (fun f => f.physicsCalls.length) = some 6 ∧
    ⌊((2396635577701483 / 2 ^ 57 : ℚ) + min (7205038827852415 / 2 ^ 56) maxDelta64) /
        fixedTimeStep64⌋ = 7 ∧
    ⌊((2396635577701483 / 2 ^ 57 : ℚ) + min (7205038827852415 / 2 ^ 56) (maxDelta : ℚ)) /
        (fixedTimeStep : ℚ)⌋ = 7 ∧
    ⌊roundDouble (roundDouble ((2396635577701483 / 2 ^ 57 : ℚ) +
        min (7205038827852415 / 2 ^ 56) maxDelta64) / fixedTimeStep64)⌋ = 7 := by
  have hH := fixedTimeStep64_eq
  have hm : min (7205038827852415 / 2 ^ 56 : ℚ) maxDelta64 = 7205038827852415 / 2 ^ 56 := by
    rw [maxDelta64_eq]; exact min_eq_left (by norm_num)
  have hm2 : min (7205038827852415 / 2 ^ 56 : ℚ) (maxDelta : ℚ) =
      7205038827852415 / 2 ^ 56 := by
    unfold maxDelta; exact min_eq_left (by norm_num)
  have r0 : roundDouble ((2396635577701483 / 2 ^ 57 : ℚ) + 7205038827852415 / 2 ^ 56) =
      2100839154175789 / 2 ^ 54 := by
    rw [roundDouble_eq ((2396635577701483 / 2 ^ 57 : ℚ) + 7205038827852415 / 2 ^ 56) (-4)
      8403356616703156
      (by norm_num [abs_of_pos]) (by norm_num [abs_of_pos]) (by norm_num)
      (roundHalfEven_tie_even _ 8403356616703156 (by norm_num) (by norm_num))]
    norm_num
  refine ⟨by positivity, by rw [hH]; norm_num, by positivity, ?_, ?_, ?_, ?_, ?_, ?_⟩
  · rw [roundDouble_eq (2396635577701483 / 2 ^ 57) (-6) 4793271155402966
      (by norm_num [abs_of_pos]) (by norm_num [abs_of_pos]) (by norm_num)
      (roundHalfEven_of_near _ 4793271155402966 (by norm_num [abs_lt]))]
    norm_num
  · rw [roundDouble_eq (7205038827852415 / 2 ^ 56) (-4) 7205038827852415
      (by norm_num [abs_of_pos]) (by norm_num [abs_of_pos]) (by norm_num)
      (roundHalfEven_of_near _ 7205038827852415 (by norm_num [abs_lt]))]
    norm_num
  · simp [animate64_boundary_sample]
  · rw [hm, Int.floor_eq_iff, hH]; norm_num
  · rw [hm2, Int.floor_eq_iff]; unfold fixedTimeStep; norm_num
  · rw [hm, r0, hH, roundDouble_eq ((2100839154175789 / 2 ^ 54 : ℚ) /
        (2400959033343759 / 2 ^ 57)) 2 7881299347898368
      (by norm_num [abs_of_pos]) (by norm_num [abs_of_pos]) (by norm_num)
      (roundHalfEven_of_near _ 7881299347898368 (by norm_num [abs_lt]))]
    norm_num

end Loop64Theorems

/-! ## Theorems: orientation -/

section OrientationTheorems

theorem pitchLimit_pos (M : JSMath ℝ) (hM : M.IsReal) : 0 < pitchLimit M := by
  have h3 := Real.pi_gt_three
  unfold pitchLimit
  rw [hM.1]
  linarith

theorem pitchLimit_lt_half_pi (M : JSMath ℝ) (hM : M.IsReal) : pitchLimit M < Real.pi / 2 := by
  unfold pitchLimit
  rw [hM.1]
  linarith

theorem abs_clampPitch {α : Type} [LinearOrderedField α] (M : JSMath α)
    (h : 0 ≤ pitchLimit M) (p : α) : |clampPitch M p| ≤ pitchLimit M := by
  unfold clampPitch
  rw [abs_le]
  constructor
  · exact le_max_left _ _
  · exact max_le (by linarith) (min_le_left _ _)

/-- The smoothing factor `1 - exp(-12 * d)` lies in `[0, 1)` for `d ≥ 0`. -/
theorem smoothing_factor_bounds (d : ℝ) (hd : 0 ≤ d) :
    0 ≤ 1 - Real.exp (-12 * d) ∧ 1 - Real.exp (-12 * d) < 1 := by
  have h1 : Real.exp (-12 * d) ≤ 1 := by
    rw [Real.exp_le_one_iff]; linarith
  have h2 : 0 < Real.exp (-12 * d) := Real.exp_pos _
  constructor <;> linarith

/-- A step from `p` toward `q` by a factor in `[0, 1]` stays within any bound
that holds for both. -/
theorem abs_smooth_le (p q t L : ℝ) (hp : |p| ≤ L) (hq : |q| ≤ L) (h0 : 0 ≤ t)
    (h1 : t ≤ 1) :
    |p + (q - p) * t| ≤ L := by
  rw [abs_le] at hp hq ⊢
  constructor <;> nlinarith

theorem PitchInv_init (M : JSMath ℝ) (hM : M.IsReal) (c : FirstPersonControls ℝ)
    (hr : c.rotationSmoothing = 12) : (c._initOrientationFromCamera M).PitchInv M := by
  have hL := (pitchLimit_pos M hM).le
  exact ⟨abs_clampPitch M hL _, abs_clampPitch M hL _, hr⟩

theorem PitchInv_orient (M : JSMath ℝ) (hM : M.IsReal) (c : FirstPersonControls ℝ)
    (d : ℝ) (hd : 0 ≤ d) (h : c.PitchInv M) : (c.orient M d).PitchInv M := by
  obtain ⟨h1, h2, h3⟩ := h
  have ht := smoothing_factor_bounds d hd
  refine ⟨h1, ?_, h3⟩
  show |c.pitch + (c.targetPitch - c.pitch) * (1 - M.exp (-c.rotationSmoothing * d))| ≤ _
  rw [h3, hM.2.1]
  exact abs_smooth_le _ _ _ _ h2 h1 ht.1 ht.2.le

theorem PitchInv_update (M : JSMath ℝ) (hM : M.IsReal) (c : FirstPersonControls ℝ)
    (dt : ℝ) (hd : 0 ≤ dt) (h : c.PitchInv M) : (c.update M dt).PitchInv M := by
  have hmin : (0 : ℝ) ≤ min dt (5 / 100) := le_min hd (by norm_num)
  have ho := PitchInv_orient M hM c _ hmin h
  unfold FirstPersonControls.update
  simp only
  split
  · exact ho
  · exact ho

theorem PitchInv_handle (M : JSMath ℝ) (hM : M.IsReal) (c : FirstPersonControls ℝ)
    (e : ControlEvent ℝ) (he : e.deltaNonneg) (h : c.PitchInv M) :
    (c.handle M e).PitchInv M := by
  have hL := (pitchLimit_pos M hM).le
  cases e with
  | mouseMove now dx dy =>
    show (c._onMouseMove M now dx dy).PitchInv M
    unfold FirstPersonControls._onMouseMove
    split
    · exact h
    · split
      · exact h
      · exact ⟨abs_clampPitch M hL _, h.2.1, h.2.2⟩
  | pointerLockChange now locked =>
    show (c._onPointerLockChange M now locked).PitchInv M
    unfold FirstPersonControls._onPointerLockChange
    simp only
    split
    · exact PitchInv_init M hM _ h.2.2
    · exact h
  | keyDown key => exact h
  | keyUp key => exact h
  | click => exact h
  | update dt => exact PitchInv_update M hM c dt he h

theorem PitchInv_run (M : JSMath ℝ) (hM : M.IsReal) (events : List (ControlEvent ℝ)) :
    ∀ (c : FirstPersonControls ℝ), (∀ e ∈ events, e.deltaNonneg) → c.PitchInv M →
      (c.run M events).PitchInv M := by
  induction events with
  | nil => intro c _ h; exact h
  | cons e rest ih =>
    intro c he h
    exact ih (c.handle M e) (fun x hx => he x (List.mem_cons_of_mem _ hx))
      (PitchInv_handle M hM c e (he e (List.mem_cons_self _ _)) h)

theorem PitchInv_new (M : JSMath ℝ) (hM : M.IsReal) (camera : Camera ℝ) :
    (FirstPersonControls.new M camera).PitchInv M := by
  have := PitchInv_init M hM
    ({ camera := camera, moveSpeed := 8, sprintMultiplier := 2, mouseSensitivity := 2 / 1000,
       eyeHeight := 16 / 10, rotationSmoothing := 12, maxMouseDelta := 100,
       keys := { w := false, a := false, s := false, d := false, space := false,
                 shift := false },
       isLocked := false, yaw := 0, pitch := 0, targetYaw := 0, targetPitch := 0,
       _ignoreMouseUntil := none } : FirstPersonControls ℝ) rfl
  exact this

/-- C4: for every sequence of mouse-move events (any deltas, `NaN` and
`±Infinity` included), pointer-lock changes, key events, clicks and
`update(dt)` calls with `dt ≥ 0`, starting from the constructor state for any
camera, `targetPitch` and the applied `pitch` satisfy `|p| ≤ π/2 - 0.0001`,
which is strictly below `π/2`. -/
theorem C4_pitch_within_limit (M : JSMath ℝ) (hM : M.IsReal) (camera : Camera ℝ)
    (events : List (ControlEvent ℝ)) (hdt : ∀ e ∈ events, e.deltaNonneg) :
    |((FirstPersonControls.new M camera).run M events).targetPitch| ≤ Real.pi / 2 - 1 / 10000 ∧
    |((FirstPersonControls.new M camera).run M events).pitch| ≤ Real.pi / 2 - 1 / 10000 ∧
    Real.pi / 2 - 1 / 10000 < Real.pi / 2 := by
  have h0 := PitchInv_new M hM camera
  have h := PitchInv_run M hM events _ hdt h0
  have hL : pitchLimit M = Real.pi / 2 - 1 / 10000 := by unfold pitchLimit; rw [hM.1]
  rw [← hL]
  exact ⟨h.1, h.2.1, by rw [hL]; linarith⟩

theorem C4_pitch_within_limit_witness :
    JSMath.IsReal (⟨Real.pi, Real.exp, Real.sin, Real.cos, Real.sqrt, Real.arcsin,
      fun y x => Complex.arg ⟨x, y⟩⟩ : JSMath ℝ) ∧
    (∀ e ∈ (sampleEvents : List (ControlEvent ℝ)), e.deltaNonneg) ∧
    |((FirstPersonControls.new
        (⟨Real.pi, Real.exp, Real.sin, Real.cos, Real.sqrt, Real.arcsin,
        fun y x => Complex.arg ⟨x, y⟩⟩ : JSMath ℝ)
        createCamera).run
        (⟨Real.pi, Real.exp, Real.sin, Real.cos, Real.sqrt, Real.arcsin,
        fun y x => Complex.arg ⟨x, y⟩⟩ : JSMath ℝ)
        sampleEvents).targetPitch| ≤ Real.pi / 2 - 1 / 10000 ∧
    |((FirstPersonControls.new
        (⟨Real.pi, Real.exp, Real.sin, Real.cos, Real.sqrt, Real.arcsin,
        fun y x => Complex.arg ⟨x, y⟩⟩ : JSMath ℝ)
        createCamera).run
        (⟨Real.pi, Real.exp, Real.sin, Real.cos, Real.sqrt, Real.arcsin,
        fun y x => Complex.arg ⟨x, y⟩⟩ : JSMath ℝ)
        sampleEvents).pitch| ≤ Real.pi / 2 - 1 / 10000 ∧
    Real.pi / 2 - 1 / 10000 < Real.pi / 2 :=
  have hM : JSMath.IsReal (⟨Real.pi, Real.exp, Real.sin, Real.cos, Real.sqrt, Real.arcsin,
      fun y x => Complex.arg ⟨x, y⟩⟩ : JSMath ℝ) := ⟨rfl, rfl, rfl, rfl, rfl⟩
  have he : ∀ e ∈ (sampleEvents : List (ControlEvent ℝ)), e.deltaNonneg := by
    intro e h
    simp only [sampleEvents, List.mem_cons, List.mem_singleton, List.not_mem_nil, or_false] at h
    rcases h with rfl | rfl | rfl | rfl | rfl | rfl | rfl <;>
      simp [ControlEvent.deltaNonneg]
  ⟨hM, he, C4_pitch_within_limit _ hM createCamera sampleEvents he⟩

theorem clampSpike_eq {α : Type} [LinearOrderedField α] (m d : α) (hm : 0 ≤ m) :
    clampSpike m d = max (-m) (min m d) := by
  unfold clampSpike
  simp only [gt_iff_lt]
  by_cases h1 : m < d
  · rw [if_pos h1, if_neg (by linarith), min_eq_left h1.le, max_eq_right (by linarith)]
  · rw [if_neg h1, min_eq_right (not_lt.mp h1)]
    by_cases h2 : d < -m
    · rw [if_pos h2, max_eq_left h2.le]
    · rw [if_neg h2, max_eq_right (not_lt.mp h2)]

theorem mouseDelta_num {α : Type} [LinearOrderedField α] (m d : α) (hm : 0 ≤ m) :
    mouseDelta m (JSNum.num d) = max (-m) (min m d) := by
  show clampSpike m (if d = 0 then 0 else d) = _
  by_cases h : d = 0
  · rw [if_pos h, clampSpike_eq m 0 hm, h]
  · rw [if_neg h, clampSpike_eq m d hm]

/-- C5: when the pointer is locked and the time is not before
`_ignoreMouseUntil`, `_onMouseMove` with movement `(dx, dy)` sets `targetYaw` to
`targetYaw - clamp(dx, -100, 100) * mouseSensitivity` and `targetPitch` to
`clamp(targetPitch - clamp(dy, -100, 100) * mouseSensitivity, -L, L)` with
`L = PI / 2 - 0.0001`, and leaves the applied yaw and pitch (and the camera)
unchanged; a delta beyond the spike limit is clamped, not rejected. -/
theorem C5_mouse_move_targets {α : Type} [LinearOrderedField α] (M : JSMath α)
    (c : FirstPersonControls α) (now dx dy : α)
    (hl : c.isLocked = true) (ht : ¬ now < c._ignoreMouseUntil.getD 0)
    (hmax : c.maxMouseDelta = 100) :
    (c._onMouseMove M now (JSNum.num dx) (JSNum.num dy)).targetYaw =
      c.targetYaw - max (-100) (min 100 dx) * c.mouseSensitivity ∧
    (c._onMouseMove M now (JSNum.num dx) (JSNum.num dy)).targetPitch =
      max (-(M.PI / 2 - 1 / 10000)) (min (M.PI / 2 - 1 / 10000)
        (c.targetPitch - max (-100) (min 100 dy) * c.mouseSensitivity)) ∧
    (c._onMouseMove M now (JSNum.num dx) (JSNum.num dy)).yaw = c.yaw ∧
    (c._onMouseMove M now (JSNum.num dx) (JSNum.num dy)).pitch = c.pitch ∧
    (c._onMouseMove M now (JSNum.num dx) (JSNum.num dy)).camera = c.camera := by
  have h100 : (0 : α) ≤ 100 := by norm_num
  unfold FirstPersonControls._onMouseMove
  rw [if_neg (by simp [hl]), if_neg ht, hmax]
  simp only [mouseDelta_num _ _ h100, clampPitch, pitchLimit]
  simp

theorem C5_mouse_move_targets_witness :
    (lockedControls sampleMath).isLocked = true ∧
    (¬ (70 : ℚ) < (lockedControls sampleMath)._ignoreMouseUntil.getD 0) ∧
    (lockedControls sampleMath).maxMouseDelta = 100 ∧
    ((lockedControls sampleMath)._onMouseMove sampleMath 70 (JSNum.num 250)
        (JSNum.num (-3))).targetYaw =
      (lockedControls sampleMath).targetYaw -
        max (-100) (min 100 250) * (lockedControls sampleMath).mouseSensitivity ∧
    ((lockedControls sampleMath)._onMouseMove sampleMath 70 (JSNum.num 250)
        (JSNum.num (-3))).targetPitch =
      max (-(sampleMath.PI / 2 - 1 / 10000)) (min (sampleMath.PI / 2 - 1 / 10000)
        ((lockedControls sampleMath).targetPitch -
          max (-100) (min 100 (-3)) * (lockedControls sampleMath).mouseSensitivity)) ∧
    ((lockedControls sampleMath)._onMouseMove sampleMath 70 (JSNum.num 250)
        (JSNum.num (-3))).yaw = (lockedControls sampleMath).yaw ∧
    ((lockedControls sampleMath)._onMouseMove sampleMath 70 (JSNum.num 250)
        (JSNum.num (-3))).pitch = (lockedControls sampleMath).pitch ∧
    ((lockedControls sampleMath)._onMouseMove sampleMath 70 (JSNum.num 250)
        (JSNum.num (-3))).camera = (lockedControls sampleMath).camera :=
  have ht : ¬ (70 : ℚ) < (lockedControls sampleMath)._ignoreMouseUntil.getD 0 := by
    simp [lockedControls, FirstPersonControls._onPointerLockChange]
    norm_num
  ⟨rfl, ht, rfl,
    C5_mouse_move_targets sampleMath (lockedControls sampleMath) 70 250 (-3) rfl ht rfl⟩

theorem update_fields {α : Type} [LinearOrderedField α] (M : JSMath α)
    (c : FirstPersonControls α) (dt : α) :
    (c.update M dt).targetYaw = c.targetYaw ∧ (c.update M dt).targetPitch = c.targetPitch ∧
    (c.update M dt).rotationSmoothing = c.rotationSmoothing ∧
    (c.update M dt).yaw =
      c.yaw + (c.targetYaw - c.yaw) * (1 - M.exp (-c.rotationSmoothing * min dt (5 / 100))) ∧
    (c.update M dt).pitch =
      c.pitch + (c.targetPitch - c.pitch) *
        (1 - M.exp (-c.rotationSmoothing * min dt (5 / 100))) := by
  unfold FirstPersonControls.update
  simp only
  split <;> exact ⟨rfl, rfl, rfl, rfl, rfl⟩

/-- The state after `n` updates with a fixed target: targets unchanged and
both errors scaled by `exp(-12 * n * dt)`. -/
theorem updateN_error (M : JSMath ℝ) (hM : M.IsReal) (c : FirstPersonControls ℝ) (dt : ℝ)
    (hr : c.rotationSmoothing = 12) (h1 : dt ≤ 5 / 100) (n : ℕ) :
    (c.updateN M dt n).rotationSmoothing = 12 ∧
    (c.updateN M dt n).targetYaw = c.targetYaw ∧
    (c.updateN M dt n).targetPitch = c.targetPitch ∧
    (c.updateN M dt n).targetYaw - (c.updateN M dt n).yaw =
      Real.exp (-12 * n * dt) * (c.targetYaw - c.yaw) ∧
    (c.updateN M dt n).targetPitch - (c.updateN M dt n).pitch =
      Real.exp (-12 * n * dt) * (c.targetPitch - c.pitch) := by
  induction n with
  | zero => simp [FirstPersonControls.updateN, hr]
  | succ n ih =>
    obtain ⟨i1, i2, i3, i4, i5⟩ := ih
    obtain ⟨u1, u2, u3, u4, u5⟩ := update_fields M (c.updateN M dt n) dt
    have hexp : Real.exp (-12 * ((n + 1 : ℕ) : ℝ) * dt) =
        Real.exp (-12 * n * dt) * Real.exp (-12 * dt) := by
      rw [← Real.exp_add]; congr 1; push_cast; ring
    have e : c.updateN M dt (n + 1) = (c.updateN M dt n).update M dt := rfl
    rw [e, u1, u2, u3, u4, u5, i1, hM.2.1, min_eq_left h1, hexp, i2, i3]
    refine ⟨rfl, rfl, rfl, ?_, ?_⟩
    · rw [i2] at i4
      linear_combination Real.exp (-12 * dt) * i4
    · rw [i3] at i5
      linear_combination Real.exp (-12 * dt) * i5

/-- The factor `exp(-12 * n * dt)` gets below any positive bound, and stays
there, once `n` is large enough (`dt > 0`). -/
theorem exp_factor_small (dt : ℝ) (hdt : 0 < dt) (δ : ℝ) (hδ : 0 < δ) :
    ∃ N : ℕ, ∀ n : ℕ, N ≤ n → Real.exp (-12 * n * dt) < δ := by
  have hr1 : Real.exp (-12 * dt) < 1 := by
    rw [Real.exp_lt_one_iff]; linarith
  obtain ⟨N, hN⟩ := exists_pow_lt_of_lt_one hδ hr1
  refine ⟨N, fun n hn => ?_⟩
  have e : Real.exp (-12 * n * dt) = Real.exp (-12 * dt) ^ n := by
    rw [← Real.exp_nat_mul]; congr 1; ring
  rw [e]
  exact lt_of_le_of_lt (pow_le_pow_of_le_one (Real.exp_pos _).le hr1.le hn) hN

theorem scaled_error_small (dt : ℝ) (hdt : 0 < dt) (e ε : ℝ) (hε : 0 < ε) :
    ∃ N : ℕ, ∀ n : ℕ, N ≤ n → |Real.exp (-12 * n * dt) * e| < ε := by
  by_cases he : e = 0
  · exact ⟨0, fun n _ => by simp [he, hε]⟩
  · have hpos : 0 < |e| := abs_pos.mpr he
    obtain ⟨N, hN⟩ := exp_factor_small dt hdt (ε / |e|) (div_pos hε hpos)
    refine ⟨N, fun n hn => ?_⟩
    rw [abs_mul, abs_of_pos (Real.exp_pos _)]
    have := hN n hn
    rwa [lt_div_iff₀ hpos] at this

/-- C6: for a fixed target and a step `dt` with `0 ≤ dt ≤ 0.05`, after `n`
calls of `update(dt)` the error `target - current` of yaw and of pitch is
`exp(-12 * n * dt)` times the initial error; it never changes sign, `current`
stays equal to `target` once they are equal, and for `dt > 0` the error
magnitude is below any positive tolerance from some step on. -/
theorem C6_smoothing_error (M : JSMath ℝ) (hM : M.IsReal) (c : FirstPersonControls ℝ) (dt : ℝ)
    (hr : c.rotationSmoothing = 12) (_h0 : 0 ≤ dt) (h1 : dt ≤ 5 / 100) :
    (∀ n : ℕ,
      (c.updateN M dt n).targetYaw = c.targetYaw ∧
      (c.updateN M dt n).targetPitch = c.targetPitch ∧
      (c.updateN M dt n).targetYaw - (c.updateN M dt n).yaw =
        Real.exp (-12 * n * dt) * (c.targetYaw - c.yaw) ∧
      (c.updateN M dt n).targetPitch - (c.updateN M dt n).pitch =
        Real.exp (-12 * n * dt) * (c.targetPitch - c.pitch)) ∧
    (∀ n : ℕ,
      (0 ≤ c.targetYaw - c.yaw →
        0 ≤ (c.updateN M dt n).targetYaw - (c.updateN M dt n).yaw) ∧
      (c.targetYaw - c.yaw ≤ 0 →
        (c.updateN M dt n).targetYaw - (c.updateN M dt n).yaw ≤ 0) ∧
      (0 ≤ c.targetPitch - c.pitch →
        0 ≤ (c.updateN M dt n).targetPitch - (c.updateN M dt n).pitch) ∧
      (c.targetPitch - c.pitch ≤ 0 →
        (c.updateN M dt n).targetPitch - (c.updateN M dt n).pitch ≤ 0)) ∧
    (∀ n : ℕ,
      (c.yaw = c.targetYaw → (c.updateN M dt n).yaw = (c.updateN M dt n).targetYaw) ∧
      (c.pitch = c.targetPitch →
        (c.updateN M dt n).pitch = (c.updateN M dt n).targetPitch)) ∧
    (0 < dt → ∀ ε : ℝ, 0 < ε → ∃ N : ℕ, ∀ n : ℕ, N ≤ n →
      |(c.updateN M dt n).targetYaw - (c.updateN M dt n).yaw| < ε ∧
      |(c.updateN M dt n).targetPitch - (c.updateN M dt n).pitch| < ε) := by
  have key := updateN_error M hM c dt hr h1
  refine ⟨fun n => (key n).2, fun n => ?_, fun n => ?_, fun hdt ε hε => ?_⟩
  · obtain ⟨_, _, _, k4, k5⟩ := key n
    have hpos := Real.exp_pos (-12 * n * dt)
    rw [k4, k5]
    exact ⟨fun h => mul_nonneg hpos.le h, fun h => mul_nonpos_of_nonneg_of_nonpos hpos.le h,
      fun h => mul_nonneg hpos.le h, fun h => mul_nonpos_of_nonneg_of_nonpos hpos.le h⟩
  · obtain ⟨_, _, _, k4, k5⟩ := key n
    constructor
    · intro h
      rw [h, sub_self, mul_zero] at k4
      linarith
    · intro h
      rw [h, sub_self, mul_zero] at k5
      linarith
  · obtain ⟨N1, hN1⟩ := scaled_error_small dt hdt (c.targetYaw - c.yaw) ε hε
    obtain ⟨N2, hN2⟩ := scaled_error_small dt hdt (c.targetPitch - c.pitch) ε hε
    refine ⟨max N1 N2, fun n hn => ?_⟩
    obtain ⟨_, _, _, k4, k5⟩ := key n
    rw [k4, k5]
    exact ⟨hN1 n (le_trans (le_max_left _ _) hn), hN2 n (le_trans (le_max_right _ _) hn)⟩

theorem C6_smoothing_error_witness :
    JSMath.IsReal (⟨Real.pi, Real.exp, Real.sin, Real.cos, Real.sqrt, Real.arcsin,
      fun y x => Complex.arg ⟨x, y⟩⟩ : JSMath ℝ) ∧
    (turnedControls
        (⟨Real.pi, Real.exp, Real.sin, Real.cos, Real.sqrt, Real.arcsin,
        fun y x => Complex.arg ⟨x, y⟩⟩ : JSMath ℝ)).rotationSmoothing = 12 ∧
    (0 : ℝ) ≤ 1 / 60 ∧ (1 / 60 : ℝ) ≤ 5 / 100 ∧
    (∀ n : ℕ,
      ((turnedControls
        (⟨Real.pi, Real.exp, Real.sin, Real.cos, Real.sqrt, Real.arcsin,
        fun y x => Complex.arg ⟨x, y⟩⟩ : JSMath ℝ)).updateN
        (⟨Real.pi, Real.exp, Real.sin, Real.cos, Real.sqrt, Real.arcsin,
        fun y x => Complex.arg ⟨x, y⟩⟩ : JSMath ℝ)
        (1 / 60) n).targetYaw -
      ((turnedControls
        (⟨Real.pi, Real.exp, Real.sin, Real.cos, Real.sqrt, Real.arcsin,
        fun y x => Complex.arg ⟨x, y⟩⟩ : JSMath ℝ)).updateN
        (⟨Real.pi, Real.exp, Real.sin, Real.cos, Real.sqrt, Real.arcsin,
        fun y x => Complex.arg ⟨x, y⟩⟩ : JSMath ℝ)
        (1 / 60) n).yaw =
      Real.exp (-12 * n * (1 / 60)) *
        ((turnedControls
        (⟨Real.pi, Real.exp, Real.sin, Real.cos, Real.sqrt, Real.arcsin,
        fun y x => Complex.arg ⟨x, y⟩⟩ : JSMath ℝ)).targetYaw -
         (turnedControls
        (⟨Real.pi, Real.exp, Real.sin, Real.cos, Real.sqrt, Real.arcsin,
        fun y x => Complex.arg ⟨x, y⟩⟩ : JSMath ℝ)).yaw)) :=
  have hM : JSMath.IsReal (⟨Real.pi, Real.exp, Real.sin, Real.cos, Real.sqrt, Real.arcsin,
      fun y x => Complex.arg ⟨x, y⟩⟩ : JSMath ℝ) := ⟨rfl, rfl, rfl, rfl, rfl⟩
  have h0 : (0 : ℝ) ≤ 1 / 60 := by norm_num
  have h1 : (1 / 60 : ℝ) ≤ 5 / 100 := by norm_num
  ⟨hM, rfl, h0, h1,
    fun n => ((C6_smoothing_error _ hM (turnedControls _) (1 / 60) rfl h0 h1).1 n).2.2.1⟩

end OrientationTheorems

/-! ## Theorems: movement -/

section MovementTheorems

/-- The third column of the rotation matrix of the quaternion written by
`update` from `(pitch, yaw)`. -/
theorem rotation_of_euler (M : JSMath ℝ) (hM : M.IsReal) (p y : ℝ) :
    (Quaternion.setFromEuler M { x := p, y := y, z := 0 }).toRotation.te8 =
      Real.sin y * Real.cos p ∧
    (Quaternion.setFromEuler M { x := p, y := y, z := 0 }).toRotation.te9 = -Real.sin p ∧
    (Quaternion.setFromEuler M { x := p, y := y, z := 0 }).toRotation.te10 =
      Real.cos p * Real.cos y := by
  obtain ⟨_, _, hsin, hcos, _⟩ := hM
  have e1 : Real.sin p = 2 * Real.sin (p / 2) * Real.cos (p / 2) := by
    rw [← Real.sin_two_mul]; congr 1; ring
  have e2 : Real.cos p = 2 * Real.cos (p / 2) ^ 2 - 1 := by
    rw [← Real.cos_two_mul]; congr 1; ring
  have e3 : Real.sin y = 2 * Real.sin (y / 2) * Real.cos (y / 2) := by
    rw [← Real.sin_two_mul]; congr 1; ring
  have e4 : Real.cos y = 2 * Real.cos (y / 2) ^ 2 - 1 := by
    rw [← Real.cos_two_mul]; congr 1; ring
  have h1 := Real.sin_sq_add_cos_sq (p / 2)
  have h2 := Real.sin_sq_add_cos_sq (y / 2)
  simp only [Quaternion.setFromEuler, Quaternion.toRotation, hsin, hcos, zero_div,
    Real.cos_zero, Real.sin_zero, e1, e2, e3, e4]
  refine ⟨?_, ?_, ?_⟩
  · linear_combination (-2 * Real.cos (y / 2) * Real.sin (y / 2)) * h1
  · linear_combination (-2 * Real.cos (p / 2) * Real.sin (p / 2)) * h2
  · linear_combination (-2 * Real.cos (y / 2) ^ 2) * h1 + (-2 * Real.cos (p / 2) ^ 2) * h2

theorem normalize_of_unit (M : JSMath ℝ) (hM : M.IsReal) (v : Vector3 ℝ)
    (h : v.lengthSq = 1) : v.normalize M = v := by
  unfold Vector3.normalize Vector3.length
  rw [h, hM.2.2.2.2, Real.sqrt_one]
  simp [Vector3.multiplyScalar]

theorem lengthSq_nonneg (v : Vector3 ℝ) : 0 ≤ v.lengthSq := by
  unfold Vector3.lengthSq
  nlinarith [mul_self_nonneg v.x, mul_self_nonneg v.y, mul_self_nonneg v.z]

theorem normalize_lengthSq (M : JSMath ℝ) (hM : M.IsReal) (v : Vector3 ℝ)
    (h : v.lengthSq ≠ 0) : (v.normalize M).lengthSq = 1 := by
  have hpos : 0 < v.lengthSq := lt_of_le_of_ne (lengthSq_nonneg v) (Ne.symm h)
  have hs : 0 < Real.sqrt v.lengthSq := Real.sqrt_pos.mpr hpos
  have hsq : Real.sqrt v.lengthSq * Real.sqrt v.lengthSq = v.lengthSq :=
    Real.mul_self_sqrt hpos.le
  unfold Vector3.normalize Vector3.length
  rw [hM.2.2.2.2]
  simp only [if_neg hs.ne']
  have e : (v.multiplyScalar (1 / Real.sqrt v.lengthSq)).lengthSq =
      v.lengthSq / (Real.sqrt v.lengthSq * Real.sqrt v.lengthSq) := by
    simp only [Vector3.multiplyScalar, Vector3.lengthSq]
    field_simp
  rw [e, hsq]
  exact div_self h

/-- The camera direction after `update` has written the quaternion. -/
theorem getWorldDirection_of_euler (M : JSMath ℝ) (hM : M.IsReal) (position : Vector3 ℝ)
    (p y : ℝ) :
    Camera.getWorldDirection M
        { position := position,
          quaternion := Quaternion.setFromEuler M { x := p, y := y, z := 0 } } =
      { x := -(Real.sin y * Real.cos p), y := Real.sin p, z := -(Real.cos p * Real.cos y) } := by
  obtain ⟨r8, r9, r10⟩ := rotation_of_euler M hM p y
  unfold Camera.getWorldDirection
  simp only [r8, r9, r10, neg_neg]
  apply normalize_of_unit M hM
  simp only [Vector3.lengthSq]
  have h1 := Real.sin_sq_add_cos_sq p
  have h2 := Real.sin_sq_add_cos_sq y
  linear_combination (Real.cos p ^ 2) * h2 + h1

theorem cos_pitch_pos (M : JSMath ℝ) (hM : M.IsReal) (p : ℝ) (hp : |p| ≤ pitchLimit M) :
    0 < Real.cos p := by
  have hL := pitchLimit_lt_half_pi M hM
  rw [abs_le] at hp
  apply Real.cos_pos_of_mem_Ioo
  constructor <;> linarith [hp.1, hp.2]

/-- The horizontal unit vector of a yaw angle has length 1. -/
theorem yaw_vector_unit (y : ℝ) :
    ({ x := -Real.sin y, y := 0, z := -Real.cos y } : Vector3 ℝ).lengthSq = 1 := by
  simp only [Vector3.lengthSq]
  linear_combination Real.sin_sq_add_cos_sq y

/-- Lines 161-169: with the quaternion written from `(pitch, yaw)` and the
pitch within the limit, `forward` is `(-sin yaw, 0, -cos yaw)`. -/
theorem forward_eq (M : JSMath ℝ) (hM : M.IsReal) (c : FirstPersonControls ℝ)
    (hq : c.camera.quaternion = Quaternion.setFromEuler M { x := c.pitch, y := c.yaw, z := 0 })
    (hp : |c.pitch| ≤ pitchLimit M) :
    c.forward M = { x := -Real.sin c.yaw, y := 0, z := -Real.cos c.yaw } := by
  have hcos := cos_pitch_pos M hM c.pitch hp
  have hcam : c.camera = (Camera.mk c.camera.position
      (Quaternion.setFromEuler M { x := c.pitch, y := c.yaw, z := 0 })) := by
    rw [← hq]
  have hdir := getWorldDirection_of_euler M hM c.camera.position c.pitch c.yaw
  rw [← hcam] at hdir
  have hlen : (Vector3.mk (-(Real.sin c.yaw * Real.cos c.pitch)) 0
      (-(Real.cos c.pitch * Real.cos c.yaw))).lengthSq =
        Real.cos c.pitch * Real.cos c.pitch := by
    simp only [Vector3.lengthSq]
    linear_combination (Real.cos c.pitch ^ 2) * Real.sin_sq_add_cos_sq c.yaw
  have hnorm : Vector3.normalize M (Vector3.mk (-(Real.sin c.yaw * Real.cos c.pitch)) 0
      (-(Real.cos c.pitch * Real.cos c.yaw))) =
        { x := -Real.sin c.yaw, y := 0, z := -Real.cos c.yaw } := by
    unfold Vector3.normalize Vector3.length
    rw [hlen, hM.2.2.2.2, Real.sqrt_mul_self hcos.le]
    simp only [if_neg hcos.ne', Vector3.multiplyScalar]
    ext
    · show -(Real.sin c.yaw * Real.cos c.pitch) * (1 / Real.cos c.pitch) = -Real.sin c.yaw
      field_simp
    · show (0 : ℝ) * (1 / Real.cos c.pitch) = 0
      ring
    · show -(Real.cos c.pitch * Real.cos c.yaw) * (1 / Real.cos c.pitch) = -Real.cos c.yaw
      field_simp
      ring
  unfold FirstPersonControls.forward
  simp only [hdir, hnorm, yaw_vector_unit]
  rw [if_neg (by norm_num)]

/-- Line 168: the yaw-derived fallback is `(-sin yaw, 0, -cos yaw)`. -/
theorem fallbackForward_eq (M : JSMath ℝ) (hM : M.IsReal) (c : FirstPersonControls ℝ) :
    c.fallbackForward M = { x := -Real.sin c.yaw, y := 0, z := -Real.cos c.yaw } := by
  have e3 : Real.sin c.yaw = 2 * Real.sin (c.yaw / 2) * Real.cos (c.yaw / 2) := by
    rw [← Real.sin_two_mul]; congr 1; ring
  have e4 : Real.cos c.yaw = 2 * Real.cos (c.yaw / 2) ^ 2 - 1 := by
    rw [← Real.cos_two_mul]; congr 1; ring
  have h2 := Real.sin_sq_add_cos_sq (c.yaw / 2)
  have hv : Vector3.applyEuler M ({ x := 0, y := 0, z := -1 } : Vector3 ℝ)
      { x := 0, y := c.yaw, z := 0 } =
        { x := -Real.sin c.yaw, y := 0, z := -Real.cos c.yaw } := by
    simp only [Vector3.applyEuler, Vector3.applyQuaternion, Quaternion.setFromEuler, hM.2.2.1,
      hM.2.2.2.1, zero_div, Real.cos_zero, Real.sin_zero, e3, e4]
    ext
    · show _ = -(2 * Real.sin (c.yaw / 2) * Real.cos (c.yaw / 2))
      ring
    · show _ = (0 : ℝ)
      ring
    · show _ = -(2 * Real.cos (c.yaw / 2) ^ 2 - 1)
      linear_combination (2 : ℝ) * h2
  unfold FirstPersonControls.fallbackForward
  rw [hv]
  exact normalize_of_unit M hM _ (yaw_vector_unit c.yaw)

/-- Line 171: `right` is `(cos yaw, 0, -sin yaw)`. -/
theorem right_eq (M : JSMath ℝ) (hM : M.IsReal) (c : FirstPersonControls ℝ)
    (hq : c.camera.quaternion = Quaternion.setFromEuler M { x := c.pitch, y := c.yaw, z := 0 })
    (hp : |c.pitch| ≤ pitchLimit M) :
    c.right M = { x := Real.cos c.yaw, y := 0, z := -Real.sin c.yaw } := by
  unfold FirstPersonControls.right
  rw [forward_eq M hM c hq hp]
  have hc : Vector3.crossVectors (Vector3.mk (-Real.sin c.yaw) 0 (-Real.cos c.yaw))
      (Vector3.mk 0 1 0) = Vector3.mk (Real.cos c.yaw) 0 (-Real.sin c.yaw) := by
    simp [Vector3.crossVectors]
  rw [hc]
  apply normalize_of_unit M hM
  simp only [Vector3.lengthSq]
  linear_combination Real.sin_sq_add_cos_sq c.yaw

/-- The pitch invariant in explicit form. -/
theorem PitchInv_of_bounds (M : JSMath ℝ) (hM : M.IsReal) (c : FirstPersonControls ℝ)
    (hp : |c.pitch| ≤ Real.pi / 2 - 1 / 10000) (htp : |c.targetPitch| ≤ Real.pi / 2 - 1 / 10000)
    (hr : c.rotationSmoothing = 12) : c.PitchInv M := by
  have hL : pitchLimit M = Real.pi / 2 - 1 / 10000 := by unfold pitchLimit; rw [hM.1]
  exact ⟨by rw [hL]; exact htp, by rw [hL]; exact hp, hr⟩

/-- When the intent is non-zero, `update` adds `worldMove * frameDist` to the
camera position, `worldMove` being built from the state after the orientation
write. -/
theorem update_position {α : Type} [LinearOrderedField α] (M : JSMath α)
    (c : FirstPersonControls α) (dt : α)
    (hint : (FirstPersonControls.intent c.keys : Vector3 α).lengthSq ≠ 0) :
    (c.update M dt).camera.position =
      c.camera.position.addScaledVector
        ((c.orient M (min dt (5 / 100))).worldMove M
          ((FirstPersonControls.intent c.keys : Vector3 α).normalize M))
        (min (c.speed * min dt (5 / 100)) 10) := by
  unfold FirstPersonControls.update
  simp only
  have hk : (c.orient M (min dt (5 / 100))).keys = c.keys := rfl
  rw [hk, if_neg hint]
  rfl

/-- With forward and right as computed, `worldMove` has the squared length of
the local vector. -/
theorem worldMove_lengthSq (M : JSMath ℝ) (hM : M.IsReal) (c : FirstPersonControls ℝ)
    (hq : c.camera.quaternion = Quaternion.setFromEuler M { x := c.pitch, y := c.yaw, z := 0 })
    (hp : |c.pitch| ≤ pitchLimit M) (move : Vector3 ℝ) :
    (c.worldMove M move).lengthSq = move.lengthSq := by
  unfold FirstPersonControls.worldMove
  rw [forward_eq M hM c hq hp, right_eq M hM c hq hp]
  simp only [Vector3.addScaledVector, Vector3.lengthSq]
  linear_combination (move.x ^ 2 + move.z ^ 2) * Real.sin_sq_add_cos_sq c.yaw

theorem distance_addScaled (M : JSMath ℝ) (hM : M.IsReal) (a w : Vector3 ℝ) (k : ℝ)
    (hw : w.lengthSq = 1) (hk : 0 ≤ k) :
    Vector3.distanceTo M (a.addScaledVector w k) a = k := by
  unfold Vector3.distanceTo
  have e : ((a.addScaledVector w k).sub a).lengthSq = k ^ 2 := by
    simp only [Vector3.lengthSq] at hw
    simp only [Vector3.addScaledVector, Vector3.sub, Vector3.lengthSq]
    linear_combination (k ^ 2) * hw
  rw [e, hM.2.2.2.2, Real.sqrt_sq hk]

/-- The distance covered by one `update` with non-zero intent. -/
theorem update_distance (M : JSMath ℝ) (hM : M.IsReal) (c : FirstPersonControls ℝ) (dt : ℝ)
    (hint : (FirstPersonControls.intent c.keys : Vector3 ℝ).lengthSq ≠ 0)
    (hinv : c.PitchInv M) (hdt : 0 ≤ dt) (hs : 0 ≤ c.speed) :
    Vector3.distanceTo M (c.update M dt).camera.position c.camera.position =
      min (c.speed * min dt (5 / 100)) 10 := by
  have hmin : (0 : ℝ) ≤ min dt (5 / 100) := le_min hdt (by norm_num)
  have ho := PitchInv_orient M hM c _ hmin hinv
  rw [update_position M c dt hint]
  apply distance_addScaled M hM
  · rw [worldMove_lengthSq M hM _ rfl ho.2.1]
    exact normalize_lengthSq M hM _ hint
  · exact le_min (mul_nonneg hs hmin) (by norm_num)

theorem speed_nonneg {α : Type} [LinearOrderedField α] (c : FirstPersonControls α)
    (hs : 0 ≤ c.moveSpeed) (hm : 0 ≤ c.sprintMultiplier) : 0 ≤ c.speed := by
  unfold FirstPersonControls.speed
  split
  · exact mul_nonneg hs hm
  · exact hs

/-- C7: for every key combination with non-zero movement intent, every yaw,
every pitch within the limit and every `dt ≥ 0` (speeds non-negative), one
`update(dt)` displaces the camera by exactly `min(speed * min(dt, 0.05), 10)`,
`speed` being `moveSpeed`, times `sprintMultiplier` under shift; W+D moves the
camera exactly as far as W alone, and no step moves it more than 10 units. -/
theorem C7_displacement_magnitude (M : JSMath ℝ) (hM : M.IsReal) (c : FirstPersonControls ℝ)
    (dt : ℝ) (hint : (FirstPersonControls.intent c.keys : Vector3 ℝ).lengthSq ≠ 0)
    (hp : |c.pitch| ≤ Real.pi / 2 - 1 / 10000) (htp : |c.targetPitch| ≤ Real.pi / 2 - 1 / 10000)
    (hr : c.rotationSmoothing = 12) (hdt : 0 ≤ dt)
    (hs : 0 ≤ c.moveSpeed) (hm : 0 ≤ c.sprintMultiplier) :
    Vector3.distanceTo M (c.update M dt).camera.position c.camera.position =
      min ((if c.keys.shift then c.moveSpeed * c.sprintMultiplier else c.moveSpeed) *
        min dt (5 / 100)) 10 ∧
    Vector3.distanceTo M (c.update M dt).camera.position c.camera.position ≤ 10 ∧
    Vector3.distanceTo M (({ c with keys := keysWD }).update M dt).camera.position
        c.camera.position =
      Vector3.distanceTo M (({ c with keys := keysW }).update M dt).camera.position
        c.camera.position := by
  have hinv := PitchInv_of_bounds M hM c hp htp hr
  have h1 := update_distance M hM c dt hint hinv hdt (speed_nonneg c hs hm)
  have hWD := update_distance M hM { c with keys := keysWD } dt
    (by simp [FirstPersonControls.intent, keysWD, Vector3.lengthSq]) hinv hdt
    (speed_nonneg _ hs hm)
  have hW := update_distance M hM { c with keys := keysW } dt
    (by simp [FirstPersonControls.intent, keysW, Vector3.lengthSq]) hinv hdt
    (speed_nonneg _ hs hm)
  refine ⟨h1, ?_, ?_⟩
  · rw [h1]; exact min_le_right _ _
  · exact hWD.trans hW.symm

theorem walking_bounds :
    |(1 / 4 : ℝ)| ≤ Real.pi / 2 - 1 / 10000 ∧
      |(-1 / 2 : ℝ)| ≤ Real.pi / 2 - 1 / 10000 := by
  have h3 := Real.pi_gt_three
  constructor
  · rw [abs_le]; constructor <;> linarith
  · rw [abs_le]; constructor <;> linarith

theorem C7_displacement_magnitude_witness :
    JSMath.IsReal (⟨Real.pi, Real.exp, Real.sin, Real.cos, Real.sqrt, Real.arcsin,
      fun y x => Complex.arg ⟨x, y⟩⟩ : JSMath ℝ) ∧
    (FirstPersonControls.intent (walkingControls keysWD : FirstPersonControls ℝ).keys
      : Vector3 ℝ).lengthSq ≠ 0 ∧
    |(walkingControls keysWD : FirstPersonControls ℝ).pitch| ≤ Real.pi / 2 - 1 / 10000 ∧
    |(walkingControls keysWD : FirstPersonControls ℝ).targetPitch| ≤ Real.pi / 2 - 1 / 10000 ∧
    (walkingControls keysWD : FirstPersonControls ℝ).rotationSmoothing = 12 ∧
    (0 : ℝ) ≤ 1 / 60 ∧
    0 ≤ (walkingControls keysWD : FirstPersonControls ℝ).moveSpeed ∧
    0 ≤ (walkingControls keysWD : FirstPersonControls ℝ).sprintMultiplier ∧
    Vector3.distanceTo
        (⟨Real.pi, Real.exp, Real.sin, Real.cos, Real.sqrt, Real.arcsin,
        fun y x => Complex.arg ⟨x, y⟩⟩ : JSMath ℝ)
        ((walkingControls keysWD : FirstPersonControls ℝ).update
          (⟨Real.pi, Real.exp, Real.sin, Real.cos, Real.sqrt, Real.arcsin,
        fun y x => Complex.arg ⟨x, y⟩⟩ : JSMath ℝ)
          (1 / 60)).camera.position
        (walkingControls keysWD : FirstPersonControls ℝ).camera.position ≤ 10 :=
  have hM : JSMath.IsReal (⟨Real.pi, Real.exp, Real.sin, Real.cos, Real.sqrt, Real.arcsin,
      fun y x => Complex.arg ⟨x, y⟩⟩ : JSMath ℝ) := ⟨rfl, rfl, rfl, rfl, rfl⟩
  have hi : (FirstPersonControls.intent (walkingControls keysWD : FirstPersonControls ℝ).keys
      : Vector3 ℝ).lengthSq ≠ 0 := by
    simp [FirstPersonControls.intent, walkingControls, keysWD, Vector3.lengthSq]
  have h8 : (0 : ℝ) ≤ 8 := by norm_num
  have h2 : (0 : ℝ) ≤ 2 := by norm_num
  have hd : (0 : ℝ) ≤ 1 / 60 := by norm_num
  ⟨hM, hi, walking_bounds.1, walking_bounds.2, rfl, hd, h8, h2,
    (C7_displacement_magnitude _ hM
      (walkingControls keysWD) (1 / 60) hi walking_bounds.1 walking_bounds.2 rfl hd h8 h2).2.1⟩

/-- The local vector for shift+W, normalized: shift is also the descend
key, so the vector is `(0, -1, 1) / √2`. -/
theorem intent_shiftW_normalized (M : JSMath ℝ) (hM : M.IsReal) :
    (FirstPersonControls.intent keysShiftW : Vector3 ℝ).normalize M =
      { x := 0, y := -(1 / Real.sqrt 2), z := 1 / Real.sqrt 2 } := by
  have hi : (FirstPersonControls.intent keysShiftW : Vector3 ℝ) =
      Vector3.mk 0 (-1) 1 := by
    simp [FirstPersonControls.intent, keysShiftW]
  have h2 : Real.sqrt 2 ≠ 0 := by positivity
  rw [hi]
  unfold Vector3.normalize Vector3.length
  have hl : (Vector3.mk (0 : ℝ) (-1) 1).lengthSq = 2 := by
    simp only [Vector3.lengthSq]; norm_num
  rw [hl, hM.2.2.2.2]
  simp only [if_neg h2, Vector3.multiplyScalar]
  ext
  · show (0 : ℝ) * (1 / Real.sqrt 2) = 0
    ring
  · show (-1 : ℝ) * (1 / Real.sqrt 2) = -(1 / Real.sqrt 2)
    ring
  · show (1 : ℝ) * (1 / Real.sqrt 2) = 1 / Real.sqrt 2
    ring

/-- The camera position after one `update(1/60)` with shift and W held at
speed 8 and sprint multiplier 2: `16/60` along `(forward - up) / √2`. -/
theorem sprint_forward_position (M : JSMath ℝ) (hM : M.IsReal) (c : FirstPersonControls ℝ)
    (hk : c.keys = keysShiftW) (hs : c.moveSpeed = 8) (hm : c.sprintMultiplier = 2)
    (hinv : c.PitchInv M) :
    (c.update M (1 / 60)).camera.position =
      { x := c.camera.position.x +
          -Real.sin (c.update M (1 / 60)).yaw * (1 / Real.sqrt 2) * (16 / 60),
        y := c.camera.position.y + -(1 / Real.sqrt 2) * (16 / 60),
        z := c.camera.position.z +
          -Real.cos (c.update M (1 / 60)).yaw * (1 / Real.sqrt 2) * (16 / 60) } := by
  have hmin : min (1 / 60 : ℝ) (5 / 100) = 1 / 60 := by norm_num
  have hint : (FirstPersonControls.intent c.keys : Vector3 ℝ).lengthSq ≠ 0 := by
    rw [hk]; simp [FirstPersonControls.intent, keysShiftW, Vector3.lengthSq]
  have ho := PitchInv_orient M hM c (1 / 60) (by norm_num) hinv
  have hyaw : (c.update M (1 / 60)).yaw = (c.orient M (1 / 60)).yaw := by
    rw [(update_fields M c (1 / 60)).2.2.2.1, hmin]; rfl
  have hspeed : c.speed = 16 := by
    unfold FirstPersonControls.speed
    rw [hk, hs, hm]; simp [keysShiftW]; norm_num
  have hdist : min (c.speed * (1 / 60)) 10 = (16 / 60 : ℝ) := by
    rw [hspeed]; norm_num
  rw [update_position M c (1 / 60) hint, hmin, hk, intent_shiftW_normalized M hM, hdist, hyaw]
  unfold FirstPersonControls.worldMove
  rw [forward_eq M hM _ rfl ho.2.1, right_eq M hM _ rfl ho.2.1]
  simp only [Vector3.addScaledVector]
  ext
  · show c.camera.position.x + (0 + _ * _ + _ * 0) * _ = _
    ring
  · show c.camera.position.y + (0 + 0 * _ + 0 * 0 + _) * _ = _
    ring
  · show c.camera.position.z + (0 + _ * _ + _ * 0) * _ = _
    ring

theorem update_quaternion {α : Type} [LinearOrderedField α] (M : JSMath α)
    (c : FirstPersonControls α) (dt : α) :
    (c.update M dt).camera.quaternion =
      Quaternion.setFromEuler M
        { x := (c.update M dt).pitch, y := (c.update M dt).yaw, z := 0 } := by
  unfold FirstPersonControls.update
  simp only
  split <;> rfl

theorem sprintScenario_facts (M : JSMath ℝ) (hM : M.IsReal) :
    (sprintScenario M).keys = keysShiftW ∧ (sprintScenario M).moveSpeed = 8 ∧
    (sprintScenario M).sprintMultiplier = 2 ∧ (sprintScenario M).PitchInv M := by
  refine ⟨rfl, rfl, rfl, ?_⟩
  apply PitchInv_run M hM _ _ _ (PitchInv_new M hM createCamera)
  intro e he
  simp only [List.mem_cons, List.mem_singleton, List.not_mem_nil, or_false] at he
  rcases he with rfl | rfl <;> exact trivial

/-- C8 (as amended): with shift and W held and no other key, `moveSpeed` 8,
`sprintMultiplier` 2 and `update(1/60)`, the camera displacement has magnitude
`16/60`; its horizontal part is `(16/60)/√2` times the camera's forward vector
projected onto the horizontal plane (a unit vector), and, shift being the
descend key as well, its vertical component is `-(16/60)/√2`. -/
theorem C8_sprint_forward_step (M : JSMath ℝ) (hM : M.IsReal) (c : FirstPersonControls ℝ)
    (hk : c.keys = keysShiftW) (hs : c.moveSpeed = 8) (hm : c.sprintMultiplier = 2)
    (hp : |c.pitch| ≤ Real.pi / 2 - 1 / 10000) (htp : |c.targetPitch| ≤ Real.pi / 2 - 1 / 10000)
    (hr : c.rotationSmoothing = 12) :
    Vector3.distanceTo M (c.update M (1 / 60)).camera.position c.camera.position = 16 / 60 ∧
    (c.update M (1 / 60)).camera.position.x - c.camera.position.x =
      16 / 60 / Real.sqrt 2 * ((c.update M (1 / 60)).forward M).x ∧
    (c.update M (1 / 60)).camera.position.z - c.camera.position.z =
      16 / 60 / Real.sqrt 2 * ((c.update M (1 / 60)).forward M).z ∧
    ((c.update M (1 / 60)).forward M).y = 0 ∧
    ((c.update M (1 / 60)).forward M).lengthSq = 1 ∧
    (c.update M (1 / 60)).camera.position.y - c.camera.position.y =
      -(16 / 60 / Real.sqrt 2) := by
  have hinv := PitchInv_of_bounds M hM c hp htp hr
  have hint : (FirstPersonControls.intent c.keys : Vector3 ℝ).lengthSq ≠ 0 := by
    rw [hk]; simp [FirstPersonControls.intent, keysShiftW, Vector3.lengthSq]
  have hspeed : c.speed = 16 := by
    unfold FirstPersonControls.speed
    rw [hk, hs, hm]; simp [keysShiftW]; norm_num
  have hd := update_distance M hM c (1 / 60) hint hinv (by norm_num) (by rw [hspeed]; norm_num)
  have hpos := sprint_forward_position M hM c hk hs hm hinv
  have hfw := forward_eq M hM (c.update M (1 / 60)) (update_quaternion M c (1 / 60))
    (PitchInv_update M hM c (1 / 60) (by norm_num) hinv).2.1
  refine ⟨?_, ?_, ?_, ?_, ?_, ?_⟩
  · rw [hd, hspeed]; norm_num
  · rw [hpos, hfw]
    show c.camera.position.x + _ - c.camera.position.x = _
    ring
  · rw [hpos, hfw]
    show c.camera.position.z + _ - c.camera.position.z = _
    ring
  · rw [hfw]
  · rw [hfw]; exact yaw_vector_unit _
  · rw [hpos]
    show c.camera.position.y + _ - c.camera.position.y = _
    ring

theorem C8_sprint_forward_step_witness :
    JSMath.IsReal (⟨Real.pi, Real.exp, Real.sin, Real.cos, Real.sqrt, Real.arcsin,
      fun y x => Complex.arg ⟨x, y⟩⟩ : JSMath ℝ) ∧
    (walkingControls keysShiftW : FirstPersonControls ℝ).keys = keysShiftW ∧
    (walkingControls keysShiftW : FirstPersonControls ℝ).moveSpeed = 8 ∧
    (walkingControls keysShiftW : FirstPersonControls ℝ).sprintMultiplier = 2 ∧
    |(walkingControls keysShiftW : FirstPersonControls ℝ).pitch| ≤ Real.pi / 2 - 1 / 10000 ∧
    |(walkingControls keysShiftW : FirstPersonControls ℝ).targetPitch| ≤
      Real.pi / 2 - 1 / 10000 ∧
    (walkingControls keysShiftW : FirstPersonControls ℝ).rotationSmoothing = 12 ∧
    Vector3.distanceTo
        (⟨Real.pi, Real.exp, Real.sin, Real.cos, Real.sqrt, Real.arcsin,
        fun y x => Complex.arg ⟨x, y⟩⟩ : JSMath ℝ)
        ((walkingControls keysShiftW : FirstPersonControls ℝ).update
          (⟨Real.pi, Real.exp, Real.sin, Real.cos, Real.sqrt, Real.arcsin,
        fun y x => Complex.arg ⟨x, y⟩⟩ : JSMath ℝ)
          (1 / 60)).camera.position
        (walkingControls keysShiftW : FirstPersonControls ℝ).camera.position = 16 / 60 ∧
    ((walkingControls keysShiftW : FirstPersonControls ℝ).update
        (⟨Real.pi, Real.exp, Real.sin, Real.cos, Real.sqrt, Real.arcsin,
        fun y x => Complex.arg ⟨x, y⟩⟩ : JSMath ℝ)
        (1 / 60)).camera.position.y -
      (walkingControls keysShiftW : FirstPersonControls ℝ).camera.position.y =
      -(16 / 60 / Real.sqrt 2) :=
  have hM : JSMath.IsReal (⟨Real.pi, Real.exp, Real.sin, Real.cos, Real.sqrt, Real.arcsin,
      fun y x => Complex.arg ⟨x, y⟩⟩ : JSMath ℝ) := ⟨rfl, rfl, rfl, rfl, rfl⟩
  have h := C8_sprint_forward_step _ hM (walkingControls keysShiftW) rfl rfl rfl
    walking_bounds.1 walking_bounds.2 rfl
  ⟨hM, rfl, rfl, rfl, walking_bounds.1, walking_bounds.2, rfl, h.1, h.2.2.2.2.2⟩

/-- C8 as stated fails: in the constructor state with shift and W pressed,
`update(1/60)` lowers the camera by `(16/60)/√2`, so the displacement is not
horizontal. -/
theorem C8_counterexample :
    (sprintScenario
        (⟨Real.pi, Real.exp, Real.sin, Real.cos, Real.sqrt, Real.arcsin,
        fun y x => Complex.arg ⟨x, y⟩⟩ : JSMath ℝ)).keys = keysShiftW ∧
    (sprintScenario
        (⟨Real.pi, Real.exp, Real.sin, Real.cos, Real.sqrt, Real.arcsin,
        fun y x => Complex.arg ⟨x, y⟩⟩ : JSMath ℝ)).moveSpeed = 8 ∧
    (sprintScenario
        (⟨Real.pi, Real.exp, Real.sin, Real.cos, Real.sqrt, Real.arcsin,
        fun y x => Complex.arg ⟨x, y⟩⟩ : JSMath ℝ)).sprintMultiplier = 2 ∧
    (sprintStep
        (⟨Real.pi, Real.exp, Real.sin, Real.cos, Real.sqrt, Real.arcsin,
        fun y x => Complex.arg ⟨x, y⟩⟩ : JSMath ℝ)).camera.position.y -
      (sprintScenario
        (⟨Real.pi, Real.exp, Real.sin, Real.cos, Real.sqrt, Real.arcsin,
        fun y x => Complex.arg ⟨x, y⟩⟩ : JSMath ℝ)).camera.position.y =
      -(16 / 60 / Real.sqrt 2) ∧
    (sprintStep
        (⟨Real.pi, Real.exp, Real.sin, Real.cos, Real.sqrt, Real.arcsin,
        fun y x => Complex.arg ⟨x, y⟩⟩ : JSMath ℝ)).camera.position.y -
      (sprintScenario
        (⟨Real.pi, Real.exp, Real.sin, Real.cos, Real.sqrt, Real.arcsin,
        fun y x => Complex.arg ⟨x, y⟩⟩ : JSMath ℝ)).camera.position.y ≠ 0 := by
  have hM : JSMath.IsReal (⟨Real.pi, Real.exp, Real.sin, Real.cos, Real.sqrt, Real.arcsin,
      fun y x => Complex.arg ⟨x, y⟩⟩ : JSMath ℝ) := ⟨rfl, rfl, rfl, rfl, rfl⟩
  obtain ⟨hk, hs, hm, hinv⟩ := sprintScenario_facts _ hM
  have hpos := sprint_forward_position _ hM (sprintScenario _) hk hs hm hinv
  have h2 : 0 < 16 / 60 / Real.sqrt 2 := by positivity
  have hy : (sprintStep
        (⟨Real.pi, Real.exp, Real.sin, Real.cos, Real.sqrt, Real.arcsin,
        fun y x => Complex.arg ⟨x, y⟩⟩ : JSMath ℝ)).camera.position.y -
      (sprintScenario
        (⟨Real.pi, Real.exp, Real.sin, Real.cos, Real.sqrt, Real.arcsin,
        fun y x => Complex.arg ⟨x, y⟩⟩ : JSMath ℝ)).camera.position.y =
      -(16 / 60 / Real.sqrt 2) := by
    unfold sprintStep
    rw [hpos]
    show (sprintScenario _).camera.position.y + _ - (sprintScenario _).camera.position.y = _
    ring
  refine ⟨hk, hs, hm, hy, ?_⟩
  rw [hy]
  linarith

/-- C9: for every yaw and every pitch within the limit, the forward vector
that `update` uses for movement is the unit horizontal vector
`(-sin yaw', 0, -cos yaw')` of the yaw written to the camera earlier in the same
call, whatever the pitch; the right vector is the unit horizontal vector
`(cos yaw', 0, -sin yaw')` perpendicular to it; the direction is never zero and
the yaw-derived fallback is that same vector. -/
theorem C9_movement_basis (M : JSMath ℝ) (hM : M.IsReal) (c : FirstPersonControls ℝ) (dt : ℝ)
    (hp : |c.pitch| ≤ Real.pi / 2 - 1 / 10000) (htp : |c.targetPitch| ≤ Real.pi / 2 - 1 / 10000)
    (hr : c.rotationSmoothing = 12) (hdt : 0 ≤ dt) :
    (c.orient M (min dt (5 / 100))).camera.quaternion =
      Quaternion.setFromEuler M
        (Euler.mk (c.orient M (min dt (5 / 100))).pitch (c.orient M (min dt (5 / 100))).yaw 0) ∧
    (c.update M dt).yaw = (c.orient M (min dt (5 / 100))).yaw ∧
    (c.update M dt).camera.quaternion = (c.orient M (min dt (5 / 100))).camera.quaternion ∧
    (c.orient M (min dt (5 / 100))).forward M =
      Vector3.mk (-Real.sin (c.update M dt).yaw) 0 (-Real.cos (c.update M dt).yaw) ∧
    (c.orient M (min dt (5 / 100))).right M =
      Vector3.mk (Real.cos (c.update M dt).yaw) 0 (-Real.sin (c.update M dt).yaw) ∧
    ((c.orient M (min dt (5 / 100))).forward M).lengthSq = 1 ∧
    ((c.orient M (min dt (5 / 100))).right M).lengthSq = 1 ∧
    Vector3.dot ((c.orient M (min dt (5 / 100))).forward M)
      ((c.orient M (min dt (5 / 100))).right M) = 0 ∧
    (c.orient M (min dt (5 / 100))).fallbackForward M =
      (c.orient M (min dt (5 / 100))).forward M ∧
    ((FirstPersonControls.intent c.keys : Vector3 ℝ).lengthSq ≠ 0 →
      (c.update M dt).camera.position =
        c.camera.position.addScaledVector
          ((c.orient M (min dt (5 / 100))).worldMove M
            ((FirstPersonControls.intent c.keys : Vector3 ℝ).normalize M))
          (min (c.speed * min dt (5 / 100)) 10)) := by
  have hinv := PitchInv_of_bounds M hM c hp htp hr
  have hmin : (0 : ℝ) ≤ min dt (5 / 100) := le_min hdt (by norm_num)
  have ho := PitchInv_orient M hM c _ hmin hinv
  have hyaw : (c.update M dt).yaw = (c.orient M (min dt (5 / 100))).yaw := by
    rw [(update_fields M c dt).2.2.2.1]; rfl
  have hquat : (c.update M dt).camera.quaternion =
      (c.orient M (min dt (5 / 100))).camera.quaternion := by
    unfold FirstPersonControls.update
    simp only
    split <;> rfl
  have hf := forward_eq M hM (c.orient M (min dt (5 / 100))) rfl ho.2.1
  have hrt := right_eq M hM (c.orient M (min dt (5 / 100))) rfl ho.2.1
  have hfb := fallbackForward_eq M hM (c.orient M (min dt (5 / 100)))
  refine ⟨rfl, hyaw, hquat, ?_, ?_, ?_, ?_, ?_, ?_, fun hint => update_position M c dt hint⟩
  · rw [hf, hyaw]
  · rw [hrt, hyaw]
  · rw [hf]; exact yaw_vector_unit _
  · rw [hrt]
    simp only [Vector3.lengthSq]
    linear_combination Real.sin_sq_add_cos_sq (c.orient M (min dt (5 / 100))).yaw
  · rw [hf, hrt]
    simp only [Vector3.dot]
    ring
  · rw [hf, hfb]

theorem C9_movement_basis_witness :
    JSMath.IsReal (⟨Real.pi, Real.exp, Real.sin, Real.cos, Real.sqrt, Real.arcsin,
      fun y x => Complex.arg ⟨x, y⟩⟩ : JSMath ℝ) ∧
    |(walkingControls keysWD : FirstPersonControls ℝ).pitch| ≤ Real.pi / 2 - 1 / 10000 ∧
    |(walkingControls keysWD : FirstPersonControls ℝ).targetPitch| ≤ Real.pi / 2 - 1 / 10000 ∧
    (walkingControls keysWD : FirstPersonControls ℝ).rotationSmoothing = 12 ∧
    (0 : ℝ) ≤ 1 / 60 ∧
    ((walkingControls keysWD : FirstPersonControls ℝ).orient
        (⟨Real.pi, Real.exp, Real.sin, Real.cos, Real.sqrt, Real.arcsin,
        fun y x => Complex.arg ⟨x, y⟩⟩ : JSMath ℝ)
        (min (1 / 60) (5 / 100))).forward
        (⟨Real.pi, Real.exp, Real.sin, Real.cos, Real.sqrt, Real.arcsin,
        fun y x => Complex.arg ⟨x, y⟩⟩ : JSMath ℝ) =
      Vector3.mk
        (-Real.sin ((walkingControls keysWD : FirstPersonControls ℝ).update
          (⟨Real.pi, Real.exp, Real.sin, Real.cos, Real.sqrt, Real.arcsin,
        fun y x => Complex.arg ⟨x, y⟩⟩ : JSMath ℝ)
          (1 / 60)).yaw)
        0
        (-Real.cos ((walkingControls keysWD : FirstPersonControls ℝ).update
          (⟨Real.pi, Real.exp, Real.sin, Real.cos, Real.sqrt, Real.arcsin,
        fun y x => Complex.arg ⟨x, y⟩⟩ : JSMath ℝ)
          (1 / 60)).yaw) :=
  have hM : JSMath.IsReal (⟨Real.pi, Real.exp, Real.sin, Real.cos, Real.sqrt, Real.arcsin,
      fun y x => Complex.arg ⟨x, y⟩⟩ : JSMath ℝ) := ⟨rfl, rfl, rfl, rfl, rfl⟩
  have hd : (0 : ℝ) ≤ 1 / 60 := by norm_num
  ⟨hM, walking_bounds.1, walking_bounds.2, rfl, hd,
    (C9_movement_basis _ hM
      (walkingControls keysWD) (1 / 60) walking_bounds.1 walking_bounds.2 rfl hd).2.2.2.1⟩

end MovementTheorems

/-! ## Theorems: the editor drag -/

section EditorTheorems

theorem onPointerMove_hit {α : Type} [LinearOrderedField α] (ed : Editor α) (ray : Ray α)
    (obj : ℕ) (a : Axis) (P : Vector3 α) (hd : ed.isDragging = true)
    (hs : ed.selectedObject = some obj) (ha : ed.dragAxis = some a)
    (hP : ray.intersectPlane ed.dragPlane = some P) :
    (ed.onPointerMove ray).meshPosition =
      Function.update ed.meshPosition obj
        (match a with
          | Axis.x => { ed.meshPosition obj with x := P.x }
          | Axis.y => { ed.meshPosition obj with y := P.y }
          | Axis.z => { ed.meshPosition obj with z := P.z }) := by
  unfold Editor.onPointerMove
  rw [hd, hs]
  simp only [hP, ha]
  cases a <;> simp [Vector3.sub]

/-- C10: in a dragging state with engaged axis `a`, if the pointer ray meets
the recorded drag plane at `P`, then after `onPointerMove` the selected
object's coordinate `a` equals `P`'s coordinate `a`, its other two coordinates
and every other object are unchanged (an entity at `(0,0,0)` dragged along x
to an intersection with `x = 2` ends at `(2,0,0)`); if the ray does not meet
the plane, nothing changes. -/
theorem C10_drag_moves_one_axis {α : Type} [LinearOrderedField α] (ed : Editor α)
    (ray : Ray α) (obj : ℕ) (a : Axis) (hd : ed.isDragging = true)
    (hs : ed.selectedObject = some obj) (ha : ed.dragAxis = some a) :
    (∀ P : Vector3 α, ray.intersectPlane ed.dragPlane = some P →
      ((ed.onPointerMove ray).meshPosition obj).coord a = P.coord a ∧
      (∀ b : Axis, b ≠ a →
        ((ed.onPointerMove ray).meshPosition obj).coord b = (ed.meshPosition obj).coord b) ∧
      (∀ other : ℕ, other ≠ obj →
        (ed.onPointerMove ray).meshPosition other = ed.meshPosition other) ∧
      (a = Axis.x → ed.meshPosition obj = Vector3.mk 0 0 0 → P.x = 2 →
        ((ed.onPointerMove ray).meshPosition obj) = Vector3.mk 2 0 0)) ∧
    (ray.intersectPlane ed.dragPlane = none → ed.onPointerMove ray = ed) := by
  constructor
  · intro P hP
    have h := onPointerMove_hit ed ray obj a P hd hs ha hP
    rw [h]
    refine ⟨?_, ?_, ?_, ?_⟩
    · cases a <;> simp [Vector3.coord]
    · intro b hb
      cases a <;> cases b <;> simp_all [Vector3.coord]
    · intro other ho
      simp [Function.update, ho]
    · intro hax h0 h2
      subst hax
      simp [h0, h2]
  · intro hnone
    unfold Editor.onPointerMove
    rw [hd, hs]
    simp only [hnone]

theorem C10_drag_moves_one_axis_witness :
    (sampleDrag : Editor ℚ).isDragging = true ∧
    (sampleDrag : Editor ℚ).selectedObject = some 0 ∧
    (sampleDrag : Editor ℚ).dragAxis = some Axis.x ∧
    (sampleRay : Ray ℚ).intersectPlane (sampleDrag : Editor ℚ).dragPlane =
      some (Vector3.mk 2 1 0) ∧
    ((sampleDrag : Editor ℚ).onPointerMove sampleRay).meshPosition 0 = Vector3.mk 2 0 0 ∧
    (parallelRay : Ray ℚ).intersectPlane (sampleDrag : Editor ℚ).dragPlane = none ∧
    (sampleDrag : Editor ℚ).onPointerMove parallelRay = sampleDrag :=
  have hP : (sampleRay : Ray ℚ).intersectPlane (sampleDrag : Editor ℚ).dragPlane =
      some (Vector3.mk 2 1 0) := by
    simp [sampleRay, sampleDrag, Ray.intersectPlane, Ray.distanceToPlane, Ray.at,
      Plane.setFromNormalAndCoplanarPoint, Vector3.dot, Vector3.addScaledVector]
  have hN : (parallelRay : Ray ℚ).intersectPlane (sampleDrag : Editor ℚ).dragPlane = none := by
    simp [parallelRay, sampleDrag, Ray.intersectPlane, Ray.distanceToPlane,
      Plane.setFromNormalAndCoplanarPoint, Plane.distanceToPoint, Vector3.dot]
  have h := C10_drag_moves_one_axis (sampleDrag : Editor ℚ) sampleRay 0 Axis.x rfl rfl rfl
  have hN2 := C10_drag_moves_one_axis (sampleDrag : Editor ℚ) parallelRay 0 Axis.x rfl rfl rfl
  ⟨rfl, rfl, rfl, hP, (h.1 _ hP).2.2.2 rfl rfl rfl, hN, hN2.2 hN⟩

/-- `onPointerMove` writes only `dragIntersection` and `meshPosition`. -/
theorem onPointerMove_frame {α : Type} [LinearOrderedField α] (ed : Editor α) (ray : Ray α) :
    (ed.onPointerMove ray).enabled = ed.enabled ∧
    (ed.onPointerMove ray).selectedObject = ed.selectedObject ∧
    (ed.onPointerMove ray).isDragging = ed.isDragging ∧
    (ed.onPointerMove ray).dragAxis = ed.dragAxis ∧
    (ed.onPointerMove ray).gizmoVisible = ed.gizmoVisible ∧
    (ed.onPointerMove ray).gizmoPosition = ed.gizmoPosition ∧
    (ed.onPointerMove ray).dragPlane = ed.dragPlane := by
  unfold Editor.onPointerMove
  split
  · split
    · exact ⟨rfl, rfl, rfl, rfl, rfl, rfl, rfl⟩
    · dsimp only
      split <;> exact ⟨rfl, rfl, rfl, rfl, rfl, rfl, rfl⟩
  · exact ⟨rfl, rfl, rfl, rfl, rfl, rfl, rfl⟩

/-- Without an active drag `onPointerMove` changes nothing. -/
theorem onPointerMove_idle {α : Type} [LinearOrderedField α] (ed : Editor α) (ray : Ray α)
    (h : ed.isDragging = false) : ed.onPointerMove ray = ed := by
  unfold Editor.onPointerMove
  rw [h]

theorem Inv_new {α : Type} [LinearOrderedField α] (meshPosition : ℕ → Vector3 α) :
    (Editor.new meshPosition).Inv := by
  simp [Editor.Inv, Editor.GizmoInv, Editor.DragInv, Editor.Idle, Editor.new]

theorem Inv_deselectObject {α : Type} [LinearOrderedField α] (ed : Editor α) :
    ed.deselectObject.GizmoInv ∧ ed.deselectObject.DragInv ∧ ed.deselectObject.Idle := by
  simp [Editor.GizmoInv, Editor.DragInv, Editor.Idle, Editor.deselectObject]

theorem Inv_toggle {α : Type} [LinearOrderedField α] (ed : Editor α) (h : ed.Inv) :
    ed.toggle.Inv := by
  obtain ⟨h1, h2, h3⟩ := h
  unfold Editor.toggle
  simp only
  split
  · next he =>
    refine ⟨h1, h2, fun hf => ?_⟩
    simp [he] at hf
  · obtain ⟨d1, d2, d3⟩ := Inv_deselectObject { ed with enabled := !ed.enabled }
    exact ⟨d1, d2, fun _ => d3⟩

theorem Inv_onPointerDown {α : Type} [LinearOrderedField α] (M : JSMath α) (ed : Editor α)
    (camera : Camera α) (museum : Museum) (arrowIntersects : List (Option Axis))
    (hits : List ℕ) (h : ed.Inv) :
    (ed.onPointerDown M camera museum arrowIntersects hits).Inv := by
  obtain ⟨h1, h2, h3⟩ := h
  unfold Editor.onPointerDown
  split
  · exact ⟨h1, h2, h3⟩
  · next hen =>
    have hen' : ed.enabled = true := by simpa using hen
    simp only
    split
    · next axis hax =>
      have hsel : ed.selectedObject.isSome = true ∧ ed.gizmoVisible = true := by
        by_contra hc
        simp only [not_and_or] at hc
        rcases hc with hc | hc <;> simp [hc] at hax
      obtain ⟨obj, hobj⟩ := Option.isSome_iff_exists.mp hsel.1
      unfold Editor.startDrag
      simp only [hobj]
      refine ⟨?_, ?_, ?_⟩
      · simp [Editor.GizmoInv, hobj, hsel.2]
      · intro _
        exact ⟨⟨axis, rfl⟩, by simp [hobj]⟩
      · intro hf
        simp [hen'] at hf
    · split
      · next object rest hint =>
        refine ⟨?_, ?_, ?_⟩
        · simp [Editor.GizmoInv, Editor.selectObject]
        · intro hd
          exact ⟨(h2 hd).1, by simp [Editor.selectObject]⟩
        · intro hf
          simp [Editor.selectObject, hen'] at hf
      · obtain ⟨d1, d2, d3⟩ := Inv_deselectObject ed
        exact ⟨d1, d2, fun _ => d3⟩

theorem Inv_onPointerUp {α : Type} [LinearOrderedField α] (ed : Editor α) (h : ed.Inv) :
    ed.onPointerUp.Inv := by
  obtain ⟨h1, h2, h3⟩ := h
  unfold Editor.onPointerUp
  split
  · exact ⟨h1, h2, h3⟩
  · refine ⟨h1, ?_, ?_⟩
    · intro hd
      simp at hd
    · intro hf
      exact ⟨(h3 hf).1, (h3 hf).2.1, rfl⟩

theorem Inv_update {α : Type} [LinearOrderedField α] (ed : Editor α) (h : ed.Inv) :
    ed.update.Inv := by
  unfold Editor.update
  split
  · split
    · exact h
    · exact h
  · exact h

theorem Inv_onPointerMove {α : Type} [LinearOrderedField α] (ed : Editor α) (ray : Ray α)
    (h : ed.Inv) : (ed.onPointerMove ray).Inv := by
  obtain ⟨f1, f2, f3, f4, f5, _, _⟩ := onPointerMove_frame ed ray
  simp only [Editor.Inv, Editor.GizmoInv, Editor.DragInv, Editor.Idle, f1, f2, f3, f4, f5]
  exact h

theorem Inv_handle {α : Type} [LinearOrderedField α] (M : JSMath α) (ed : Editor α)
    (e : EditorEvent α) (h : ed.Inv) : (ed.handle M e).Inv := by
  cases e with
  | keyDown code =>
    show (ed.onKeyDown code).Inv
    unfold Editor.onKeyDown
    split
    · exact Inv_toggle ed h
    · exact h
  | pointerDown camera museum arrowIntersects hits =>
    exact Inv_onPointerDown M ed camera museum arrowIntersects hits h
  | pointerMove ray => exact Inv_onPointerMove ed ray h
  | pointerUp => exact Inv_onPointerUp ed h
  | mouseMove clientX clientY innerWidth innerHeight => exact h
  | toggle => exact Inv_toggle ed h
  | update => exact Inv_update ed h

theorem Inv_run {α : Type} [LinearOrderedField α] (M : JSMath α)
    (events : List (EditorEvent α)) :
    ∀ (ed : Editor α), ed.Inv → (ed.run M events).Inv := by
  induction events with
  | nil => intro ed h; exact h
  | cons e rest ih =>
    intro ed h
    exact ih (ed.handle M e) (Inv_handle M ed e h)

/-- Without an active drag, an operation other than a pointer-down starts
none and moves no object. -/
theorem handle_not_dragging {α : Type} [LinearOrderedField α] (M : JSMath α) (ed : Editor α)
    (e : EditorEvent α) (hd : ed.isDragging = false) (he : e.isPointerDown = false) :
    (ed.handle M e).isDragging = false ∧ (ed.handle M e).meshPosition = ed.meshPosition := by
  cases e with
  | keyDown code =>
    show (ed.onKeyDown code).isDragging = false ∧ (ed.onKeyDown code).meshPosition = _
    unfold Editor.onKeyDown Editor.toggle
    simp only
    split
    · split
      · exact ⟨hd, rfl⟩
      · exact ⟨rfl, rfl⟩
    · exact ⟨hd, rfl⟩
  | pointerDown camera museum arrowIntersects hits => simp [EditorEvent.isPointerDown] at he
  | pointerMove ray =>
    show (ed.onPointerMove ray).isDragging = false ∧ (ed.onPointerMove ray).meshPosition = _
    rw [onPointerMove_idle ed ray hd]
    exact ⟨hd, rfl⟩
  | pointerUp =>
    show ed.onPointerUp.isDragging = false ∧ ed.onPointerUp.meshPosition = _
    unfold Editor.onPointerUp
    rw [hd]
    exact ⟨rfl, rfl⟩
  | mouseMove clientX clientY innerWidth innerHeight => exact ⟨hd, rfl⟩
  | toggle =>
    show ed.toggle.isDragging = false ∧ ed.toggle.meshPosition = _
    unfold Editor.toggle
    simp only
    split
    · exact ⟨hd, rfl⟩
    · exact ⟨rfl, rfl⟩
  | update =>
    show ed.update.isDragging = false ∧ ed.update.meshPosition = _
    unfold Editor.update
    split
    · split
      · exact ⟨hd, rfl⟩
      · exact ⟨hd, rfl⟩
    · exact ⟨hd, rfl⟩

theorem run_not_dragging {α : Type} [LinearOrderedField α] (M : JSMath α)
    (events : List (EditorEvent α)) :
    ∀ (ed : Editor α), ed.isDragging = false → (∀ e ∈ events, e.isPointerDown = false) →
      (ed.run M events).isDragging = false ∧ (ed.run M events).meshPosition = ed.meshPosition := by
  induction events with
  | nil => intro ed hd _; exact ⟨hd, rfl⟩
  | cons e rest ih =>
    intro ed hd he
    obtain ⟨h1, h2⟩ := handle_not_dragging M ed e hd (he e (List.mem_cons_self _ _))
    obtain ⟨i1, i2⟩ := ih (ed.handle M e) h1 (fun x hx => he x (List.mem_cons_of_mem _ hx))
    exact ⟨i1, i2.trans h2⟩

/-- C11: from every Dragging state `onPointerUp` yields the Selected state:
`isDragging` is false, `dragAxis` is null, and the selection, the gizmo and
every object's position are unchanged; after it, any sequence of operations
with no pointer-down (pointer-moves included) leaves every object's position
unchanged. -/
theorem C11_pointer_up_ends_drag {α : Type} [LinearOrderedField α] (M : JSMath α)
    (ed : Editor α) (obj : ℕ) (hd : ed.isDragging = true) (hs : ed.selectedObject = some obj) :
    ed.onPointerUp.isDragging = false ∧
    ed.onPointerUp.dragAxis = none ∧
    ed.onPointerUp.selectedObject = some obj ∧
    ed.onPointerUp.gizmoVisible = ed.gizmoVisible ∧
    ed.onPointerUp.gizmoPosition = ed.gizmoPosition ∧
    ed.onPointerUp.meshPosition = ed.meshPosition ∧
    ∀ events : List (EditorEvent α), (∀ e ∈ events, e.isPointerDown = false) →
      (ed.onPointerUp.run M events).meshPosition = ed.meshPosition ∧
      ∀ ray : Ray α,
        ((ed.onPointerUp.run M events).onPointerMove ray).meshPosition = ed.meshPosition := by
  have hup : ed.onPointerUp = { ed with isDragging := false, dragAxis := none } := by
    unfold Editor.onPointerUp
    rw [hd, hs]
  rw [hup]
  refine ⟨rfl, rfl, hs, rfl, rfl, rfl, fun events he => ?_⟩
  obtain ⟨r1, r2⟩ := run_not_dragging M events { ed with isDragging := false, dragAxis := none }
    rfl he
  refine ⟨r2, fun ray => ?_⟩
  rw [onPointerMove_idle _ ray r1]
  exact r2

theorem intersectObjects_first (pre post objects : List ℕ) (obj : ℕ)
    (hpre : ∀ h ∈ pre, h ∉ objects) (hobj : obj ∈ objects) :
    Raycaster.intersectObjects (pre ++ obj :: post) objects =
      obj :: Raycaster.intersectObjects post objects := by
  unfold Raycaster.intersectObjects
  have h1 : pre.filter (fun hit => decide (hit ∈ objects)) = [] := by
    rw [List.filter_eq_nil_iff]
    intro a ha
    simpa using hpre a ha
  rw [List.filter_append, h1, List.nil_append, List.filter_cons_of_pos (by simpa using hobj)]

theorem intersectObjects_none (hits objects : List ℕ) (h : ∀ hit ∈ hits, hit ∉ objects) :
    Raycaster.intersectObjects hits objects = [] := by
  unfold Raycaster.intersectObjects
  rw [List.filter_eq_nil_iff]
  intro a ha
  simpa using h a ha

/-- With edit mode on and no arm clicked, `onPointerDown` goes on to the
display meshes. -/
theorem onPointerDown_no_arm {α : Type} [LinearOrderedField α] (M : JSMath α) (ed : Editor α)
    (camera : Camera α) (museum : Museum) (arrowIntersects : List (Option Axis))
    (hits : List ℕ) (hen : ed.enabled = true)
    (hno : ed.selectedObject = none ∨ ed.gizmoVisible = false ∨ arrowIntersects = []) :
    ed.onPointerDown M camera museum arrowIntersects hits =
      match Raycaster.intersectObjects hits museum.displayMeshes with
      | object :: _ => ed.selectObject object
      | [] => ed.deselectObject := by
  unfold Editor.onPointerDown
  rw [if_neg (by simp [hen])]
  rcases hno with h | h | h <;> simp [h]

/-- C12: with edit mode enabled and no gizmo arm hit, `onPointerDown` selects
the nearest display mesh hit by the pointer ray (the first hit that is a
registered display mesh), replacing any previous selection and showing the
gizmo at that mesh's position; if the ray hits no display mesh, the result is
Idle: `selectedObject` null, gizmo hidden, `isDragging` false. -/
theorem C12_pointer_down_selects {α : Type} [LinearOrderedField α] (M : JSMath α)
    (ed : Editor α) (camera : Camera α) (museum : Museum)
    (arrowIntersects : List (Option Axis)) (hits : List ℕ) (hen : ed.enabled = true)
    (hno : ed.selectedObject = none ∨ ed.gizmoVisible = false ∨ arrowIntersects = []) :
    (∀ (pre post : List ℕ) (obj : ℕ), hits = pre ++ obj :: post →
      (∀ h ∈ pre, h ∉ museum.displayMeshes) → obj ∈ museum.displayMeshes →
      (ed.onPointerDown M camera museum arrowIntersects hits).selectedObject = some obj ∧
      (ed.onPointerDown M camera museum arrowIntersects hits).gizmoVisible = true ∧
      (ed.onPointerDown M camera museum arrowIntersects hits).gizmoPosition =
        ed.meshPosition obj ∧
      (ed.onPointerDown M camera museum arrowIntersects hits).meshPosition = ed.meshPosition) ∧
    ((∀ h ∈ hits, h ∉ museum.displayMeshes) →
      (ed.onPointerDown M camera museum arrowIntersects hits).selectedObject = none ∧
      (ed.onPointerDown M camera museum arrowIntersects hits).gizmoVisible = false ∧
      (ed.onPointerDown M camera museum arrowIntersects hits).isDragging = false) := by
  rw [onPointerDown_no_arm M ed camera museum arrowIntersects hits hen hno]
  constructor
  · intro pre post obj hh hpre hobj
    rw [hh, intersectObjects_first pre post _ obj hpre hobj]
    exact ⟨rfl, rfl, rfl, rfl⟩
  · intro hnone
    rw [intersectObjects_none hits _ hnone]
    exact ⟨rfl, rfl, rfl⟩

/-- C13: in the Selected state with edit mode enabled, a pointer-down whose
ray hits a gizmo arm enters Dragging without changing the selection:
`isDragging` is true, `dragAxis` is the axis of the arm hit, the recorded drag
plane has the camera's world direction as its normal and contains the selected
object's position; the result does not depend on the display registry or on
the meshes hit, the selectable-object check not being run. -/
theorem C13_pointer_down_on_arm {α : Type} [LinearOrderedField α] (M : JSMath α)
    (ed : Editor α) (camera : Camera α) (museum : Museum) (axis : Axis)
    (rest : List (Option Axis)) (hits : List ℕ) (obj : ℕ) (hen : ed.enabled = true)
    (hs : ed.selectedObject = some obj) (hg : ed.gizmoVisible = true) :
    (ed.onPointerDown M camera museum (some axis :: rest) hits).selectedObject = some obj ∧
    (ed.onPointerDown M camera museum (some axis :: rest) hits).gizmoVisible = true ∧
    (ed.onPointerDown M camera museum (some axis :: rest) hits).isDragging = true ∧
    (ed.onPointerDown M camera museum (some axis :: rest) hits).dragAxis = some axis ∧
    (ed.onPointerDown M camera museum (some axis :: rest) hits).dragPlane.normal =
      camera.getWorldDirection M ∧
    (ed.onPointerDown M camera museum (some axis :: rest) hits).dragPlane.distanceToPoint
      (ed.meshPosition obj) = 0 ∧
    (ed.onPointerDown M camera museum (some axis :: rest) hits).meshPosition = ed.meshPosition ∧
    ∀ (museum2 : Museum) (hits2 : List ℕ),
      ed.onPointerDown M camera museum2 (some axis :: rest) hits2 =
        ed.onPointerDown M camera museum (some axis :: rest) hits := by
  have key : ∀ (museum2 : Museum) (hits2 : List ℕ),
      ed.onPointerDown M camera museum2 (some axis :: rest) hits2 =
        { ed with
          isDragging := true, dragAxis := some axis,
          dragPlane := Plane.setFromNormalAndCoplanarPoint (camera.getWorldDirection M)
            (ed.meshPosition obj) } := by
    intro museum2 hits2
    unfold Editor.onPointerDown Editor.startDrag
    simp [hen, hs, hg]
  rw [key museum hits]
  refine ⟨hs, hg, rfl, rfl, rfl, ?_, rfl, fun museum2 hits2 => key museum2 hits2⟩
  simp only [Plane.distanceToPoint, Plane.setFromNormalAndCoplanarPoint, Vector3.dot]
  ring

/-- C14: in every state reachable from the constructor by key-down,
pointer-down, pointer-move, pointer-up, mouse-move, toggle and update
operations, the gizmo is visible if and only if `selectedObject` is
non-null. -/
theorem C14_gizmo_iff_selection {α : Type} [LinearOrderedField α] (M : JSMath α)
    (meshPosition : ℕ → Vector3 α) (events : List (EditorEvent α)) :
    ((Editor.new meshPosition).run M events).gizmoVisible = true ↔
      ((Editor.new meshPosition).run M events).selectedObject ≠ none :=
  (Inv_run M events _ (Inv_new meshPosition)).1

/-- C15: in every state reachable from the constructor by key-down,
pointer-down, pointer-move, pointer-up, mouse-move, toggle and update
operations, in any order, `isDragging` being true implies that `dragAxis` is
one of x, y, z and that `selectedObject` is non-null. -/
theorem C15_dragging_has_axis_and_selection {α : Type} [LinearOrderedField α] (M : JSMath α)
    (meshPosition : ℕ → Vector3 α) (events : List (EditorEvent α))
    (hd : ((Editor.new meshPosition).run M events).isDragging = true) :
    (∃ axis : Axis, ((Editor.new meshPosition).run M events).dragAxis = some axis) ∧
    ((Editor.new meshPosition).run M events).selectedObject ≠ none :=
  (Inv_run M events _ (Inv_new meshPosition)).2.1 hd

theorem sample_editor_facts :
    (selectedEditor sampleMath).enabled = true ∧
    (selectedEditor sampleMath).selectedObject = some 0 ∧
    (selectedEditor sampleMath).gizmoVisible = true ∧
    (selectedEditor sampleMath).isDragging = false ∧
    (draggingEditor sampleMath).isDragging = true ∧
    (draggingEditor sampleMath).selectedObject = some 0 ∧
    (draggingEditor sampleMath).dragAxis = some Axis.x :=
  ⟨rfl, rfl, rfl, rfl, rfl, rfl, rfl⟩

theorem run_append {α : Type} [LinearOrderedField α] (M : JSMath α) (ed : Editor α)
    (events more : List (EditorEvent α)) :
    ed.run M (events ++ more) = (ed.run M events).run M more := by
  unfold Editor.run
  rw [List.foldl_append]

theorem draggedEditor_eq {α : Type} [LinearOrderedField α] (M : JSMath α) :
    draggedEditor M = (draggingEditor M).onPointerMove sampleRay := by
  unfold draggedEditor draggingEditor dragMoveEvents
  rw [run_append]
  rfl

theorem C11_pointer_up_ends_drag_witness :
    (draggingEditor sampleMath).isDragging = true ∧
    (draggingEditor sampleMath).selectedObject = some 0 ∧
    (draggingEditor sampleMath).onPointerUp.isDragging = false ∧
    (draggingEditor sampleMath).onPointerUp.dragAxis = none ∧
    (draggingEditor sampleMath).onPointerUp.selectedObject = some 0 ∧
    (draggingEditor sampleMath).onPointerUp.gizmoVisible =
      (draggingEditor sampleMath).gizmoVisible ∧
    (draggingEditor sampleMath).onPointerUp.gizmoPosition =
      (draggingEditor sampleMath).gizmoPosition ∧
    (draggingEditor sampleMath).onPointerUp.meshPosition =
      (draggingEditor sampleMath).meshPosition ∧
    ∀ events : List (EditorEvent ℚ), (∀ e ∈ events, e.isPointerDown = false) →
      ((draggingEditor sampleMath).onPointerUp.run sampleMath events).meshPosition =
        (draggingEditor sampleMath).meshPosition ∧
      ∀ ray : Ray ℚ,
        (((draggingEditor sampleMath).onPointerUp.run sampleMath events).onPointerMove
          ray).meshPosition = (draggingEditor sampleMath).meshPosition :=
  ⟨rfl, rfl, C11_pointer_up_ends_drag sampleMath (draggingEditor sampleMath) 0 rfl rfl⟩

theorem C12_pointer_down_selects_witness :
    (editModeEditor sampleMath).enabled = true ∧
    ((editModeEditor sampleMath).selectedObject = none ∨
      (editModeEditor sampleMath).gizmoVisible = false ∨
      ([] : List (Option Axis)) = []) ∧
    ([7, 0, 1] : List ℕ) = [7] ++ 0 :: [1] ∧
    (∀ h ∈ ([7] : List ℕ), h ∉ museumDisplays.displayMeshes) ∧
    0 ∈ museumDisplays.displayMeshes ∧
    ((editModeEditor sampleMath).onPointerDown sampleMath createCamera museumDisplays []
      [7, 0, 1]).selectedObject = some 0 ∧
    ((editModeEditor sampleMath).onPointerDown sampleMath createCamera museumDisplays []
      [7, 0, 1]).gizmoVisible = true ∧
    ((editModeEditor sampleMath).onPointerDown sampleMath createCamera museumDisplays []
      [7, 0, 1]).gizmoPosition = (editModeEditor sampleMath).meshPosition 0 ∧
    ((editModeEditor sampleMath).onPointerDown sampleMath createCamera museumDisplays []
      [7, 0, 1]).meshPosition = (editModeEditor sampleMath).meshPosition :=
  have hpre : ∀ h ∈ ([7] : List ℕ), h ∉ museumDisplays.displayMeshes := by decide
  have hobj : 0 ∈ museumDisplays.displayMeshes := by decide
  ⟨rfl, Or.inl rfl, rfl, hpre, hobj,
    (C12_pointer_down_selects sampleMath (editModeEditor sampleMath) createCamera
      museumDisplays [] [7, 0, 1] rfl (Or.inl rfl)).1 [7] [1] 0 rfl hpre hobj⟩

theorem C13_pointer_down_on_arm_witness :
    (selectedEditor sampleMath).enabled = true ∧
    (selectedEditor sampleMath).selectedObject = some 0 ∧
    (selectedEditor sampleMath).gizmoVisible = true ∧
    ((selectedEditor sampleMath).onPointerDown sampleMath createCamera museumDisplays
      [some Axis.x] [0]).isDragging = true ∧
    ((selectedEditor sampleMath).onPointerDown sampleMath createCamera museumDisplays
      [some Axis.x] [0]).dragAxis = some Axis.x ∧
    ((selectedEditor sampleMath).onPointerDown sampleMath createCamera museumDisplays
      [some Axis.x] [0]).selectedObject = some 0 :=
  have h := C13_pointer_down_on_arm sampleMath (selectedEditor sampleMath) createCamera
    museumDisplays Axis.x [] [0] 0 rfl rfl rfl
  ⟨rfl, rfl, rfl, h.2.2.1, h.2.2.2.1, h.1⟩

theorem C15_dragging_has_axis_and_selection_witness :
    ((Editor.new standPosition).run sampleMath dragEvents).isDragging = true ∧
    (∃ axis : Axis,
      ((Editor.new standPosition).run sampleMath dragEvents).dragAxis = some axis) ∧
    ((Editor.new standPosition).run sampleMath dragEvents).selectedObject ≠ none :=
  ⟨rfl, C15_dragging_has_axis_and_selection sampleMath standPosition dragEvents rfl⟩

/-- C16: `toggle` switching edit mode off always ends in Idle
(`selectedObject` null, gizmo hidden, `isDragging` false); every reachable
state with edit mode disabled is Idle, and there no pointer-down, pointer-move
or pointer-up changes the selection or any object's position. -/
theorem C16_disabled_is_idle {α : Type} [LinearOrderedField α] (M : JSMath α)
    (meshPosition : ℕ → Vector3 α) (events : List (EditorEvent α))
    (hoff : ((Editor.new meshPosition).run M events).enabled = false) :
    (∀ ed : Editor α, ed.enabled = true → ed.toggle.enabled = false ∧ ed.toggle.Idle) ∧
    ((Editor.new meshPosition).run M events).Idle ∧
    ∀ e : EditorEvent α, e.isPointer = true →
      (((Editor.new meshPosition).run M events).handle M e).selectedObject =
        ((Editor.new meshPosition).run M events).selectedObject ∧
      (((Editor.new meshPosition).run M events).handle M e).meshPosition =
        ((Editor.new meshPosition).run M events).meshPosition ∧
      (((Editor.new meshPosition).run M events).handle M e).Idle := by
  have hinv := Inv_run M events _ (Inv_new meshPosition)
  have hidle := hinv.2.2 hoff
  refine ⟨fun ed hen => ?_, hidle, fun e he => ?_⟩
  · unfold Editor.toggle
    simp only [hen]
    exact ⟨rfl, rfl, rfl, rfl⟩
  · cases e with
    | keyDown code => simp [EditorEvent.isPointer] at he
    | pointerDown camera museum arrowIntersects hits =>
      have e1 : ((Editor.new meshPosition).run M events).handle M
          (EditorEvent.pointerDown camera museum arrowIntersects hits) =
          (Editor.new meshPosition).run M events := by
        show Editor.onPointerDown M _ camera museum arrowIntersects hits = _
        unfold Editor.onPointerDown
        rw [if_pos (by simp [hoff])]
      rw [e1]
      exact ⟨rfl, rfl, hidle⟩
    | pointerMove ray =>
      have e1 : ((Editor.new meshPosition).run M events).handle M (EditorEvent.pointerMove ray) =
          (Editor.new meshPosition).run M events :=
        onPointerMove_idle _ ray hidle.2.2
      rw [e1]
      exact ⟨rfl, rfl, hidle⟩
    | pointerUp =>
      show (Editor.onPointerUp _).selectedObject = _ ∧ (Editor.onPointerUp _).meshPosition = _ ∧
        (Editor.onPointerUp _).Idle
      unfold Editor.onPointerUp
      rw [hidle.2.2]
      exact ⟨rfl, rfl, hidle.1, hidle.2.1, rfl⟩
    | mouseMove clientX clientY innerWidth innerHeight => simp [EditorEvent.isPointer] at he
    | toggle => simp [EditorEvent.isPointer] at he
    | update => simp [EditorEvent.isPointer] at he

theorem C16_disabled_is_idle_witness :
    ((Editor.new standPosition).run sampleMath leaveEvents).enabled = false ∧
    ((Editor.new standPosition).run sampleMath leaveEvents).Idle ∧
    (((Editor.new standPosition).run sampleMath leaveEvents).handle sampleMath
      (EditorEvent.pointerDown createCamera museumDisplays [] [0])).selectedObject =
      ((Editor.new standPosition).run sampleMath leaveEvents).selectedObject :=
  have h := C16_disabled_is_idle sampleMath standPosition leaveEvents rfl
  ⟨rfl, h.2.1, (h.2.2 (EditorEvent.pointerDown createCamera museumDisplays [] [0]) rfl).1⟩

/-- `update` writes only the gizmo position. -/
theorem update_frame {α : Type} [LinearOrderedField α] (ed : Editor α) :
    ed.update.selectedObject = ed.selectedObject ∧
    ed.update.gizmoVisible = ed.gizmoVisible ∧
    ed.update.isDragging = ed.isDragging ∧
    ed.update.meshPosition = ed.meshPosition := by
  unfold Editor.update
  split
  · split
    · exact ⟨rfl, rfl, rfl, rfl⟩
    · exact ⟨rfl, rfl, rfl, rfl⟩
  · exact ⟨rfl, rfl, rfl, rfl⟩

/-- The gizmo position after `update`, for a visible gizmo on a selection. -/
theorem update_gizmoPosition {α : Type} [LinearOrderedField α] (ed : Editor α) (obj : ℕ)
    (hs : ed.selectedObject = some obj) (hg : ed.gizmoVisible = true) :
    (ed.isDragging = false → ed.update.gizmoPosition = ed.meshPosition obj) ∧
    (ed.isDragging = true → ed.update.gizmoPosition = ed.gizmoPosition) := by
  unfold Editor.update
  constructor
  · intro hd
    simp [hs, hg, hd]
  · intro hd
    simp [hs, hg, hd]

/-- The drag plane and the positions in the sample Dragging state. -/
theorem draggingEditor_plane :
    (draggingEditor sampleMath).dragPlane =
      { normal := Vector3.mk 0 0 (-1), constant := 0 } ∧
    (draggingEditor sampleMath).meshPosition = standPosition ∧
    (draggingEditor sampleMath).gizmoPosition = Vector3.mk 0 (1 / 2) 0 := by
  have hp : (draggingEditor sampleMath).dragPlane =
      Plane.setFromNormalAndCoplanarPoint (Camera.getWorldDirection sampleMath createCamera)
        (standPosition 0) := rfl
  have hdir : Camera.getWorldDirection sampleMath (createCamera : Camera ℚ) =
      Vector3.mk 0 0 (-1) := by
    simp [Camera.getWorldDirection, createCamera, Quaternion.toRotation, Vector3.normalize,
      Vector3.length, Vector3.lengthSq, Vector3.multiplyScalar, sampleMath]
  refine ⟨?_, rfl, rfl⟩
  rw [hp, hdir]
  simp [Plane.setFromNormalAndCoplanarPoint, standPosition, Vector3.dot]

/-- The pointer-move of the sample drag puts the center stand at
`(2, 1/2, 0)` and leaves the gizmo at `(0, 1/2, 0)`. -/
theorem draggedEditor_position :
    (draggedEditor sampleMath).selectedObject = some 0 ∧
    (draggedEditor sampleMath).isDragging = true ∧
    (draggedEditor sampleMath).gizmoVisible = true ∧
    (draggedEditor sampleMath).meshPosition 0 = Vector3.mk 2 (1 / 2) 0 ∧
    (draggedEditor sampleMath).gizmoPosition = Vector3.mk 0 (1 / 2) 0 := by
  obtain ⟨hpl, hmp, hgp⟩ := draggingEditor_plane
  obtain ⟨_, f2, f3, _, f5, f6, _⟩ := onPointerMove_frame (draggingEditor sampleMath) sampleRay
  have hP : (sampleRay : Ray ℚ).intersectPlane (draggingEditor sampleMath).dragPlane =
      some (Vector3.mk 2 1 0) := by
    rw [hpl]
    simp [sampleRay, Ray.intersectPlane, Ray.distanceToPlane, Ray.at, Vector3.dot,
      Vector3.addScaledVector]
  have hm := onPointerMove_hit (draggingEditor sampleMath) sampleRay 0 Axis.x _ rfl rfl rfl hP
  rw [draggedEditor_eq, f2, f3, f5, f6, hm, hgp, hmp]
  refine ⟨rfl, rfl, rfl, ?_, rfl⟩
  simp [standPosition]

/-- C20 (as amended): in every reachable state with a non-empty selection and
no drag in progress, after `update` the gizmo's position equals the selected
object's current position; while `isDragging` is true `update` leaves the
gizmo's position unchanged. -/
theorem C20_update_mirrors_when_not_dragging {α : Type} [LinearOrderedField α] (M : JSMath α)
    (meshPosition : ℕ → Vector3 α) (events : List (EditorEvent α)) (obj : ℕ)
    (hs : ((Editor.new meshPosition).run M events).selectedObject = some obj) :
    (((Editor.new meshPosition).run M events).isDragging = false →
      ((Editor.new meshPosition).run M events).update.gizmoPosition =
        ((Editor.new meshPosition).run M events).update.meshPosition obj) ∧
    (((Editor.new meshPosition).run M events).isDragging = true →
      ((Editor.new meshPosition).run M events).update.gizmoPosition =
        ((Editor.new meshPosition).run M events).gizmoPosition) ∧
    ((Editor.new meshPosition).run M events).update.selectedObject = some obj ∧
    ((Editor.new meshPosition).run M events).update.meshPosition =
      ((Editor.new meshPosition).run M events).meshPosition := by
  have hinv := Inv_run M events _ (Inv_new meshPosition)
  have hg : ((Editor.new meshPosition).run M events).gizmoVisible = true :=
    hinv.1.mpr (by rw [hs]; simp)
  obtain ⟨u1, _, _, u4⟩ := update_frame ((Editor.new meshPosition).run M events)
  obtain ⟨g1, g2⟩ := update_gizmoPosition _ obj hs hg
  refine ⟨fun hd => ?_, g2, by rw [u1, hs], u4⟩
  rw [u4]
  exact g1 hd

theorem C20_update_mirrors_when_not_dragging_witness :
    ((Editor.new standPosition).run sampleMath selectEvents).selectedObject = some 0 ∧
    (((Editor.new standPosition).run sampleMath selectEvents).isDragging = false →
      ((Editor.new standPosition).run sampleMath selectEvents).update.gizmoPosition =
        ((Editor.new standPosition).run sampleMath selectEvents).update.meshPosition 0) :=
  ⟨rfl, (C20_update_mirrors_when_not_dragging sampleMath standPosition selectEvents 0 rfl).1⟩

/-- C20 as stated fails: after select, a pointer-down on the X arm and a
pointer-move that drags the center stand to `(2, 1/2, 0)`, a reachable state
with a selection, `update` leaves the gizmo at `(0, 1/2, 0)`. -/
theorem C20_counterexample :
    (draggedEditor sampleMath : Editor ℚ) =
      (Editor.new standPosition).run sampleMath dragMoveEvents ∧
    (draggedEditor sampleMath).selectedObject = some 0 ∧
    (draggedEditor sampleMath).update.gizmoPosition = Vector3.mk 0 (1 / 2) 0 ∧
    (draggedEditor sampleMath).update.meshPosition 0 = Vector3.mk 2 (1 / 2) 0 ∧
    (draggedEditor sampleMath).update.gizmoPosition ≠
      (draggedEditor sampleMath).update.meshPosition 0 := by
  obtain ⟨hs, hd, hg, hm, hgp⟩ := draggedEditor_position
  obtain ⟨_, _, _, u4⟩ := update_frame (draggedEditor sampleMath)
  have h1 := (update_gizmoPosition (draggedEditor sampleMath) 0 hs hg).2 hd
  refine ⟨rfl, hs, by rw [h1, hgp], by rw [u4, hm], ?_⟩
  rw [h1, hgp, u4, hm]
  intro h
  have := congrArg Vector3.x h
  norm_num at this

theorem mem_intersectObjects (hits objects : List ℕ) (obj : ℕ)
    (h : obj ∈ Raycaster.intersectObjects hits objects) : obj ∈ objects := by
  unfold Raycaster.intersectObjects at h
  simpa using (List.mem_filter.mp h).2

/-- C18 (as amended): if the selected display is removed from the registry
after it was selected, the editor keeps the selection: `update` and
`onPointerMove` leave `selectedObject` and the gizmo's visibility unchanged,
`update` with no drag active copies the removed entity's position to the
gizmo, `onPointerMove` during a drag moves it along the engaged axis, and a
pointer-down on a gizmo arm starts a drag on it, with the drag plane through
its position; the removal only keeps a later pointer-down that hits no arm
from selecting it. -/
theorem C18_removed_display_stays_selected {α : Type} [LinearOrderedField α] (M : JSMath α)
    (ed : Editor α) (obj : ℕ) (museum : Museum) (hs : ed.selectedObject = some obj)
    (hg : ed.gizmoVisible = true) (hremoved : obj ∉ museum.displayMeshes) :
    ed.update.selectedObject = some obj ∧
    ed.update.gizmoVisible = true ∧
    (ed.isDragging = false → ed.update.gizmoPosition = ed.meshPosition obj) ∧
    (∀ ray : Ray α,
      (ed.onPointerMove ray).selectedObject = some obj ∧
      (ed.onPointerMove ray).gizmoVisible = true) ∧
    (∀ (ray : Ray α) (a : Axis) (P : Vector3 α), ed.isDragging = true →
      ed.dragAxis = some a → ray.intersectPlane ed.dragPlane = some P →
      ((ed.onPointerMove ray).meshPosition obj).coord a = P.coord a) ∧
    (∀ (camera : Camera α) (axis : Axis) (rest : List (Option Axis)) (hits : List ℕ),
      ed.enabled = true →
      (ed.onPointerDown M camera museum (some axis :: rest) hits).selectedObject = some obj ∧
      (ed.onPointerDown M camera museum (some axis :: rest) hits).isDragging = true ∧
      (ed.onPointerDown M camera museum (some axis :: rest) hits).dragPlane =
        Plane.setFromNormalAndCoplanarPoint (camera.getWorldDirection M)
          (ed.meshPosition obj)) ∧
    (∀ (camera : Camera α) (hits : List ℕ), ed.enabled = true →
      (ed.onPointerDown M camera museum [] hits).selectedObject ≠ some obj) := by
  obtain ⟨u1, u2, _, _⟩ := update_frame ed
  refine ⟨by rw [u1, hs], by rw [u2, hg], (update_gizmoPosition ed obj hs hg).1, ?_, ?_, ?_, ?_⟩
  · intro ray
    obtain ⟨_, f2, _, _, f5, _, _⟩ := onPointerMove_frame ed ray
    exact ⟨by rw [f2, hs], by rw [f5, hg]⟩
  · intro ray a P hd ha hP
    rw [onPointerMove_hit ed ray obj a P hd hs ha hP]
    cases a <;> simp [Vector3.coord]
  · intro camera axis rest hits hen
    have key : ed.onPointerDown M camera museum (some axis :: rest) hits =
        { ed with
          isDragging := true, dragAxis := some axis,
          dragPlane := Plane.setFromNormalAndCoplanarPoint (camera.getWorldDirection M)
            (ed.meshPosition obj) } := by
      unfold Editor.onPointerDown Editor.startDrag
      simp [hen, hs, hg]
    rw [key]
    exact ⟨hs, rfl, rfl⟩
  · intro camera hits hen
    rw [onPointerDown_no_arm M ed camera museum [] hits hen (Or.inr (Or.inr rfl))]
    cases hi : Raycaster.intersectObjects hits museum.displayMeshes with
    | nil => simp [Editor.deselectObject]
    | cons object rest =>
      have hmem : object ∈ museum.displayMeshes :=
        mem_intersectObjects hits _ object (by rw [hi]; exact List.mem_cons_self _ _)
      simp only [Editor.selectObject]
      intro h
      have : object = obj := Option.some.inj h
      exact hremoved (this ▸ hmem)

theorem C18_removed_display_stays_selected_witness :
    (selectedEditor sampleMath).selectedObject = some 0 ∧
    (selectedEditor sampleMath).gizmoVisible = true ∧
    0 ∉ museumWithoutCenter.displayMeshes ∧
    (selectedEditor sampleMath).update.selectedObject = some 0 ∧
    (selectedEditor sampleMath).update.gizmoVisible = true ∧
    ((selectedEditor sampleMath).isDragging = false →
      (selectedEditor sampleMath).update.gizmoPosition =
        (selectedEditor sampleMath).meshPosition 0) :=
  have hrem : 0 ∉ museumWithoutCenter.displayMeshes := by decide
  have h := C18_removed_display_stays_selected sampleMath (selectedEditor sampleMath) 0
    museumWithoutCenter rfl rfl hrem
  ⟨rfl, rfl, hrem, h.1, h.2.1, h.2.2.1⟩

/-- C18 as stated fails: the center stand is selected, then removed from the
registry; the next `update` keeps it selected with the gizmo visible and
copies its position to the gizmo, and a pointer-down on the X arm followed by
a pointer-move moves it. -/
theorem C18_counterexample :
    (selectedEditor sampleMath).selectedObject = some 0 ∧
    0 ∈ museumDisplays.displayMeshes ∧
    0 ∉ museumWithoutCenter.displayMeshes ∧
    (selectedEditor sampleMath).update.selectedObject = some 0 ∧
    (selectedEditor sampleMath).update.selectedObject ≠ none ∧
    (selectedEditor sampleMath).update.gizmoVisible = true ∧
    (selectedEditor sampleMath).update.gizmoPosition =
      (selectedEditor sampleMath).meshPosition 0 ∧
    ((selectedEditor sampleMath).onPointerDown sampleMath createCamera museumWithoutCenter
      [some Axis.x] []).isDragging = true ∧
    ((selectedEditor sampleMath).onPointerDown sampleMath createCamera museumWithoutCenter
      [some Axis.x] []).selectedObject = some 0 ∧
    (selectedEditor sampleMath).meshPosition 0 = Vector3.mk 0 (1 / 2) 0 ∧
    (((selectedEditor sampleMath).onPointerDown sampleMath createCamera museumWithoutCenter
      [some Axis.x] []).onPointerMove sampleRay).meshPosition 0 = Vector3.mk 2 (1 / 2) 0 := by
  have e : (selectedEditor sampleMath).onPointerDown sampleMath createCamera
      museumWithoutCenter [some Axis.x] [] = draggingEditor sampleMath := by
    unfold draggingEditor dragEvents selectedEditor
    rw [run_append]
    rfl
  have hmoved := draggedEditor_position.2.2.2.1
  rw [draggedEditor_eq] at hmoved
  refine ⟨rfl, by decide, by decide, rfl, ?_, rfl, rfl, rfl, rfl, rfl, ?_⟩
  · intro h
    have h2 : (selectedEditor sampleMath).update.selectedObject = some 0 := rfl
    rw [h2] at h
    exact Option.noConfusion h
  · rw [e]
    exact hmoved

end EditorTheorems

/-! ## Theorems: who consumes pointer movement -/

section PointerTheorems

/-- C19: a mouse-move delivered while the pointer is not locked, or at a time
earlier than `_ignoreMouseUntil`, leaves the controls unchanged, in particular
`targetYaw`, `targetPitch`, `yaw` and `pitch`, for every movement delta
(`NaN` and `±Infinity` included); `_onPointerLockChange` acquiring the lock at
time `t0` sets `_ignoreMouseUntil` to `t0 + 60`, so that every mouse-move
earlier than `t0 + 60` is ignored. -/
theorem C19_mouse_move_ignored {α : Type} [LinearOrderedField α] (M : JSMath α)
    (c : FirstPersonControls α) (now : α) (movementX movementY : JSNum α)
    (h : c.isLocked = false ∨ now < c._ignoreMouseUntil.getD 0) :
    c._onMouseMove M now movementX movementY = c ∧
    (c._onMouseMove M now movementX movementY).targetYaw = c.targetYaw ∧
    (c._onMouseMove M now movementX movementY).targetPitch = c.targetPitch ∧
    (c._onMouseMove M now movementX movementY).yaw = c.yaw ∧
    (c._onMouseMove M now movementX movementY).pitch = c.pitch ∧
    ∀ (d : FirstPersonControls α) (t0 t : α),
      (d._onPointerLockChange M t0 true)._ignoreMouseUntil = some (t0 + 60) ∧
      (t < t0 + 60 →
        (d._onPointerLockChange M t0 true)._onMouseMove M t movementX movementY =
          d._onPointerLockChange M t0 true) := by
  have key : ∀ (d : FirstPersonControls α) (t : α),
      d.isLocked = false ∨ t < d._ignoreMouseUntil.getD 0 →
      d._onMouseMove M t movementX movementY = d := by
    intro d t hd
    unfold FirstPersonControls._onMouseMove
    rcases hd with hd | hd
    · rw [if_pos (by simp [hd])]
    · split
      · rfl
      · simp only [hd, if_true]
  have e := key c now h
  refine ⟨e, by rw [e], by rw [e], by rw [e], by rw [e], fun d t0 t => ?_⟩
  have hu : (d._onPointerLockChange M t0 true)._ignoreMouseUntil = some (t0 + 60) := by
    simp [FirstPersonControls._onPointerLockChange, FirstPersonControls._initOrientationFromCamera]
  refine ⟨hu, fun ht => key _ t (Or.inr ?_)⟩
  rw [hu]
  exact ht

theorem C19_mouse_move_ignored_witness :
    ((lockedControls sampleMath).isLocked = false ∨
      (30 : ℚ) < (lockedControls sampleMath)._ignoreMouseUntil.getD 0) ∧
    (lockedControls sampleMath)._onMouseMove sampleMath 30 (JSNum.num 250) JSNum.posInf =
      lockedControls sampleMath :=
  have h : (lockedControls sampleMath).isLocked = false ∨
      (30 : ℚ) < (lockedControls sampleMath)._ignoreMouseUntil.getD 0 := by
    right
    simp [lockedControls, FirstPersonControls._onPointerLockChange]
    norm_num
  ⟨h, (C19_mouse_move_ignored sampleMath (lockedControls sampleMath) 30 (JSNum.num 250)
    JSNum.posInf h).1⟩

/-- With `sampleMath`, whose `atan2` is constantly 0 (the value of the real
`atan2(0, 1)` for the identity orientation of `createCamera`), the yaw read
back from the camera on acquiring the lock is 0. -/
theorem lock_targetYaw_sample (d : FirstPersonControls ℚ) (t0 : ℚ) :
    (d._onPointerLockChange sampleMath t0 true).targetYaw = 0 := by
  show (Euler.setFromQuaternion sampleMath d.camera.quaternion).y = 0
  unfold Euler.setFromQuaternion
  dsimp only
  split <;> rfl

/-- The editor part of `System.toggle` is `Editor.toggle`. -/
theorem System_toggle_editor {α : Type} [LinearOrderedField α] (s : System α) :
    s.toggle.editor = s.editor.toggle := by
  unfold System.toggle Editor.toggle
  simp only
  split <;> rfl

/-- C17 at a failing input: the backquote key switches edit mode on, which
exits pointer lock and sets `playerControls.enabled` to false; a click on the
canvas requests the lock again (`_onClick` does not look at `enabled`), the
lock is granted, and a mouse-move by 10 pixels then turns `targetYaw` by
`10 * 0.002` while `Editor.enabled` is true. -/
theorem C17_mouse_look_in_edit_mode :
    (editClickScenario sampleMath).editor.enabled = true ∧
    (editClickScenario sampleMath).playerControlsEnabled = some false ∧
    (editClickScenario sampleMath).lockCalls =
      [LockCall.exitPointerLock, LockCall.requestDomElement] ∧
    (editClickScenario sampleMath).controls.isLocked = true ∧
    ((editClickScenario sampleMath).handle sampleMath lookRight).editor.enabled = true ∧
    (editClickScenario sampleMath).controls.targetYaw = 0 ∧
    ((editClickScenario sampleMath).handle sampleMath lookRight).controls.targetYaw =
      -(1 / 50) ∧
    ((editClickScenario sampleMath).handle sampleMath lookRight).controls.targetYaw ≠
      (editClickScenario sampleMath).controls.targetYaw := by
  have hl : (editClickScenario sampleMath).controls.isLocked = true := rfl
  have hu : (editClickScenario sampleMath).controls._ignoreMouseUntil = some (1000 + 60) := rfl
  have hmax : (editClickScenario sampleMath).controls.maxMouseDelta = 100 := rfl
  have hsens : (editClickScenario sampleMath).controls.mouseSensitivity = 2 / 1000 := rfl
  have hctl : (editClickScenario sampleMath).controls =
      ((FirstPersonControls.new sampleMath createCamera)._onKeyDown "`")._onPointerLockChange
        sampleMath 1000 true := rfl
  have hy0 : (editClickScenario sampleMath).controls.targetYaw = 0 := by
    rw [hctl]
    exact lock_targetYaw_sample _ 1000
  have hy : ((editClickScenario sampleMath).handle sampleMath lookRight).controls.targetYaw =
      -(1 / 50) := by
    show ((editClickScenario sampleMath).controls._onMouseMove sampleMath 2000 (JSNum.num 10)
      (JSNum.num 0)).targetYaw = _
    unfold FirstPersonControls._onMouseMove
    rw [if_neg (by simp [hl]), if_neg (by rw [hu]; norm_num)]
    simp only [hmax, hsens, hy0, mouseDelta_num _ _ (by norm_num : (0 : ℚ) ≤ 100)]
    norm_num
  refine ⟨rfl, rfl, rfl, hl, rfl, hy0, hy, ?_⟩
  rw [hy, hy0]
  norm_num

end PointerTheorems

end Museum
